import Mathlib

/-!
# nsync: reconciliation of live and persisted network configuration

A shallow embedding of the comparison, creation, parsing and rewriting routines of
the nsync utility (`nsync_centos.c`, `nsync_centos_parse.c`, `nsync_ubuntu.c`,
`nsync_utils.c`), with the properties of its specification stated over the embedding.

Conventions of the embedding:

* a byte is a `Char`; a C string is the list of its bytes before the terminating NUL
  (`CStr`); a `char *` that may be `NULL` is an `Option CStr`;
* heap allocation is taken to succeed (the `MEM_CHECK` exits are not modelled);
* a file is the list of its bytes; a write to a file is the text written.
-/

namespace Nsync

/-- A C string: the bytes that precede the terminating NUL. -/
abbrev CStr := List Char

/-! ## Constants (`nsync_utils.h`, `nsync_centos_parse.h`) -/

def MAX_OUTPUT_LEN : Nat := 1000
def MAX_ROUTES : Nat := 100
def CFG_LINE_LEN : Nat := 300
def MAX_OPT_LEN : Nat := 100
def MAX_VAL_LEN : Nat := CFG_LINE_LEN - MAX_OPT_LEN - 1

/-! ## States of the utility (`nsync_info.h`) -/

inductive nsync_state_t where
  | NSYNC_START
  | NSYNC_CHECK_OS
  | NSYNC_GET_CONFIG
  | NSYNC_GET_UNSYNCED
  | NSYNC_CHECK_EXIST
  | NSYNC_COMPARE_CONFIG
  | NSYNC_BACKUP
  | NSYNC_OVERWRITE
  | NSYNC_CREATE_WRITE
  | NSYNC_KEEP_EXISTING
  | NSYNC_IF_SYNCED
  | NSYNC_ERROR
  | NSYNC_DONE
  | NSYNC_SUCCESS
  deriving DecidableEq, Repr

open nsync_state_t

/-! ## Records of the RHEL dialect (`nsync_centos_parse.h`) -/

/-- The struct `routes_parsed`: `route_list` holds the `num_route` parsed routes. -/
structure routes_parsed_t where
  route_list : List CStr
  deriving DecidableEq, Repr

/-- The field `num_route` of `routes_parsed`. -/
def routes_parsed_t.num_route (rp : routes_parsed_t) : Nat := rp.route_list.length

/-- The struct `interface_config_fields`: the values of an `ifcfg-<interface>` file. -/
structure ifcfg_fields_t where
  comment : Option CStr := none
  type : Option CStr := none
  device : Option CStr := none
  onboot : Option CStr := none
  bootproto : Option CStr := none
  ipaddr : Option CStr := none
  gateway : Option CStr := none
  netmask : Option CStr := none
  dns0 : Option CStr := none
  dns1 : Option CStr := none
  ipv4_failure_fatal : Option CStr := none
  ipv6addr : Option CStr := none
  ipv6_autoconf : Option CStr := none
  ipv6init : Option CStr := none
  ipv6_failure_fatal : Option CStr := none
  ipv6_addr_gen_mode : Option CStr := none
  nm_controlled : Option CStr := none
  userctl : Option CStr := none
  defroute : Option CStr := none
  vlan : Option CStr := none
  mtu : Option CStr := none
  hwaddr : Option CStr := none
  uuid : Option CStr := none
  network : Option CStr := none
  broadcast : Option CStr := none
  name : Option CStr := none
  proxy_method : Option CStr := none
  browser_only : Option CStr := none
  arping_wait : Option CStr := none
  unknown : Option CStr := none
  deriving DecidableEq, Repr

/-- The struct `ip_addr_show_fields`: the values read from `ip addr show <interface>`. -/
structure ip_show_fields_t where
  name : Option CStr := none
  mtu : Option CStr := none
  link : Option CStr := none
  inet : Option CStr := none
  inet_mask : Option CStr := none
  inet6 : Option CStr := none
  inet6_mask : Option CStr := none
  dynamic : Bool := false
  deriving DecidableEq, Repr

/-- The struct `route_config`. `routes` is the non-NULL prefix of the array `routes`, so
`num_routes` is its length; `comments j` and `gaps j` are the slots `comments[j]` and
`gaps[j]` (`none` for `NULL`). -/
structure rt_cfg_t where
  routes : List CStr
  comments : Nat → Option CStr
  gaps : Nat → Option CStr

/-- The field `num_routes` of `route_config`. -/
def rt_cfg_t.num_routes (rc : rt_cfg_t) : Nat := rc.routes.length

/-! ## `centos_compare_configs` (`nsync_centos.c`) -/

/-- The string left in the buffer of `dst` by `memcpy(dst, src, n)` where `src` is a C string
in a buffer of at least `n` bytes. A `src` shorter than `n` is copied with its terminator.
A longer `src` is copied without one: its first `n` bytes are then followed by what the
buffer held from byte `n` on, taken here to be the rest of `dst`. -/
def memcpy_str (dst src : CStr) (n : Nat) : CStr :=
  if src.length < n then src else src.take n ++ dst.drop n

/-- One turn of the loop "Compare all the routes" at index `i`. The state is the persisted
route array and the flag `match`; `routes` is the array `CENTOS_ACTIVE_ROUTES`. A `NULL`
slot `i` of the persisted array is first given an empty string (and `num_routes` is
incremented). The index `i` stays below the number of mapped routes, which are taken from
`routes` by `centos_map_routes_to_if`, so `routes` has an entry `i`; an index past its end
reads as the empty string here. -/
def centos_compare_routes_step (routes : List CStr) (st : List CStr × Bool) (i : Nat) :
    List CStr × Bool :=
  let pr := if st.1.length ≤ i then st.1 ++ [[]] else st.1
  if pr.getD i [] ≠ routes.getD i [] then
    (pr.set i (memcpy_str (pr.getD i []) (routes.getD i []) MAX_OUTPUT_LEN), false)
  else (pr, st.2)

/-- The loop `for (int i = 0; i < active_rt_cnt; i++)` of `centos_compare_configs`. -/
def centos_compare_routes_loop (routes : List CStr) (active_rt_cnt : Nat)
    (st : List CStr × Bool) : List CStr × Bool :=
  (List.range active_rt_cnt).foldl (centos_compare_routes_step routes) st

/-- The comparison of one field in `centos_compare_configs`, with `n` the size given to
`calloc` and `memcpy`:
`if (active != NULL) { if (!stored) stored = calloc(n, 1);
   if (strcmp(active, stored) != 0) { match = false; memcpy(stored, active, n); } }`.
Returns the persisted field and the flag `match`. -/
def centos_compare_field (n : Nat) (active stored : Option CStr) (m : Bool) :
    Option CStr × Bool :=
  match active with
  | none => (stored, m)
  | some a =>
    let s := stored.getD []
    if a ≠ s then (some (memcpy_str s a n), false) else (some s, m)

/-- The comparison of the MTU in `centos_compare_configs` ("MTU may be left out as 1500 is
default"): as `centos_compare_field`, with the test
`strcmp(active->mtu, stored->mtu) != 0 && strcmp(active->mtu, "1500") != 0`. -/
def centos_compare_mtu (active stored : Option CStr) (m : Bool) : Option CStr × Bool :=
  match active with
  | none => (stored, m)
  | some a =>
    let s := stored.getD []
    if a ≠ s ∧ a ≠ ['1', '5', '0', '0'] then (some (memcpy_str s a MAX_OPT_LEN), false)
    else (some s, m)

/-- The field comparisons of `centos_compare_configs` below the label `compare_ifcfg`, for a
persisted record `stored` and an active record `active`; `m` is the flag `match` on entry.
The comparisons run in the order of the source (device, mtu, ipaddr, netmask, arping_wait),
each on its own field of `stored`. Returns the persisted record as left by the comparisons
and the final flag. -/
def centos_compare_fields (arping_wait : Bool) (active : ip_show_fields_t)
    (stored : ifcfg_fields_t) (m : Bool) : ifcfg_fields_t × Bool :=
  let dev := centos_compare_field MAX_OPT_LEN active.name stored.device m
  let mtu := centos_compare_mtu active.mtu stored.mtu dev.2
  let ip :=
    if active.dynamic then (stored.ipaddr, mtu.2)
    else centos_compare_field 20 active.inet stored.ipaddr mtu.2
  let nm :=
    if active.dynamic then (stored.netmask, ip.2)
    else centos_compare_field 20 active.inet_mask stored.netmask ip.2
  let aw : Option CStr × Bool :=
    if arping_wait ∧ stored.arping_wait = none then (some ['8'], false)
    else (stored.arping_wait, nm.2)
  ({ stored with device := dev.1, mtu := mtu.1, ipaddr := ip.1, netmask := nm.1,
                 arping_wait := aw.1 }, aw.2)

/-- The result of `centos_compare_configs`: the next state, and the persisted route record
and persisted ifcfg record as the function leaves them. -/
structure centos_compare_result where
  state : nsync_state_t
  persist_rts : Option rt_cfg_t
  stored : Option ifcfg_fields_t

/-- The function `centos_compare_configs` for the interface `to_sync`: `routes` is
`CENTOS_ACTIVE_ROUTES`,
`mapped` is `CENTOS_MAPPED_I(to_sync)`, `persist_rts` is `CENTOS_PERSIST_ROUTES(to_sync)`,
`stored` is `CENTOS_STORED_IFCFG(to_sync)` and `active` is `CENTOS_ACTIVE_CFG(to_sync)`.
The result is `none` where the source reads a field of a `NULL` active record. -/
def centos_compare_configs (arping_wait : Bool) (routes : List CStr) (mapped : routes_parsed_t)
    (persist_rts : Option rt_cfg_t) (stored : Option ifcfg_fields_t)
    (active : Option ip_show_fields_t) : Option centos_compare_result :=
  let compare_ifcfg (m : Bool) (persist_rts : Option rt_cfg_t) : Option centos_compare_result :=
    match stored with
    | none =>
      match active with
      | some _ => some ⟨NSYNC_BACKUP, persist_rts, none⟩
      | none => some ⟨NSYNC_KEEP_EXISTING, persist_rts, none⟩
    | some s =>
      match active with
      | none => none
      | some a =>
        let r := centos_compare_fields arping_wait a s m
        some ⟨if r.2 then NSYNC_KEEP_EXISTING else NSYNC_BACKUP, persist_rts, some r.1⟩
  match persist_rts with
  | none =>
    if mapped.num_route > 0 then some ⟨NSYNC_BACKUP, none, stored⟩
    else compare_ifcfg true none
  | some rc =>
    let persist_rt_cnt := rc.num_routes
    let active_rt_cnt := mapped.num_route
    let m := decide (persist_rt_cnt = active_rt_cnt)
    let r := centos_compare_routes_loop routes active_rt_cnt (rc.routes, m)
    compare_ifcfg r.2 (some { rc with routes := r.1 })

/-- The next state returned by `centos_compare_configs`. -/
def centos_compare_state (arping_wait : Bool) (routes : List CStr) (mapped : routes_parsed_t)
    (persist_rts : Option rt_cfg_t) (stored : Option ifcfg_fields_t)
    (active : Option ip_show_fields_t) : Option nsync_state_t :=
  (centos_compare_configs arping_wait routes mapped persist_rts stored active).map
    centos_compare_result.state

/-- The persisted ifcfg record as `centos_compare_configs` leaves it. -/
def centos_compare_stored (arping_wait : Bool) (routes : List CStr) (mapped : routes_parsed_t)
    (persist_rts : Option rt_cfg_t) (stored : Option ifcfg_fields_t)
    (active : Option ip_show_fields_t) : Option ifcfg_fields_t :=
  (centos_compare_configs arping_wait routes mapped persist_rts stored active).bind
    centos_compare_result.stored

/-! ## Text helpers (`nsync_utils.c` and the C library) -/

/-- The NUL byte. -/
def NUL : Char := Char.ofNat 0

/-- The double quote. -/
def DQUOTE : Char := Char.ofNat 34

/-- The C string held by a buffer: its bytes up to the first NUL. -/
def c_str (buf : CStr) : CStr := buf.takeWhile (fun c => c ≠ NUL)

/-- The bytes `fgets` takes from a stream when `n` more bytes fit: it stops after a newline,
at the end of the stream, or when the room is used up. Returns the bytes and the rest of
the stream. -/
def fgets_bytes : Nat → CStr → CStr × CStr
  | 0, stream => ([], stream)
  | _ + 1, [] => ([], [])
  | n + 1, c :: rest =>
    if c = '\n' then ([c], rest)
    else ((c :: (fgets_bytes n rest).1), (fgets_bytes n rest).2)

/-- The function `fgets(line, size, fp)`: `none` at the end of the stream, else the line read
(as the C
string left in `line`) and the rest of the stream. -/
def fgets (size : Nat) (stream : CStr) : Option (CStr × CStr) :=
  if stream = [] then none
  else some (c_str (fgets_bytes (size - 1) stream).1, (fgets_bytes (size - 1) stream).2)

/-- The lines that a loop `while (fgets(line, size, fp))` sees, with at most `fuel` turns. -/
def read_lines_fuel (size : Nat) : Nat → CStr → List CStr
  | 0, _ => []
  | fuel + 1, stream =>
    match fgets size stream with
    | none => []
    | some (line, rest) => line :: read_lines_fuel size fuel rest

/-- The lines that a loop `while (fgets(line, size, fp))` sees on a file. Every turn takes at
least one byte when `size` is 2 or more, so the length of the file is fuel enough. -/
def read_lines (size : Nat) (file : CStr) : List CStr :=
  read_lines_fuel size file.length file

/-- The function `safe_strncpy(dest, src, n)`: the string left in `dest`. -/
def safe_strncpy (dest src : CStr) (n : Nat) : CStr :=
  if n = 0 then dest else src.take (n - 1)

/-- The function `strsep(&p, delim)` on the string `p`: the token before the first byte of
`delim`, and the
new value of `p` (the text after that byte, `none` for `NULL` when no delimiter is left). -/
def strsep : CStr → CStr → CStr × Option CStr
  | [], _ => ([], none)
  | c :: rest, delim =>
    if c ∈ delim then ([], some rest)
    else (c :: (strsep rest delim).1, (strsep rest delim).2)

/-- The tokenizing loop of `get_field_delim`,
`while ((i != col) && ((field = strsep(&srccpyptr, delim)) != NULL)) { ++i; }`,
with `k = col - i` turns to go. `none` when the loop ends with `i != col`. -/
def get_field_loop (delim : CStr) : Nat → Option CStr → CStr → Option CStr
  | 0, _, field => some field
  | _ + 1, none, _ => none
  | k + 1, some p, _ => get_field_loop delim k (strsep p delim).2 (strsep p delim).1

/-- The function `get_field_delim(dest, src, col, destsz, delim)`: the string left in `dest`. -/
def get_field_delim (dest src : CStr) (col destsz : Nat) (delim : CStr) : CStr :=
  match get_field_loop delim col (some src) src with
  | none => safe_strncpy dest [] destsz
  | some field => safe_strncpy dest field (min (field.length + 1) destsz)

/-- The separators used by the trimming functions when `seps` is `NULL`. -/
def default_seps : CStr := ['\t', '\n', Char.ofNat 11, Char.ofNat 12, '\r', ' ']

/-- The function `ltrim(str, seps)`. -/
def ltrim (str seps : CStr) : CStr := str.dropWhile (fun c => decide (c ∈ seps))

/-- The function `rtrim(str, seps)`. -/
def rtrim (str seps : CStr) : CStr :=
  (str.reverse.dropWhile (fun c => decide (c ∈ seps))).reverse

/-- The function `trim(str, seps)`. -/
def trim (str seps : CStr) : CStr := ltrim (rtrim str seps) seps

/-- The lines of a text: the pieces between its newlines (the piece after the last newline
included, empty when the text ends with a newline). -/
def text_lines : CStr → List CStr
  | [] => [[]]
  | c :: rest =>
    if c = '\n' then [] :: text_lines rest
    else
      match text_lines rest with
      | [] => [[c]]
      | l :: ls => (c :: l) :: ls

/-- A line of the text `text` starts with `key`. -/
def has_line_with (key text : CStr) : Prop := ∃ l ∈ text_lines text, key.isPrefixOf l = true

instance (key text : CStr) : Decidable (has_line_with key text) := by
  unfold has_line_with; infer_instance

/-- The text made of the given lines, each followed by a newline. -/
def unlines (ls : List CStr) : CStr := (ls.map (fun l => l ++ ['\n'])).flatten

/-- The lines of a text that start with `key`, in order. -/
def lines_with (key text : CStr) : List CStr :=
  (text_lines text).filter (fun l => key.isPrefixOf l)

/-! ## Options of an ifcfg file (`nsync_centos_parse.h`, `nsync_centos_parse.c`) -/

/-- The enumeration `ifcfg_opt_t`. -/
inductive ifcfg_opt_t where
  | COMMENT
  | TYPE
  | DEVICE
  | ONBOOT
  | BOOTPROTO
  | IPADDR
  | GATEWAY
  | NETMASK
  | DNS1
  | DNS2
  | IPV4_FAILURE_FATAL
  | IPV6ADDR
  | IPV6INIT
  | NM_CONTROLLED
  | USERCTL
  | DEFROUTE
  | VLAN
  | MTU
  | HWADDR
  | UUID
  | NETWORK
  | BROADCAST
  | NAME
  | IPV6_AUTOCONF
  | PROXY_METHOD
  | BROWSER_ONLY
  | ARPING_WAIT
  | NUM_OPT
  | UNKNOWN_OPT
  deriving DecidableEq, Repr

open ifcfg_opt_t

/-- The enumerators below `NUM_OPT`, in order: the indices of the table `ifcfg_opt`. -/
def ifcfg_opt_indices : List ifcfg_opt_t :=
  [COMMENT, TYPE, DEVICE, ONBOOT, BOOTPROTO, IPADDR, GATEWAY, NETMASK, DNS1, DNS2,
   IPV4_FAILURE_FATAL, IPV6ADDR, IPV6INIT, NM_CONTROLLED, USERCTL, DEFROUTE, VLAN, MTU,
   HWADDR, UUID, NETWORK, BROADCAST, NAME, IPV6_AUTOCONF, PROXY_METHOD, BROWSER_ONLY,
   ARPING_WAIT]

/-- The table `ifcfg_opt` of option strings; the two enumerators that are no index of the
table are given the empty string. -/
def ifcfg_opt : ifcfg_opt_t → CStr
  | COMMENT => "#".toList
  | TYPE => "TYPE".toList
  | DEVICE => "DEVICE".toList
  | ONBOOT => "ONBOOT".toList
  | BOOTPROTO => "BOOTPROTO".toList
  | IPADDR => "IPADDR".toList
  | GATEWAY => "GATEWAY".toList
  | NETMASK => "NETMASK".toList
  | DNS1 => "DNS1".toList
  | DNS2 => "DNS2".toList
  | IPV4_FAILURE_FATAL => "IPV4_FAILURE_FATAL".toList
  | IPV6ADDR => "IPV6ADDR".toList
  | IPV6INIT => "IPV6INIT".toList
  | NM_CONTROLLED => "NM_CONTROLLED".toList
  | USERCTL => "USERCTL".toList
  | DEFROUTE => "DEFROUTE".toList
  | VLAN => "VLAN".toList
  | MTU => "MTU".toList
  | HWADDR => "HWADDR".toList
  | UUID => "UUID".toList
  | NETWORK => "NETWORK".toList
  | BROADCAST => "BROADCAST".toList
  | NAME => "NAME".toList
  | IPV6_AUTOCONF => "IPV6_AUTOCONF".toList
  | PROXY_METHOD => "PROXY_METHOD".toList
  | BROWSER_ONLY => "BROWSER_ONLY".toList
  | ARPING_WAIT => "ARPING_WAIT".toList
  | NUM_OPT => []
  | UNKNOWN_OPT => []

/-- The function `opt_str_to_enum`: the first index of the table whose string equals `str`, and
`UNKNOWN_OPT` when there is none. -/
def opt_str_to_enum (str : CStr) : ifcfg_opt_t :=
  (ifcfg_opt_indices.find? (fun i => decide (str = ifcfg_opt i))).getD UNKNOWN_OPT

/-- The field of the record that the `switch` of `parse_ifcfg_fields` and of
`centos_overwrite_configs` pairs with an option (none for `UNKNOWN_OPT` and `NUM_OPT`). -/
def ifcfg_fields_t.get (cfg : ifcfg_fields_t) : ifcfg_opt_t → Option CStr
  | COMMENT => cfg.comment
  | TYPE => cfg.type
  | DEVICE => cfg.device
  | ONBOOT => cfg.onboot
  | BOOTPROTO => cfg.bootproto
  | IPADDR => cfg.ipaddr
  | GATEWAY => cfg.gateway
  | NETMASK => cfg.netmask
  | DNS1 => cfg.dns0
  | DNS2 => cfg.dns1
  | IPV4_FAILURE_FATAL => cfg.ipv4_failure_fatal
  | IPV6ADDR => cfg.ipv6addr
  | IPV6INIT => cfg.ipv6init
  | NM_CONTROLLED => cfg.nm_controlled
  | USERCTL => cfg.userctl
  | DEFROUTE => cfg.defroute
  | VLAN => cfg.vlan
  | MTU => cfg.mtu
  | HWADDR => cfg.hwaddr
  | UUID => cfg.uuid
  | NETWORK => cfg.network
  | BROADCAST => cfg.broadcast
  | NAME => cfg.name
  | IPV6_AUTOCONF => cfg.ipv6_autoconf
  | PROXY_METHOD => cfg.proxy_method
  | BROWSER_ONLY => cfg.browser_only
  | ARPING_WAIT => cfg.arping_wait
  | NUM_OPT => none
  | UNKNOWN_OPT => none

/-- The first turn of the accumulator `unknown` of `parse_ifcfg_fields`:
`acc = calloc(strlen(line)+1); safe_strncpy(acc, line, strlen(line));
 acc[strlen(acc)] = '\n';`. -/
def accumulate_first (line : CStr) : CStr :=
  safe_strncpy [] line line.length ++ ['\n']

/-- A later turn of a text accumulator of the parsers (`unknown`, `gaps[j]`, `comments[j]`):
`safe_strncpy(new, acc, curr_size); safe_strncpy(&new[curr_size-1], line, line_size);
 new[strlen(new)] = '\n';`. -/
def accumulate_next (acc line : CStr) : CStr :=
  safe_strncpy [] acc (acc.length + 1) ++ safe_strncpy [] line line.length ++ ['\n']

/-- The `switch` of `parse_ifcfg_fields`: the record after the case of `opt`, for the value
`opt_val` and the line `line`; `none` in the `default` case (return value -1). -/
def parse_ifcfg_switch (cfg : ifcfg_fields_t) (opt : ifcfg_opt_t) (opt_val line : CStr) :
    Option ifcfg_fields_t :=
  match opt with
  | COMMENT => some { cfg with comment := some opt_val }
  | TYPE => some { cfg with type := some opt_val }
  | DEVICE => some { cfg with device := some opt_val }
  | ONBOOT => some { cfg with onboot := some opt_val }
  | BOOTPROTO => some { cfg with bootproto := some opt_val }
  | IPADDR => some { cfg with ipaddr := some opt_val }
  | GATEWAY => some { cfg with gateway := some opt_val }
  | NETMASK => some { cfg with netmask := some opt_val }
  | DNS1 => some { cfg with dns0 := some opt_val }
  | DNS2 => some { cfg with dns1 := some opt_val }
  | IPV4_FAILURE_FATAL => some { cfg with ipv4_failure_fatal := some opt_val }
  | IPV6ADDR => some { cfg with ipv6addr := some opt_val }
  | IPV6INIT => some { cfg with ipv6init := some opt_val }
  | NM_CONTROLLED => some { cfg with nm_controlled := some opt_val }
  | USERCTL => some { cfg with userctl := some opt_val }
  | DEFROUTE => some { cfg with defroute := some opt_val }
  | VLAN => some { cfg with vlan := some opt_val }
  | MTU => some { cfg with mtu := some opt_val }
  | HWADDR => some { cfg with hwaddr := some opt_val }
  | UUID => some { cfg with uuid := some opt_val }
  | NETWORK => some { cfg with network := some opt_val }
  | BROADCAST => some { cfg with broadcast := some opt_val }
  | NAME => some { cfg with name := some opt_val }
  | IPV6_AUTOCONF => some { cfg with ipv6_autoconf := some opt_val }
  | PROXY_METHOD => some { cfg with proxy_method := some opt_val }
  | BROWSER_ONLY => some { cfg with browser_only := some opt_val }
  | ARPING_WAIT => some { cfg with arping_wait := some opt_val }
  | UNKNOWN_OPT =>
    match cfg.unknown with
    | none => some { cfg with unknown := some (accumulate_first line) }
    | some acc => some { cfg with unknown := some (accumulate_next acc line) }
  | NUM_OPT => none

/-- The option string and the value that `parse_ifcfg_fields` and the loop of
`centos_overwrite_configs` read from a line: `#` and the rest of the line for a comment,
else the first and second field of the line split at `=`; the value is then trimmed of
double quotes and newlines. -/
def ifcfg_split_line (line : CStr) : CStr × CStr :=
  let raw : CStr × CStr :=
    if line.head? = some '#' then
      ("#".toList, safe_strncpy [] line.tail MAX_VAL_LEN)
    else
      (get_field_delim [] line 1 MAX_OPT_LEN ['='], get_field_delim [] line 2 MAX_VAL_LEN ['='])
  (raw.1, trim raw.2 [DQUOTE, '\n'])

/-- The function `parse_ifcfg_fields(cfg_data, line)`: the record after the line, `none` for
the return
value -1. -/
def parse_ifcfg_fields (cfg_data : ifcfg_fields_t) (line : CStr) : Option ifcfg_fields_t :=
  parse_ifcfg_switch cfg_data (opt_str_to_enum (ifcfg_split_line line).1)
    (ifcfg_split_line line).2 line

/-- The loop of `centos_parse_ifcfg` over the lines read; `none` as soon as a line fails. -/
def parse_ifcfg_loop : ifcfg_fields_t → List CStr → Option ifcfg_fields_t
  | cfg, [] => some cfg
  | cfg, line :: rest =>
    match parse_ifcfg_fields cfg line with
    | none => none
    | some cfg2 => parse_ifcfg_loop cfg2 rest

/-- A pointer returned by a parser: `NULL`, the pointer `fatal_err_ptr`, or a record. -/
inductive parse_ptr (α : Type) where
  | null
  | fatal_err_ptr
  | ptr (v : α)

/-- The function `centos_parse_ifcfg(path)`, where `file` is the content of the file at `path`
(`none`
when there is no such file): `NULL` without a file, else the record read from its lines. -/
def centos_parse_ifcfg (file : Option CStr) : parse_ptr ifcfg_fields_t :=
  match file with
  | none => parse_ptr.null
  | some text =>
    match parse_ifcfg_loop {} (read_lines CFG_LINE_LEN text) with
    | none => parse_ptr.fatal_err_ptr
    | some cfg => parse_ptr.ptr cfg

/-- The record behind a parser's pointer, `none` for `NULL` and for `fatal_err_ptr`. -/
def parse_ptr.toOption {α : Type} : parse_ptr α → Option α
  | parse_ptr.ptr v => some v
  | _ => none

/-! ## Files written by the RHEL dialect (`nsync_centos.c`) -/

/-- What a state function of the RHEL dialect returns and writes: the next state, the new
content of `ifcfg-<interface>` and of `route-<interface>` (`none` for a file that is not
written). Opening a file for writing is taken to succeed. -/
structure centos_write_result where
  state : nsync_state_t
  ifcfg : Option CStr
  route : Option CStr
  deriving DecidableEq, Repr

/-- The text of `if (field) fprintf(fp, "KEY=%s\n", field);`. -/
def print_field (key : CStr) (field : Option CStr) : CStr :=
  match field with
  | none => []
  | some v => key ++ ['='] ++ v ++ ['\n']

/-- The routes written by `for (j = 0; j < num_route; j++) fprintf(fp, "%s\n", route(j))`. -/
def print_routes (routes : List CStr) : CStr :=
  (routes.map (fun r => r ++ ['\n'])).flatten

/-- The text of `if (link) fprintf(fp, "TYPE=Ethernet \n#%s\n", link);` in
`centos_create_and_write_to_file`. -/
def centos_create_link_text (link : Option CStr) : CStr :=
  match link with
  | some link => "TYPE=Ethernet \n#".toList ++ link ++ ['\n']
  | none => []

/-- The text written by `centos_create_and_write_to_file` in its test of the IPv4 address:
`ONBOOT=yes` and, for a dynamic interface, `BOOTPROTO=dhcp\nIPADDR=%s\n`, else
`BOOTPROTO=none\nIPADDR=%s\n`; without an address, `ONBOOT=no\nBOOTPROTO=dhcp\n`. -/
def centos_create_inet_text (inet : Option CStr) (dynamic : Bool) : CStr :=
  match inet with
  | some inet =>
    "ONBOOT=yes\n".toList ++
      (if dynamic then "BOOTPROTO=dhcp\nIPADDR=".toList ++ inet ++ ['\n']
       else "BOOTPROTO=none\nIPADDR=".toList ++ inet ++ ['\n'])
  | none => "ONBOOT=no\nBOOTPROTO=dhcp\n".toList

/-- The text written by `centos_create_and_write_to_file` in its test of the IPv6 address:
`IPV6INIT=yes\nIPV6AUTOCONF=yes` (without a newline at its end) or `IPV6INIT=no\n`. -/
def centos_create_inet6_text (inet6 : Option CStr) : CStr :=
  match inet6 with
  | some _ => "IPV6INIT=yes\nIPV6AUTOCONF=yes".toList
  | none => "IPV6INIT=no\n".toList

/-- The text that `centos_create_and_write_to_file` writes to the ifcfg file of the interface
named `if_name` for the active record `active`: its `fprintf` calls in order. -/
def centos_create_ifcfg_text (arping_wait : Bool) (if_name : CStr)
    (active : ip_show_fields_t) : CStr :=
  centos_create_link_text active.link
  ++ ("DEVICE=".toList ++ if_name ++ "\nNAME=".toList ++ if_name ++ ['\n'])
  ++ centos_create_inet_text active.inet active.dynamic
  ++ print_field "NETMASK".toList active.inet_mask
  ++ print_field "MTU".toList active.mtu
  ++ centos_create_inet6_text active.inet6
  ++ (if arping_wait then "ARPING_WAIT=8\n".toList else [])

/-- The lines written by `centos_create_and_write_to_file` for the link type. -/
def centos_create_link_lines (link : Option CStr) : List CStr :=
  match link with
  | some link => ["TYPE=Ethernet ".toList, '#' :: link]
  | none => []

/-- The lines written by `centos_create_and_write_to_file` for the IPv4 address. -/
def centos_create_inet_lines (inet : Option CStr) (dynamic : Bool) : List CStr :=
  match inet with
  | some inet =>
    ["ONBOOT=yes".toList,
      if dynamic then "BOOTPROTO=dhcp".toList else "BOOTPROTO=none".toList,
      "IPADDR=".toList ++ inet]
  | none => ["ONBOOT=no".toList, "BOOTPROTO=dhcp".toList]

/-- The complete line written by `centos_create_and_write_to_file` for the IPv6 address. -/
def centos_create_inet6_lines (inet6 : Option CStr) : List CStr :=
  match inet6 with
  | some _ => ["IPV6INIT=yes".toList]
  | none => ["IPV6INIT=no".toList]

/-- The newline-terminated lines of the text of `centos_create_and_write_to_file`, one for
each `\n` of its format strings. -/
def centos_create_lines (if_name : CStr) (active : ip_show_fields_t) : List CStr :=
  centos_create_link_lines active.link
  ++ ["DEVICE=".toList ++ if_name, "NAME=".toList ++ if_name]
  ++ centos_create_inet_lines active.inet active.dynamic
  ++ active.inet_mask.toList.map (fun mask => "NETMASK=".toList ++ mask)
  ++ active.mtu.toList.map (fun mtu => "MTU=".toList ++ mtu)
  ++ centos_create_inet6_lines active.inet6

/-- The end of the text of `centos_create_and_write_to_file`, after its last complete line
that does not depend on `arping_wait`. -/
def centos_create_tail (arping_wait : Bool) (active : ip_show_fields_t) : CStr :=
  (match active.inet6 with
    | some _ => "IPV6AUTOCONF=yes".toList
    | none => [])
  ++ (if arping_wait then "ARPING_WAIT=8\n".toList else [])

/-- The function `centos_create_and_write_to_file` for the interface `next_to_sync`, named
`if_name`, with
active record `active` and mapped routes `mapped`. -/
def centos_create_and_write_to_file (arping_wait : Bool) (if_name : CStr)
    (mapped : routes_parsed_t) (active : Option ip_show_fields_t) : centos_write_result :=
  match active with
  | none => ⟨NSYNC_IF_SYNCED, none, none⟩
  | some a =>
    ⟨NSYNC_IF_SYNCED, some (centos_create_ifcfg_text arping_wait if_name a),
      if mapped.num_route ≠ 0 then some (print_routes mapped.route_list) else none⟩

/-- The `switch` in the loop of `centos_overwrite_configs`: the text printed for a line of
the old file and whether `added_arp_wait` is set; `none` in the `default` case. Every case
of a directive prints the string of its option in the table `ifcfg_opt`, an `=` and the
field of the record that `ifcfg_fields_t.get` pairs with the option. -/
def overwrite_switch (stored_cfg : ifcfg_fields_t) (opt : ifcfg_opt_t) (opt_val line : CStr) :
    Option (CStr × Bool) :=
  match opt with
  | COMMENT => some (['#'] ++ opt_val ++ ['\n'], false)
  | MTU =>
    match stored_cfg.mtu with
    | some mtu =>
      if mtu.length ≠ 0 ∧ mtu ≠ "1500".toList then some (print_field "MTU".toList (some mtu), false)
      else some ([], false)
    | none => some ([], false)
  | ARPING_WAIT => some (print_field "ARPING_WAIT".toList stored_cfg.arping_wait, true)
  | UNKNOWN_OPT => some (line, false)
  | NUM_OPT => none
  | opt => some (print_field (ifcfg_opt opt) (stored_cfg.get opt), false)

/-- One turn of the loop of `centos_overwrite_configs` on a line of the old file. -/
def overwrite_line (stored_cfg : ifcfg_fields_t) (line : CStr) : Option (CStr × Bool) :=
  overwrite_switch stored_cfg (opt_str_to_enum (ifcfg_split_line line).1)
    (ifcfg_split_line line).2 line

/-- The loop of `centos_overwrite_configs` over the lines of the old file: the text written
and the flag `added_arp_wait`; `none` when a line ends the function with `NSYNC_ERROR`. -/
def overwrite_loop (stored_cfg : ifcfg_fields_t) : List CStr → Option (CStr × Bool)
  | [] => some ([], false)
  | line :: rest =>
    match overwrite_line stored_cfg line, overwrite_loop stored_cfg rest with
    | some (text, added), some (texts, addeds) => some (text ++ texts, added || addeds)
    | _, _ => none

/-- The text of the new ifcfg file of `centos_overwrite_configs`: the loop over the old file
`old` and the `ARPING_WAIT` line added after it. -/
def overwrite_ifcfg_text (arping_wait : Bool) (stored_cfg : ifcfg_fields_t) (old : CStr) :
    Option CStr :=
  match overwrite_loop stored_cfg (read_lines CFG_LINE_LEN old) with
  | none => none
  | some (text, added_arp_wait) =>
    if arping_wait ∧ ¬ added_arp_wait ∧ stored_cfg.arping_wait ≠ none then
      some (text ++ print_field "ARPING_WAIT".toList stored_cfg.arping_wait)
    else some text

/-- The route file written by `centos_overwrite_configs` for `num_route` routes: route `j` is
read from the array of all active routes, and follows the gap and the comment that the
persisted route file holds at index `j`. -/
def overwrite_route_text (routes : List CStr) (num_route : Nat)
    (persist_rts : Option rt_cfg_t) : CStr :=
  ((List.range num_route).map (fun j =>
    match persist_rts with
    | none => routes.getD j [] ++ ['\n']
    | some rc =>
      (rc.gaps j).getD [] ++ (rc.comments j).getD [] ++ (routes.getD j [] ++ ['\n']))).flatten

/-- The function `centos_overwrite_configs` for the interface `next_to_sync`: `routes` is
`CENTOS_ACTIVE_ROUTES`, `mapped` is `CENTOS_MAPPED_I(i)`, `persist_rts` and `stored_cfg` are
the persisted records of the interface and `old` is the content of its ifcfg file (`none`
when the file cannot be read). -/
def centos_overwrite_configs (arping_wait : Bool) (routes : List CStr)
    (mapped : routes_parsed_t) (persist_rts : Option rt_cfg_t) (stored_cfg : ifcfg_fields_t)
    (old : Option CStr) : centos_write_result :=
  let stored_cfg : ifcfg_fields_t :=
    if mapped.num_route > 0 then
      { stored_cfg with onboot := some (memcpy_str (stored_cfg.onboot.getD []) "yes".toList 3) }
    else stored_cfg
  match old with
  | none => ⟨NSYNC_ERROR, none, none⟩
  | some old =>
    match overwrite_ifcfg_text arping_wait stored_cfg old with
    | none => ⟨NSYNC_ERROR, none, none⟩
    | some text =>
      ⟨NSYNC_IF_SYNCED, some text, some (overwrite_route_text routes mapped.num_route persist_rts)⟩

/-! ## Persisted route files of the RHEL dialect (`nsync_centos_parse.c`) -/

/-- The function `parse_route_cfg_fields(route_cfg, route)`: a blank line goes to the gap, a
comment to
the comment of the index `num_routes`; any other line is trimmed and stored as a route. -/
def parse_route_cfg_fields (route_cfg : rt_cfg_t) (route : CStr) : rt_cfg_t :=
  let n := route_cfg.num_routes
  if route.head? = some '\n' then
    let gap : CStr :=
      match route_cfg.gaps n with
      | none => safe_strncpy [] route (route.length + 1)
      | some gap => accumulate_next gap route
    { route_cfg with gaps := Function.update route_cfg.gaps n (some gap) }
  else if route.head? = some '#' then
    let comment : CStr :=
      match route_cfg.comments n with
      | none => safe_strncpy [] route (route.length + 1)
      | some comment => accumulate_next comment route
    { route_cfg with comments := Function.update route_cfg.comments n (some comment) }
  else { route_cfg with routes := route_cfg.routes ++ [trim route default_seps] }

/-- The function `centos_parse_route_cfg(path)`, where `file` is the content of the file at
`path` (`none`
when it cannot be opened). -/
def centos_parse_route_cfg (file : Option CStr) : parse_ptr rt_cfg_t :=
  match file with
  | none => parse_ptr.null
  | some text =>
    parse_ptr.ptr ((read_lines MAX_OUTPUT_LEN text).foldl parse_route_cfg_fields
      { routes := [], comments := fun _ => none, gaps := fun _ => none })

/-! ## Reading an ifcfg file and writing it back -/

/-- Parsing the ifcfg file `text` with `centos_parse_ifcfg` and writing the record back,
unchanged, with `centos_overwrite_configs` over the same file, for an interface without
active routes: the text of the new ifcfg file (`none` when the parser or the writer fails). -/
def centos_parse_then_overwrite (arping_wait : Bool) (text : CStr) : Option CStr :=
  match centos_parse_ifcfg (some text) with
  | parse_ptr.ptr cfg => (centos_overwrite_configs arping_wait [] ⟨[]⟩ none cfg (some text)).ifcfg
  | _ => none

/-- The option that `parse_ifcfg_fields` reads on the line `l` (given without its newline). -/
def ifcfg_line_opt (l : CStr) : ifcfg_opt_t :=
  opt_str_to_enum (ifcfg_split_line (l ++ ['\n'])).1

/-- The text of a line after its first `=`. -/
def ifcfg_line_value (l : CStr) : CStr := (l.dropWhile (fun c => c ≠ '=')).tail

/-- A value that is read and printed back as it stands: it fits the value buffer and has no
double quote at either end. -/
def plain_value (v : CStr) : Prop :=
  v.length < MAX_VAL_LEN ∧ v.head? ≠ some DQUOTE ∧ v.getLast? ≠ some DQUOTE

/-- A line (given without its newline) whose value is read and printed back as it stands: for
a comment, the text after `#` is a plain value; for a recognized directive, the text after
the `=` is a plain value without a further `=`; any other line qualifies. -/
def ifcfg_line_plain (l : CStr) : Prop :=
  if l.head? = some '#' then plain_value l.tail
  else if ifcfg_line_opt l = UNKNOWN_OPT then True
  else '=' ∉ ifcfg_line_value l ∧ plain_value (ifcfg_line_value l)

/-- The lines of an ifcfg file for which reading and writing back is studied: each line is
free of newline and NUL, fits the line buffer with its newline, and is plain; and no
directive is given on two lines. -/
def ifcfg_lines_plain (lines : List CStr) : Prop :=
  (∀ l ∈ lines, '\n' ∉ l ∧ NUL ∉ l ∧ l.length + 1 < CFG_LINE_LEN ∧ ifcfg_line_plain l)
  ∧ ((lines.map ifcfg_line_opt).filter
      (fun o => decide (o ≠ COMMENT ∧ o ≠ UNKNOWN_OPT))).Nodup

/-- The lines that `centos_overwrite_configs` leaves out of an unchanged file: an MTU
directive whose value is `1500` or empty. -/
def is_default_mtu_line (l : CStr) : Bool :=
  decide (l = "MTU=1500".toList ∨ l = "MTU=".toList)

/-- An ifcfg file with a comment, directives, an unrecognized directive, a blank line and a
default MTU. -/
def ex_ifcfg_lines : List CStr :=
  ["# eth1, set by hand".toList, "DEVICE=eth1".toList, "BOOTPROTO=none".toList,
   "IPADDR=10.0.1.5".toList, "MTU=1500".toList, "".toList, "ZONE=public".toList]

/-! ## One pass of the driver over an interface with a persisted ifcfg file -/

/-- The outcome of one pass: the state returned by the comparison (`none` where it reads a
`NULL` record, or where the parser gave `fatal_err_ptr` before it) and the two persisted
files after the pass (`none` for a route file that does not exist). -/
structure centos_pass_result where
  compare : Option nsync_state_t
  ifcfg_file : CStr
  route_file : Option CStr
  deriving DecidableEq, Repr

/-- The pass of the driver (`nsync_driver.c`) over one interface of the RHEL dialect whose
ifcfg file exists: `centos_get_config` parses the two persisted files, `centos_compare_configs`
compares them with the active state, and on `NSYNC_BACKUP` (the backup being taken to
succeed) `centos_overwrite_configs` rewrites both files from the records that the comparison
left; on any other state the files stay as they are. -/
def centos_pass (arping_wait : Bool) (routes : List CStr) (mapped : routes_parsed_t)
    (active : Option ip_show_fields_t) (ifcfg_file : CStr) (route_file : Option CStr) :
    centos_pass_result :=
  match centos_parse_ifcfg (some ifcfg_file) with
  | parse_ptr.ptr stored =>
    let persist_rts := (centos_parse_route_cfg route_file).toOption
    match centos_compare_configs arping_wait routes mapped persist_rts (some stored) active with
    | none => ⟨none, ifcfg_file, route_file⟩
    | some r =>
      match r.state, r.stored with
      | NSYNC_BACKUP, some stored_cfg =>
        let w := centos_overwrite_configs arping_wait routes mapped r.persist_rts stored_cfg
          (some ifcfg_file)
        ⟨some NSYNC_BACKUP, w.ifcfg.getD ifcfg_file,
          if w.route = none then route_file else w.route⟩
      | st, _ => ⟨some st, ifcfg_file, route_file⟩
  | _ => ⟨none, ifcfg_file, route_file⟩

/-- An ifcfg file of `eth1` set up for DHCP. -/
def ex_ifcfg_dhcp : CStr := "DEVICE=eth1\nBOOTPROTO=dhcp\nONBOOT=yes\n".toList

/-! ## String helpers of the C library -/

/-- The function `strstr(haystack, needle)`: the part of `haystack` from the first occurrence
of `needle`
on, `none` (for `NULL`) when `needle` does not occur. -/
def strstr : CStr → CStr → Option CStr
  | [], needle => if needle = [] then some [] else none
  | c :: rest, needle =>
    if needle.isPrefixOf (c :: rest) then some (c :: rest) else strstr rest needle

/-! ## Route mapping of the RHEL dialect (`nsync_centos_parse.c`) -/

/-- The struct `if_list_parsed`: `if_list` holds the `num_if` interface names. -/
structure if_list_parsed_t where
  if_list : List CStr
  deriving DecidableEq, Repr

/-- The inner loop of `centos_map_routes_to_if` for the interface name `sep_name`: every route
in which `strstr` finds the name is added, in order, to the list of the interface. -/
def centos_map_routes_one (rp : routes_parsed_t) (sep_name : CStr) : routes_parsed_t :=
  ⟨rp.route_list.foldl
    (fun mapped route => if strstr route sep_name = none then mapped else mapped ++ [route]) []⟩

/-- The function `centos_map_routes_to_if`: entry `i` is the route list of the interface `i`. -/
def centos_map_routes_to_if (rp : routes_parsed_t) (ilp : if_list_parsed_t) :
    List routes_parsed_t :=
  ilp.if_list.map (centos_map_routes_one rp)

/-! ## Records and comparison of the Debian dialect (`nsync_ubuntu_parse.h`, `nsync_ubuntu.c`) -/

/-- The struct `interface`; `mapped_routes` holds the routes of `mapped_routes->routes`
(`mapped_routes->num_routes` is its length). -/
structure interface_t where
  name : Option CStr := none
  linktype : Option CStr := none
  address : Option CStr := none
  netmask : Option CStr := none
  broadcast : Option CStr := none
  metric : Option CStr := none
  hwaddress : Option CStr := none
  gateway : Option CStr := none
  mtu : Option CStr := none
  scope : Option CStr := none
  unmanaged : Option CStr := none
  auto_opt : Bool := false
  mapped_routes : List CStr := []
  deriving DecidableEq, Repr

/-- The test made on each string field by `ubuntu_compare_configs`,
`if (!(!a != !p)) { if (a && strcmp(p, a) != 0) match = false; } else match = false;`:
the value is `true` when the field sets `match` to false. -/
def ubuntu_field_differs (a p : Option CStr) : Bool :=
  match a, p with
  | none, none => false
  | some x, some y => decide (y ≠ x)
  | _, _ => true

/-- The loop over the routes at the end of `ubuntu_compare_configs`, for `n` routes: the flag
`match` is cleared when two routes at the same index differ. -/
def ubuntu_compare_routes_loop (active persist : List CStr) (n : Nat) (m : Bool) : Bool :=
  (List.range n).foldl
    (fun m j => if active.getD j [] ≠ persist.getD j [] then false else m) m

/-- The function `ubuntu_compare_configs` for the interface `next_to_sync`: `active_if_num` and
`persist_if_num` are the two interface counts, `active` and `persist` the records of the
interface in the active and the persisted list. The result is `none` where the source
passes a `NULL` link type to `strcmp`. -/
def ubuntu_compare_configs (active_if_num persist_if_num : Nat)
    (active persist : interface_t) : Option nsync_state_t :=
  if active_if_num ≠ persist_if_num then some NSYNC_BACKUP
  else
    let m0 : Bool := !ubuntu_field_differs active.name persist.name
    -- If the interface is loopback or dhcp, then the rest of the fields dont apply
    let rest (m1 : Bool) : Option nsync_state_t :=
      let m2 := m1 && !ubuntu_field_differs active.address persist.address
      let m3 := m2 && !ubuntu_field_differs active.netmask persist.netmask
      let m4 := m3 && !ubuntu_field_differs active.broadcast persist.broadcast
      let m5 := m4 && !ubuntu_field_differs active.hwaddress persist.hwaddress
      let m6 := m5 && !ubuntu_field_differs active.mtu persist.mtu
      let m7 := m6 && !ubuntu_field_differs active.scope persist.scope
      let m8 := m7 && decide (active.auto_opt = persist.auto_opt)
      if active.mapped_routes.length ≠ persist.mapped_routes.length then some NSYNC_BACKUP
      else
        let m9 := ubuntu_compare_routes_loop active.mapped_routes persist.mapped_routes
          active.mapped_routes.length m8
        if m9 then some NSYNC_KEEP_EXISTING else some NSYNC_BACKUP
    match active.linktype, persist.linktype with
    | none, none => none
    | some la, some lp =>
      if lp ≠ la then rest false
      else if la = "loopback".toList ∨ la = "dhcp".toList then some NSYNC_KEEP_EXISTING
      else rest m0
    | _, _ => rest false

/-- The comparison of one field in `centos_compare_fields` raises no mismatch: the active
value is absent (the field is skipped), or it equals the persisted value, an absent
persisted value being compared as the empty string. -/
def field_matches (active stored : Option CStr) : Prop :=
  active = none ∨ active = some (stored.getD [])

/-! ## Example data -/

/-- The route list of a host with two interfaces, as `centos_parse_routes` stores it. -/
def ex_routes : List CStr :=
  ["10.1.0.0/16 via 10.0.0.1 dev eth0".toList, "10.2.0.0/16 via 10.0.1.1 dev eth1".toList]

/-- The active record of `eth1`: static address 10.0.1.5/24. -/
def ex_active_eth1 : ip_show_fields_t :=
  { name := some "eth1".toList, mtu := some "1500".toList, link := some "ether".toList,
    inet := some "10.0.1.5".toList, inet_mask := some "255.255.255.0".toList }

/-- A persisted record of `eth1` that agrees with `ex_active_eth1` in every compared field. -/
def ex_stored_eth1 : ifcfg_fields_t :=
  { device := some "eth1".toList, onboot := some "yes".toList, bootproto := some "none".toList,
    ipaddr := some "10.0.1.5".toList, netmask := some "255.255.255.0".toList,
    arping_wait := some "8".toList }

/-- A persisted route record with the given routes and neither comments nor gaps. -/
def ex_rt_cfg (routes : List CStr) : rt_cfg_t :=
  { routes := routes, comments := fun _ => none, gaps := fun _ => none }

/-- The loopback interface of a Debian host, without its routes. -/
def ex_lo : interface_t :=
  { name := some "lo".toList, linktype := some "loopback".toList,
    address := some "127.0.0.1".toList, netmask := some "255.0.0.0".toList,
    mtu := some "65536".toList, auto_opt := true }

/-- A statically addressed interface of a Debian host, without its MTU. -/
def ex_eth0_static : interface_t :=
  { name := some "eth0".toList, linktype := some "static".toList,
    address := some "10.0.0.5".toList, netmask := some "255.255.255.0".toList,
    auto_opt := true }

/-- The route of `eth1` in `ex_routes`. -/
def ex_route_eth1 : CStr := "10.2.0.0/16 via 10.0.1.1 dev eth1".toList

/-- An ifcfg file of `eth1` with a static address that is no longer the active one. -/
def ex_ifcfg_stale : CStr :=
  "DEVICE=eth1\nBOOTPROTO=none\nONBOOT=yes\nIPADDR=10.0.1.9\nNETMASK=255.255.255.0\n".toList

/-- An ifcfg file of `eth1` that agrees with `ex_active_eth1` and has no `ARPING_WAIT`. -/
def ex_ifcfg_static : CStr :=
  "DEVICE=eth1\nBOOTPROTO=none\nONBOOT=yes\nIPADDR=10.0.1.5\nNETMASK=255.255.255.0\n".toList

/-- A record as `centos_compare_configs` leaves it for the file `ex_ifcfg_dhcp` after the
interface got a static address and an MTU of 9000, with `ARPING_WAIT` requested. -/
def ex_merged_eth1 : ifcfg_fields_t :=
  { device := some "eth1".toList, bootproto := some "dhcp".toList, onboot := some "yes".toList,
    ipaddr := some "10.0.1.5".toList, netmask := some "255.255.255.0".toList,
    mtu := some "9000".toList, arping_wait := some "8".toList }

/-- The text `piece` is what the loop of `centos_overwrite_configs` may print for the line
`line` of the old file (a line as `fgets` reads it, with its newline): the line itself when
its option is not recognized, a comment line for a comment, and for a recognized directive
either nothing or one line with the key of that directive. -/
def rewrites_line (line piece : CStr) : Prop :=
  match opt_str_to_enum (ifcfg_split_line line).1 with
  | UNKNOWN_OPT => piece = line
  | COMMENT => ∃ text : CStr, piece = ['#'] ++ text ++ ['\n']
  | key => ∃ field : Option CStr, piece = print_field (ifcfg_opt key) field

/-- Parsing the route file `text` with `centos_parse_route_cfg` and writing it back with the
route loop of `centos_overwrite_configs`, the active routes being the parsed routes (so that
`num_route` is their number and the comparison leaves the persisted routes as parsed). -/
def centos_route_round_trip (text : CStr) : Option CStr :=
  match centos_parse_route_cfg (some text) with
  | parse_ptr.ptr rc => some (overwrite_route_text rc.routes rc.num_routes (some rc))
  | _ => none

/-- A stretch of a route file that ends with a route: `blanks` blank lines, then the comment
lines `comments`, then the route line `route` (lines given without their newline). -/
structure route_block where
  blanks : Nat
  comments : List CStr
  route : CStr
  deriving DecidableEq, Repr

/-- The lines of a stretch, in order. -/
def route_block.lines (b : route_block) : List CStr :=
  List.replicate b.blanks [] ++ b.comments ++ [b.route]

/-- The stretches for which reading and writing back is studied: every comment starts with
`#`; the route is not empty, does not start with `#` and has no white space at either end
(`trim` leaves it as it is); every line is free of newline and NUL and fits the line buffer
with its newline. -/
def route_block.plain (b : route_block) : Prop :=
  (∀ c ∈ b.comments, c.head? = some '#' ∧ '\n' ∉ c ∧ NUL ∉ c ∧ c.length + 1 < MAX_OUTPUT_LEN)
  ∧ '\n' ∉ b.route ∧ NUL ∉ b.route ∧ b.route.length + 1 < MAX_OUTPUT_LEN
  ∧ b.route ≠ [] ∧ b.route.head? ≠ some '#' ∧ trim b.route default_seps = b.route

instance (b : route_block) : Decidable b.plain := by
  unfold route_block.plain; infer_instance

/-- The record that the loop of `centos_parse_route_cfg` builds from the given lines (each
read with its newline). -/
def parse_route_lines (lines : List CStr) : rt_cfg_t :=
  (lines.map (fun l => l ++ ['\n'])).foldl parse_route_cfg_fields
    { routes := [], comments := fun _ => none, gaps := fun _ => none }

/-- The text of a route file made of the given stretches. -/
def route_blocks_text (blocks : List route_block) : CStr :=
  unlines (blocks.map route_block.lines).flatten

/-- A route file of `eth1`: a blank line and a comment before its first route, a comment
before its second. -/
def ex_route_blocks : List route_block :=
  [⟨1, ["# routes of eth1".toList], ex_route_eth1⟩,
   ⟨0, ["# link to the lab".toList], "10.3.0.0/16 via 10.0.1.1 dev eth1".toList⟩]

/-! ## The driver (`nsync_driver.c`, `nsync_info.h`) -/

/-- The struct `state_func`, without its member `check_OS` (which both dialects leave
`NULL`): the state functions of a dialect. A state function is given the info struct and
returns the next state; `σ` stands for all that the function can read and change, the info
struct without `curr_state` and the files. -/
structure state_func_t (σ : Type) where
  get_config : σ → nsync_state_t × σ
  get_unsynced : σ → nsync_state_t × σ
  check_exist : σ → nsync_state_t × σ
  compare_config : σ → nsync_state_t × σ
  backup : σ → nsync_state_t × σ
  overwrite : σ → nsync_state_t × σ
  create_write : σ → nsync_state_t × σ
  keep_existing : σ → nsync_state_t × σ
  if_synced : σ → nsync_state_t × σ
  done : σ → nsync_state_t × σ

/-- What one turn of the loop of `driver` leads to: the loop goes on in a new state, or
`driver` returns a value. -/
inductive driver_turn (σ : Type) where
  | next (curr_state : nsync_state_t) (info : σ)
  | ret (value : Int) (info : σ)
  deriving DecidableEq

/-- One turn of the loop `while (CURR_STATE != NSYNC_SUCCESS) switch (CURR_STATE)` of
`driver`, with `check_OS` the function of that name and `sf` the table `state_func`. -/
def driver_step {σ : Type} (check_OS : σ → nsync_state_t × σ) (sf : state_func_t σ)
    (curr_state : nsync_state_t) (info : σ) : driver_turn σ :=
  match curr_state with
  | NSYNC_SUCCESS => driver_turn.ret 0 info
  | NSYNC_START => driver_turn.next NSYNC_CHECK_OS info
  | NSYNC_CHECK_OS => driver_turn.next (check_OS info).1 (check_OS info).2
  | NSYNC_GET_CONFIG => driver_turn.next (sf.get_config info).1 (sf.get_config info).2
  | NSYNC_GET_UNSYNCED => driver_turn.next (sf.get_unsynced info).1 (sf.get_unsynced info).2
  | NSYNC_CHECK_EXIST => driver_turn.next (sf.check_exist info).1 (sf.check_exist info).2
  | NSYNC_COMPARE_CONFIG =>
    driver_turn.next (sf.compare_config info).1 (sf.compare_config info).2
  | NSYNC_CREATE_WRITE => driver_turn.next (sf.create_write info).1 (sf.create_write info).2
  | NSYNC_KEEP_EXISTING => driver_turn.next (sf.keep_existing info).1 (sf.keep_existing info).2
  | NSYNC_BACKUP => driver_turn.next (sf.backup info).1 (sf.backup info).2
  | NSYNC_OVERWRITE => driver_turn.next (sf.overwrite info).1 (sf.overwrite info).2
  | NSYNC_IF_SYNCED => driver_turn.next (sf.if_synced info).1 (sf.if_synced info).2
  | NSYNC_DONE => driver_turn.ret 0 (sf.done info).2
  | NSYNC_ERROR => driver_turn.ret (-1) info

/-- What `centos_check_persistent_files` and `centos_create_and_write_to_file` read and write
for the interface `next_to_sync`: the flag `arping_wait`, the name `CENTOS_IF_LIST_I`, the
active record, the mapped routes, and the content of the files `ifcfg-<name>` and
`route-<name>` (`none` for a file that does not exist). -/
structure centos_if_info_t where
  arping_wait : Bool
  interface : Option CStr
  active : Option ip_show_fields_t
  mapped : routes_parsed_t
  ifcfg_file : Option CStr
  route_file : Option CStr
  deriving DecidableEq

/-- The function `centos_check_persistent_files`. -/
def centos_check_persistent_files (info : centos_if_info_t) : nsync_state_t × centos_if_info_t :=
  match info.interface with
  | none => (NSYNC_ERROR, info)
  | some _ =>
    -- If a persistent file exists then compare configurations
    if info.ifcfg_file.isSome then (NSYNC_COMPARE_CONFIG, info)
    else (NSYNC_CREATE_WRITE, info)

/-- The state function `create_write` of the RHEL dialect: `centos_create_and_write_to_file`
with the files it leaves. The name of the interface is not `NULL` when the driver gets here
(`centos_check_persistent_files` has tested it); a `NULL` name is read as the empty string. -/
def centos_create_write (info : centos_if_info_t) : nsync_state_t × centos_if_info_t :=
  let w := centos_create_and_write_to_file info.arping_wait (info.interface.getD [])
    info.mapped info.active
  (w.state,
    { info with
      ifcfg_file := if w.ifcfg = none then info.ifcfg_file else w.ifcfg,
      route_file := if w.route = none then info.route_file else w.route })

/-- The active record of `eth0`: static address 10.0.0.5/24. -/
def ex_active_eth0 : ip_show_fields_t :=
  { name := some "eth0".toList, mtu := some "1500".toList, link := some "ether".toList,
    inet := some "10.0.0.5".toList, inet_mask := some "255.255.255.0".toList }

/-- The route of `eth0` in the scenario of a newly created configuration. -/
def ex_route_eth0 : CStr := "10.0.0.0/24 dev eth0".toList

/-- The interface `eth0` with one route and without persisted files. -/
def ex_info_eth0 : centos_if_info_t :=
  ⟨true, some "eth0".toList, some ex_active_eth0, ⟨[ex_route_eth0]⟩, none, none⟩

/-- A table with the two state functions of the RHEL dialect that the creation of a
configuration runs; every other entry stops the run. -/
def ex_state_funcs : state_func_t centos_if_info_t :=
  { get_config := fun info => (NSYNC_ERROR, info),
    get_unsynced := fun info => (NSYNC_ERROR, info),
    check_exist := centos_check_persistent_files,
    compare_config := fun info => (NSYNC_ERROR, info),
    backup := fun info => (NSYNC_ERROR, info),
    overwrite := fun info => (NSYNC_ERROR, info),
    create_write := centos_create_write,
    keep_existing := fun info => (NSYNC_ERROR, info),
    if_synced := fun info => (NSYNC_ERROR, info),
    done := fun info => (NSYNC_ERROR, info) }

/-! ## The backup directory (`nsync_centos.c`, `nsync_ubuntu.c`) -/

/-- The digits that `printf` prints for the non-negative `int` value `n` under `%i`, most
significant first, with room for `fuel` digits. -/
def print_int_fuel : Nat → Nat → CStr
  | 0, _ => []
  | fuel + 1, n =>
    if n < 10 then [Char.ofNat (48 + n)]
    else print_int_fuel fuel (n / 10) ++ [Char.ofNat (48 + n % 10)]

/-- The text of `%i` for the non-negative value `n`; it has at most `n + 1` digits. -/
def print_int (n : Nat) : CStr := print_int_fuel (n + 1) n

/-- The text of `%02i` for the non-negative value `n`: at least two digits, padded with a
zero. -/
def print_int_02 (n : Nat) : CStr := if n < 10 then '0' :: print_int n else print_int n

/-- The value of `dir` after `sprintf(dir, "nsync.%s", timestamp)`. -/
def backup_dir_first (timestamp : CStr) : CStr := "nsync.".toList ++ timestamp

/-- The value of `dir` after `sprintf(dir, "nsync.%s.%02i", timestamp, ver)`. -/
def backup_dir_num (timestamp : CStr) (ver : Nat) : CStr :=
  "nsync.".toList ++ timestamp ++ ['.'] ++ print_int_02 ver

/-- The loop `while (dir_check(full_path)) { sprintf(dir, "nsync.%s.%02i", timestamp, ver);
sprintf(full_path, "%s%s", location, dir); ver++; }` of the two backup functions, entered
with the values `ver` and `dir`: the value of `dir` when the loop ends, `none` when the test
has been made `fuel` times without ending it. The predicate `dir_check` tells which paths
are directories; the counter `ver` is an `int` in the source and is not bounded here. -/
def backup_dir_loop (dir_check : CStr → Bool) (location timestamp : CStr) :
    Nat → Nat → CStr → Option CStr
  | 0, _, _ => none
  | fuel + 1, ver, dir =>
    if dir_check (location ++ dir) then
      backup_dir_loop dir_check location timestamp fuel (ver + 1) (backup_dir_num timestamp ver)
    else some dir

/-- The directory name `dir` that `centos_backup_files` arrives at below its loop
`while (!info->backup.started && dir_check(full_path))`, where `started` is
`info->backup.started` on entry. -/
def centos_backup_dir (started : Bool) (dir_check : CStr → Bool) (location timestamp : CStr)
    (fuel : Nat) : Option CStr :=
  if started then some (backup_dir_first timestamp)
  else backup_dir_loop dir_check location timestamp fuel 1 (backup_dir_first timestamp)

/-- The directory name `dir` that `ubuntu_backup_files` arrives at below its loop
`while (dir_check(full_path))`, in a call that has passed the test of
`info->backup.complete`. -/
def ubuntu_backup_dir (dir_check : CStr → Bool) (location timestamp : CStr) (fuel : Nat) :
    Option CStr :=
  backup_dir_loop dir_check location timestamp fuel 1 (backup_dir_first timestamp)

/-- The sequence of names in the words of the specification: `nsync.D`, then `nsync.D.01`,
`nsync.D.02` and so on, the number zero-padded to two digits. -/
def spec_backup_name (date : CStr) : Nat → CStr
  | 0 => "nsync.".toList ++ date
  | k + 1 => "nsync.".toList ++ date ++ ['.'] ++ print_int_02 (k + 1)

/-- The number that a text of decimal digits stands for. -/
def dec_value (digits : CStr) : Nat :=
  digits.foldl (fun acc c => acc * 10 + (c.toNat - 48)) 0

/-! ## The backup functions (`nsync_centos.c`, `nsync_ubuntu.c`) -/

/-- The struct `backup_data` of the info struct. -/
structure backup_data_t where
  backup_set : Bool
  default_path : CStr
  user_path : CStr
  started : Bool
  complete : Bool
  deriving DecidableEq, Repr

/-- What the backup functions see and leave outside the info struct: the paths for which
`dir_check` holds, the paths for which `file_exists` holds, and the commands passed to
`system` so far, in order. -/
structure backup_world_t where
  dirs : List CStr
  files : List CStr
  commands : List CStr
  deriving DecidableEq, Repr

/-- What a backup function returns and leaves. -/
structure backup_result where
  state : nsync_state_t
  backup : backup_data_t
  world : backup_world_t
  deriving DecidableEq, Repr

/-- The backup location: `location = info->backup.user_path;
if (!info->backup.backup_set) location = info->backup.default_path;`. -/
def backup_location (backup : backup_data_t) : CStr :=
  if ¬ backup.backup_set then backup.default_path else backup.user_path

/-- The command `mkdir <full_path>` passed to `system`, whose return value is given by the
function `system` (-1 when no child process could be made, else the exit status of the
command, 0 for success): the command is logged, and the directory exists afterwards when
the command has succeeded. -/
def backup_mkdir (system : CStr → Int) (full_path : CStr) (w : backup_world_t) :
    backup_world_t :=
  { w with
    commands := w.commands ++ ["mkdir ".toList ++ full_path],
    dirs := if system ("mkdir ".toList ++ full_path) = 0 then w.dirs ++ [full_path] else w.dirs }

/-- The command `cp <backup_file> <full_path>` passed to `system`: the command is logged. -/
def backup_cp (backup_file full_path : CStr) (w : backup_world_t) : backup_world_t :=
  { w with commands := w.commands ++ ["cp ".toList ++ backup_file ++ [' '] ++ full_path] }

/-- The function `centos_backup_files` for the interface named `interface`, on the date
`timestamp`, with `cfg_file_loc` the directory of the persisted files; `system` gives the
return value of each command. The naming loop is given one test more than there are
directories; the result is `none` if it has not ended by then. -/
def centos_backup_files (system : CStr → Int) (timestamp cfg_file_loc interface : CStr)
    (backup : backup_data_t) (w : backup_world_t) : Option backup_result :=
  let location := backup_location backup
  match centos_backup_dir backup.started (fun p => decide (p ∈ w.dirs)) location timestamp
      (w.dirs.length + 1) with
  | none => none
  | some dir =>
    let full_path := location ++ dir
    let mkdir_cmd := "mkdir ".toList ++ full_path
    let make := decide (full_path ∉ w.dirs) && !backup.started
    if make ∧ system mkdir_cmd = -1 then
      some ⟨NSYNC_ERROR, backup, backup_mkdir system full_path w⟩
    else
      let backup1 := if make then { backup with started := true } else backup
      let w1 := if make then backup_mkdir system full_path w else w
      -- Backup ifcfg-<interface> file
      let cfg := cfg_file_loc ++ "ifcfg-".toList ++ interface
      let cfg_cmd := "cp ".toList ++ cfg ++ [' '] ++ full_path
      if cfg ∈ w1.files ∧ system cfg_cmd = -1 then
        some ⟨NSYNC_ERROR, backup1, backup_cp cfg full_path w1⟩
      else
        let w2 := if cfg ∈ w1.files then backup_cp cfg full_path w1 else w1
        -- Backup route-<interface> file
        let rt := cfg_file_loc ++ "route-".toList ++ interface
        let rt_cmd := "cp ".toList ++ rt ++ [' '] ++ full_path
        if rt ∈ w2.files ∧ system rt_cmd = -1 then
          some ⟨NSYNC_ERROR, backup1, backup_cp rt full_path w2⟩
        else
          some ⟨NSYNC_OVERWRITE, backup1,
            if rt ∈ w2.files then backup_cp rt full_path w2 else w2⟩

/-- The function `ubuntu_backup_files` on the date `timestamp`, with `cfg_file_loc` and
`cfg_file` the directory and the name of the interfaces file. -/
def ubuntu_backup_files (system : CStr → Int) (timestamp cfg_file_loc cfg_file : CStr)
    (backup : backup_data_t) (w : backup_world_t) : Option backup_result :=
  -- All details stored in a single file. Only needs to be backup up once
  if backup.complete then some ⟨NSYNC_OVERWRITE, backup, w⟩
  else
    let location := backup_location backup
    match ubuntu_backup_dir (fun p => decide (p ∈ w.dirs)) location timestamp
        (w.dirs.length + 1) with
    | none => none
    | some dir =>
      let full_path := location ++ dir
      let mkdir_cmd := "mkdir ".toList ++ full_path
      let make := decide (full_path ∉ w.dirs)
      if make ∧ system mkdir_cmd = -1 then
        some ⟨NSYNC_ERROR, backup, backup_mkdir system full_path w⟩
      else
        let backup1 := if make then { backup with started := true } else backup
        let w1 := if make then backup_mkdir system full_path w else w
        let backup_file := cfg_file_loc ++ cfg_file
        let backup_cmd := "cp ".toList ++ backup_file ++ [' '] ++ full_path
        if system backup_cmd = -1 then
          some ⟨NSYNC_ERROR, backup1, backup_cp backup_file full_path w1⟩
        else
          some ⟨NSYNC_OVERWRITE, { backup1 with complete := true },
            backup_cp backup_file full_path w1⟩

/-- The default directory of the persisted files of the RHEL dialect. -/
def ex_cfg_loc : CStr := "/etc/sysconfig/network-scripts/".toList

/-- The backup data at the start of a run without the option `-b`. -/
def ex_backup : backup_data_t := ⟨false, ex_cfg_loc, [], false, false⟩

/-- A host on which a backup directory of the same day exists, with the ifcfg files of two
interfaces. -/
def ex_backup_world : backup_world_t :=
  { dirs := [ex_cfg_loc ++ "nsync.20240101".toList],
    files := [ex_cfg_loc ++ "ifcfg-eth0".toList, ex_cfg_loc ++ "ifcfg-eth1".toList],
    commands := [] }

/-- Return values of `system` on a host where every `cp` ends with exit status 1 (which
`system` reports as 256) and every other command succeeds. -/
def ex_system_cp_fails : CStr → Int :=
  fun cmd => if "cp ".toList.isPrefixOf cmd then 256 else 0

/-- Return values of `system` on a host where every `mkdir` ends with exit status 1 and every
other command succeeds. -/
def ex_system_mkdir_fails : CStr → Int :=
  fun cmd => if "mkdir ".toList.isPrefixOf cmd then 256 else 0

/-- A host without backup directory, with the ifcfg file of eth0 and the interfaces file. -/
def ex_world_fresh : backup_world_t :=
  { dirs := [],
    files := [ex_cfg_loc ++ "ifcfg-eth0".toList, "/etc/network/interfaces".toList],
    commands := [] }

/-! ## The end of a run (`nsync_driver.c`, `nsync_centos.c`, `nsync_ubuntu.c`) -/

/-- The function `driver` from the state `curr_state` on, with at most `fuel` turns of its
loop: the value returned and the info left, `none` when the loop has not ended by then. -/
def driver {σ : Type} (check_OS : σ → nsync_state_t × σ) (sf : state_func_t σ) :
    Nat → nsync_state_t → σ → Option (Int × σ)
  | 0, _, _ => none
  | fuel + 1, curr_state, info =>
    match driver_step check_OS sf curr_state info with
    | driver_turn.ret value info2 => some (value, info2)
    | driver_turn.next state2 info2 => driver check_OS sf fuel state2 info2

/-- The function `ubuntu_cleanup_and_free`, as far as it returns a state and runs a command:
it moves the temporary file over the interfaces file. -/
def ubuntu_cleanup_and_free (system : CStr → Int) (cfg_file_loc cfg_file : CStr)
    (w : backup_world_t) : nsync_state_t × backup_world_t :=
  let cmd := "mv ".toList ++ cfg_file_loc ++ cfg_file ++ ".tmp ".toList
    ++ cfg_file_loc ++ cfg_file
  if system cmd = -1 then (NSYNC_ERROR, { w with commands := w.commands ++ [cmd] })
  else (NSYNC_SUCCESS, { w with commands := w.commands ++ [cmd] })

/-- The function `centos_cleanup_and_free`, as far as it returns a state. -/
def centos_cleanup_and_free (w : backup_world_t) : nsync_state_t × backup_world_t :=
  (NSYNC_SUCCESS, w)

/-! ## Reading the configuration (`nsync_centos.c`, `nsync_ubuntu.c`, `nsync_ubuntu_parse.c`) -/

/-- The struct `sys_interfaces`: the names and the records of `num_if` interfaces, where
`num_if` is the length of `interfaces`. -/
structure if_data_t where
  if_name_list : List CStr
  interfaces : List interface_t
  deriving DecidableEq, Repr

/-- The test `strncmp(a, b, n) == 0` on two C strings. -/
def strncmp_eq (a b : CStr) (n : Nat) : Bool := decide (a.take n = b.take n)

/-- The inner loop of `map_routes_to_if` for the interface name `name`: every route in which
`strstr` finds the name is added, in order. -/
def map_routes_one (route_list : List CStr) (name : CStr) : List CStr :=
  route_list.foldl
    (fun mapped route => if strstr route name = none then mapped else mapped ++ [route]) []

/-- The outer loop of `map_routes_to_if` over the interfaces and their names: an interface
whose link type starts with `dhcp` keeps an empty route list. The result is `none` where the
source passes a `NULL` link type to `strncmp`; a name missing from the name list is read as
the empty string. -/
def map_routes_loop (route_list : List CStr) :
    List interface_t → List CStr → Option (List interface_t)
  | [], _ => some []
  | iface :: rest, names =>
    match iface.linktype with
    | none => none
    | some linktype =>
      match map_routes_loop route_list rest names.tail with
      | none => none
      | some mapped_rest =>
        if strncmp_eq linktype "dhcp".toList 4 then
          some ({ iface with mapped_routes := [] } :: mapped_rest)
        else
          some ({ iface with mapped_routes := map_routes_one route_list (names.headD []) }
            :: mapped_rest)

/-- The function `map_routes_to_if(sys_ifs, route_list)` of the Debian dialect: the
interfaces with their mapped routes (the function returns `true`), `none` where it reads a
`NULL` link type. -/
def map_routes_to_if (sys_ifs : if_data_t) (route_list : List CStr) : Option if_data_t :=
  (map_routes_loop route_list sys_ifs.interfaces sys_ifs.if_name_list).map
    (fun mapped => { sys_ifs with interfaces := mapped })

/-- The function `ubuntu_parse_persist_routes(file_loc)`, where `file` is the content of the
file (`none` when it cannot be opened, for which the function returns `NULL`): the text
after `add ` of every line that holds `up` and `add`, without its newline. -/
def ubuntu_parse_persist_routes (file : Option CStr) : Option (List CStr) :=
  match file with
  | none => none
  | some text =>
    some ((read_lines MAX_OUTPUT_LEN text).foldl
      (fun routes line =>
        if strstr line "up".toList = none then routes
        else
          match strstr line "add".toList with
          | none => routes
          | some mark => routes ++ [trim (mark.drop 4) ['\n']])
      [])

/-- The state returned by `ubuntu_get_config`. Its arguments are what the parsers of the
active state return (`none` for `NULL`), the content of the file of persisted routes (`none`
when there is no such file) and what `ubuntu_parse_persist_interfaces` returns. The result
is `none` where `map_routes_to_if` reads a `NULL` link type. -/
def ubuntu_get_config (active_ifs : Option if_data_t) (active_routes : Option (List CStr))
    (route_file : Option CStr) (persist_ifs : Option if_data_t) : Option nsync_state_t :=
  match active_ifs with
  | none => some NSYNC_ERROR
  | some ifs =>
    match active_routes with
    | none => some NSYNC_ERROR
    | some routes =>
      match map_routes_to_if ifs routes with
      | none => none
      | some _ =>
        match ubuntu_parse_persist_routes route_file with
        | none => some NSYNC_ERROR
        | some persist_routes =>
          match persist_ifs with
          | none => some NSYNC_ERROR
          | some pifs =>
            match map_routes_to_if pifs persist_routes with
            | none => none
            | some _ => some NSYNC_GET_UNSYNCED

/-- A parser has returned `fatal_err_ptr`. -/
def parse_ptr.is_fatal {α : Type} : parse_ptr α → Bool
  | parse_ptr.fatal_err_ptr => true
  | _ => false

/-- The state returned by `centos_get_config`. Its arguments are what `parse_if_list` and
`parse_routes` return (`none` for `NULL`), the content of the files `ifcfg-<name>` and
`route-<name>` for each interface name (`none` when there is no such file), and what
`parse_ip_show` returns for each name. -/
def centos_get_config (if_parsed : Option if_list_parsed_t)
    (routes_parsed : Option routes_parsed_t) (ifcfg_file route_file : CStr → Option CStr)
    (ip_show : CStr → parse_ptr ip_show_fields_t) : nsync_state_t :=
  match if_parsed with
  | none => NSYNC_ERROR
  | some ilp =>
    match routes_parsed with
    | none => NSYNC_ERROR
    | some _ =>
      if ilp.if_list.any (fun name => (centos_parse_ifcfg (ifcfg_file name)).is_fatal) then
        NSYNC_ERROR
      else if ilp.if_list.any
          (fun name => (centos_parse_route_cfg (route_file name)).is_fatal) then
        NSYNC_ERROR
      else if ilp.if_list.any (fun name => (ip_show name).is_fatal) then NSYNC_ERROR
      else NSYNC_GET_UNSYNCED

/-- The active interfaces of a Debian host: the loopback and a static interface. -/
def ex_if_data : if_data_t :=
  { if_name_list := ["lo".toList, "eth0".toList], interfaces := [ex_lo, ex_eth0_static] }

/-- A Debian interface configured by DHCP. -/
def ex_eth0_dhcp : interface_t :=
  { name := some "eth0".toList, linktype := some "dhcp".toList, auto_opt := true }

/-! ## The selection of the next interface (`nsync_centos.c`, `nsync_ubuntu.c`) -/

/-- The part of the info struct that the selection reads and writes: the array `synced`, the
index `next_to_sync` and the number of interfaces (`CENTOS_NUM_IF`, or `num_if` of the
active interfaces of the Debian dialect); `rest` stands for all the rest of the info struct
and for the files. -/
structure sync_info_t (τ : Type) where
  synced : List Bool
  next_to_sync : Nat
  num_if : Nat
  rest : τ

/-- The loop `for (i = 0; i < num_if; i++) { if (!info->synced[i]) break; }` from the index
`i` on, with `turns = num_if - i` turns to go: the value of `i` after the loop. An index past
the end of the array is read as `false`. -/
def get_unsynced_loop (synced : List Bool) : Nat → Nat → Nat
  | 0, i => i
  | turns + 1, i =>
    if synced.getD i false = false then i else get_unsynced_loop synced turns (i + 1)

/-- The function `centos_get_unsynced`. -/
def centos_get_unsynced {τ : Type} (info : sync_info_t τ) : nsync_state_t × sync_info_t τ :=
  let i := get_unsynced_loop info.synced info.num_if 0
  -- If none are unsynced then we are done!
  if i = info.num_if then (NSYNC_DONE, info)
  else (NSYNC_CHECK_EXIST, { info with next_to_sync := i })

/-- The function `ubuntu_get_unsynced`. -/
def ubuntu_get_unsynced {τ : Type} (info : sync_info_t τ) : nsync_state_t × sync_info_t τ :=
  let i := get_unsynced_loop info.synced info.num_if 0
  if i = info.num_if then (NSYNC_DONE, info)
  else (NSYNC_CHECK_EXIST, { info with next_to_sync := i })

/-- The function `centos_mark_synced`. -/
def centos_mark_synced {τ : Type} (info : sync_info_t τ) : nsync_state_t × sync_info_t τ :=
  (NSYNC_GET_UNSYNCED, { info with synced := info.synced.set info.next_to_sync true })

/-- The function `ubuntu_mark_synced`: `info->synced[info->next_to_sync++] = true;`. -/
def ubuntu_mark_synced {τ : Type} (info : sync_info_t τ) : nsync_state_t × sync_info_t τ :=
  (NSYNC_GET_UNSYNCED,
    { info with
      synced := info.synced.set info.next_to_sync true,
      next_to_sync := info.next_to_sync + 1 })

/-- Three interfaces of which the first is synced. -/
def ex_sync_info : sync_info_t Unit :=
  { synced := [true, false, false, false], next_to_sync := 0, num_if := 3, rest := () }

/-! ## The loop over the interfaces (`nsync_driver.c`) -/

/-- The state function `f` leaves the flags, the index and the number of interfaces as they
are and returns one of the states `states`. -/
def step_returns {τ : Type} (f : sync_info_t τ → nsync_state_t × sync_info_t τ)
    (states : List nsync_state_t) : Prop :=
  ∀ info, (f info).1 ∈ states
    ∧ (f info).2.synced = info.synced ∧ (f info).2.next_to_sync = info.next_to_sync
    ∧ (f info).2.num_if = info.num_if

/-- A table of state functions as both dialects have it: the selection and the marking are
those of the RHEL or of the Debian dialect, and each step on the selected interface returns
one of the states that its `return` statements name, whatever else it does. -/
def reconciliation_table {τ : Type} (sf : state_func_t (sync_info_t τ)) : Prop :=
  (sf.get_unsynced = centos_get_unsynced ∨ sf.get_unsynced = ubuntu_get_unsynced)
  ∧ (sf.if_synced = centos_mark_synced ∨ sf.if_synced = ubuntu_mark_synced)
  ∧ step_returns sf.check_exist [NSYNC_COMPARE_CONFIG, NSYNC_CREATE_WRITE, NSYNC_ERROR]
  ∧ step_returns sf.compare_config [NSYNC_KEEP_EXISTING, NSYNC_BACKUP, NSYNC_ERROR]
  ∧ step_returns sf.backup [NSYNC_OVERWRITE, NSYNC_ERROR]
  ∧ step_returns sf.overwrite [NSYNC_IF_SYNCED, NSYNC_ERROR]
  ∧ step_returns sf.create_write [NSYNC_IF_SYNCED, NSYNC_ERROR]
  ∧ step_returns sf.keep_existing [NSYNC_IF_SYNCED, NSYNC_ERROR]

/-- The number of flags among the first `n` that are false. -/
def unsynced_count (synced : List Bool) (n : Nat) : Nat := (synced.take n).count false

/-- The pass over the interface `i`, being in the state `st` with the info `x`, ends within
`turns` turns of the driver: either `driver` returns -1, or the driver is back in the state
`NSYNC_GET_UNSYNCED` with the flag `i` set in the flags `synced` and the number of
interfaces `n` unchanged. -/
def pass_ends {τ : Type} (check_OS : sync_info_t τ → nsync_state_t × sync_info_t τ)
    (sf : state_func_t (sync_info_t τ)) (synced : List Bool) (i n turns : Nat)
    (st : nsync_state_t) (x : sync_info_t τ) : Prop :=
  ∃ k, k ≤ turns ∧ ∃ info2 : sync_info_t τ,
    (∀ fuel, driver check_OS sf (fuel + k) st x = some (-1, info2))
    ∨ (info2.synced = synced.set i true ∧ info2.num_if = n
      ∧ ∀ fuel, driver check_OS sf (fuel + k) st x
          = driver check_OS sf fuel NSYNC_GET_UNSYNCED info2)

/-- A table of the RHEL dialect in which every interface has a persisted file that differs
from the active state, and every step succeeds. -/
def ex_table : state_func_t (sync_info_t Unit) :=
  { get_config := fun info => (NSYNC_GET_UNSYNCED, info),
    get_unsynced := centos_get_unsynced,
    check_exist := fun info => (NSYNC_COMPARE_CONFIG, info),
    compare_config := fun info => (NSYNC_BACKUP, info),
    backup := fun info => (NSYNC_OVERWRITE, info),
    overwrite := fun info => (NSYNC_IF_SYNCED, info),
    create_write := fun info => (NSYNC_IF_SYNCED, info),
    keep_existing := fun info => (NSYNC_IF_SYNCED, info),
    if_synced := centos_mark_synced,
    done := fun info => (NSYNC_SUCCESS, info) }

/-! ## Parsers of the active state of the RHEL dialect (`nsync_centos_parse.c`) -/

/-- The function `centos_parse_routes(cmd)`, where `output` is what the command prints
(`none` when it cannot be run, for which the function returns `NULL`): every line without
`proto kernel` is trimmed and stored, in order. -/
def centos_parse_routes (output : Option CStr) : Option routes_parsed_t :=
  match output with
  | none => none
  | some text =>
    some ⟨(read_lines MAX_OUTPUT_LEN text).foldl
      (fun route_list route =>
        -- Ignore routes that are made on boot.
        if strstr route "proto kernel".toList ≠ none then route_list
        else route_list ++ [trim route default_seps])
      []⟩

/-- The lines of a command output for which the parsers are studied: free of newline and
NUL, and fitting the line buffer with their newline. -/
def output_lines_plain (lines : List CStr) : Prop :=
  ∀ l ∈ lines, '\n' ∉ l ∧ NUL ∉ l ∧ l.length + 1 < MAX_OUTPUT_LEN

instance (lines : List CStr) : Decidable (output_lines_plain lines) := by
  unfold output_lines_plain; infer_instance

/-- A route listing of a host with one interface: the route of the attached network, made
by the kernel, the default route and a route added by hand. -/
def ex_route_listing : List CStr :=
  ["default via 10.0.1.1 dev eth1 ".toList,
   "10.0.1.0/24 dev eth1 proto kernel scope link src 10.0.1.5 ".toList,
   "10.2.0.0/16 via 10.0.1.1 dev eth1 ".toList]

/-- The constant `MAX_NUM_IF`. -/
def MAX_NUM_IF : Nat := 255

/-- The constant `MAX_IF_NAME`. -/
def MAX_IF_NAME : Nat := 100

/-- The name that `centos_parse_if_list` takes from a line of even number:
`get_field_delim(if_name, if_line, 2, MAX_IF_NAME, " "); if_name[strlen(if_name)-1] = 0;
at = strchr(if_name, '@'); if (at) *at = 0;`. For an empty second field the source writes
before the buffer; the name is then read as empty. -/
def centos_if_name (if_line : CStr) : CStr :=
  ((get_field_delim [] if_line 2 MAX_IF_NAME [' ']).dropLast).takeWhile (fun c => c ≠ '@')

/-- The loop of `centos_parse_if_list` over the lines read, with `line_num` the number of
the next line and `if_list` the names stored so far; `is_up` is the function of that name,
which asks `ethtool` for the link of an interface. -/
def centos_parse_if_list_loop (is_up : CStr → Bool) : List CStr → Nat → List CStr → List CStr
  | [], _, if_list => if_list
  | if_line :: rest, line_num, if_list =>
    if line_num % 2 = 0 then
      if ¬ is_up (centos_if_name if_line) then
        centos_parse_if_list_loop is_up rest (line_num + 1) if_list
      else
        centos_parse_if_list_loop is_up rest (line_num + 1)
          (if_list ++ [centos_if_name if_line])
    else centos_parse_if_list_loop is_up rest (line_num + 1) if_list

/-- The function `centos_parse_if_list(cmd)`, where `output` is what the command prints
(`none` when it cannot be run, for which the function returns `NULL`). -/
def centos_parse_if_list (is_up : CStr → Bool) (output : Option CStr) :
    Option if_list_parsed_t :=
  match output with
  | none => none
  | some text => some ⟨centos_parse_if_list_loop is_up (read_lines MAX_OUTPUT_LEN text) 0 []⟩

/-- The two lines of an interface in a link listing: the first is the index, a space, the
name, an alias (empty, or `@` and the name of another interface), a colon, a space and the
flags; the second gives the link address. -/
structure link_entry where
  index : CStr
  name : CStr
  vlan_alias : CStr
  flags : CStr
  second : CStr
  deriving DecidableEq, Repr

/-- The first line of an interface in a link listing. -/
def link_entry.first (e : link_entry) : CStr :=
  e.index ++ ' ' :: (e.name ++ e.vlan_alias ++ ':' :: ' ' :: e.flags)

/-- The entries for which the parser is studied: index, name and alias hold no space, the
name holds no `@`, the alias is empty or starts with `@`, name and alias fit the name
buffer with the colon, and both lines are free of newline and NUL and fit the line
buffer. -/
def link_entry.plain (e : link_entry) : Prop :=
  ' ' ∉ e.index ∧ ' ' ∉ e.name ∧ ' ' ∉ e.vlan_alias ∧ '@' ∉ e.name
  ∧ (e.vlan_alias = [] ∨ e.vlan_alias.head? = some '@')
  ∧ (e.name ++ e.vlan_alias).length + 2 ≤ MAX_IF_NAME
  ∧ '\n' ∉ e.first ∧ NUL ∉ e.first ∧ e.first.length + 1 < MAX_OUTPUT_LEN
  ∧ '\n' ∉ e.second ∧ NUL ∉ e.second ∧ e.second.length + 1 < MAX_OUTPUT_LEN

instance (e : link_entry) : Decidable e.plain := by
  unfold link_entry.plain; infer_instance

/-- The text of a link listing. -/
def link_listing (entries : List link_entry) : CStr :=
  unlines (entries.map (fun e => [e.first, e.second])).flatten

/-- A link listing with the loopback, an interface and a VLAN interface on it. -/
def ex_link_entries : List link_entry :=
  [⟨"1:".toList, "lo".toList, [], "<LOOPBACK,UP,LOWER_UP> mtu 65536 state UNKNOWN".toList,
    "    link/loopback 00:00:00:00:00:00 brd 00:00:00:00:00:00".toList⟩,
   ⟨"2:".toList, "eth0".toList, [], "<BROADCAST,MULTICAST,UP,LOWER_UP> mtu 1500".toList,
    "    link/ether 08:00:27:4e:66:a1 brd ff:ff:ff:ff:ff:ff".toList⟩,
   ⟨"3:".toList, "eth0.100".toList, "@eth0".toList, "<BROADCAST,MULTICAST> mtu 1500".toList,
    "    link/ether 08:00:27:4e:66:a1 brd ff:ff:ff:ff:ff:ff".toList⟩]

/-! ## Netmask of a prefix length (`nsync_utils.c`) -/

/-- The function `bitmask_to_netmask_ipv4(bits)` on a little-endian machine. The shift
`(~0U) << (32-bits)` is taken modulo 2^32; for a shift count outside 0..31, which C leaves
undefined, its value is read from `undefined_shift`. For `bits = 0` the shifted value is
overwritten by the special case. Byte 0 of the mask is its low byte `d`, byte 3 its high
byte `a`, and the text is `a.b.c.d` in decimal. -/
def bitmask_to_netmask_ipv4 (undefined_shift : Int → Nat) (bits : Int) : CStr :=
  let shifted : Nat :=
    if 0 ≤ 32 - bits ∧ 32 - bits < 32 then (4294967295 * 2 ^ (32 - bits).toNat) % 2 ^ 32
    else undefined_shift (32 - bits) % 2 ^ 32
  let bitmask : Nat := if bits = 0 then 0 else shifted
  let d := bitmask % 256
  let c := bitmask / 256 % 256
  let b := bitmask / 65536 % 256
  let a := bitmask / 16777216 % 256
  print_int a ++ ['.'] ++ print_int b ++ ['.'] ++ print_int c ++ ['.'] ++ print_int d

/-- The 32-bit value whose highest `bits` bits are one and whose other bits are zero: the
sum of the powers 2^31, 2^30, .. of its `bits` highest positions. -/
def spec_netmask_value (bits : Nat) : Nat :=
  ((List.range bits).map (fun i => 2 ^ (31 - i))).sum

/-- The dotted-decimal text `a.b.c.d` of a 32-bit value, `a` being its highest byte. -/
def spec_dotted_decimal (v : Nat) : CStr :=
  print_int (v / 2 ^ 24 % 256) ++ ['.'] ++ print_int (v / 2 ^ 16 % 256) ++ ['.']
    ++ print_int (v / 2 ^ 8 % 256) ++ ['.'] ++ print_int (v % 256)

/-- The active record of `eth0` with an IPv6 address beside its IPv4 address. -/
def ex_active_eth0_v6 : ip_show_fields_t :=
  { name := some "eth0".toList, mtu := some "9000".toList, link := some "ether".toList,
    inet := some "10.0.0.5".toList, inet_mask := some "255.255.255.0".toList,
    inet6 := some "fe80::5054:ff:fe12:3456".toList }

/-! ## Files written by the Debian dialect (`nsync_ubuntu.c`) -/

/-- The text of `if (field) fprintf(fp, "<key> %s\n", field);` in the writers of the Debian
dialect. -/
def ubuntu_print_opt (key : CStr) (field : Option CStr) : CStr :=
  match field with
  | none => []
  | some v => key ++ [' '] ++ v ++ ['\n']

/-- The settings from `netmask` to `scope` that the three writers of the Debian dialect
print, in this order, for a static interface. -/
def ubuntu_print_settings (if_ : interface_t) : CStr :=
  ubuntu_print_opt "netmask".toList if_.netmask
  ++ ubuntu_print_opt "broadcast".toList if_.broadcast
  ++ ubuntu_print_opt "metric".toList if_.metric
  ++ ubuntu_print_opt "hwaddress".toList if_.hwaddress
  ++ ubuntu_print_opt "gateway".toList if_.gateway
  ++ ubuntu_print_opt "mtu".toList if_.mtu
  ++ ubuntu_print_opt "scope".toList if_.scope

/-- The lines that the three writers of the Debian dialect append for one interface: the
line `auto <name>` when `auto_opt` is set, the line `iface <name> inet <linktype>`, and for
the link type `static` the address, the settings, the unmanaged text and one line per mapped
route. The writers differ in the format of the unmanaged text and of a route line, taken as
`unmanaged_fmt` and `route_fmt`. The result is `none` where the source hands a `NULL` string
to `fprintf` or `strcmp` (name, link type, or the address of a static interface). -/
def ubuntu_stanza_text (unmanaged_fmt route_fmt : CStr → CStr) (if_ : interface_t) :
    Option CStr :=
  match if_.name, if_.linktype with
  | some name, some linktype =>
    let head : CStr :=
      (if if_.auto_opt then "auto ".toList ++ name ++ ['\n'] else [])
      ++ ("iface ".toList ++ name ++ " inet ".toList ++ linktype ++ ['\n'])
    if linktype = "static".toList then
      match if_.address with
      | none => none
      | some address =>
        some (head ++ ("address ".toList ++ address ++ ['\n'])
          ++ ubuntu_print_settings if_
          ++ (match if_.unmanaged with
              | none => []
              | some u => unmanaged_fmt u)
          ++ (if_.mapped_routes.map route_fmt).flatten)
    else some head
  | _, _ => none

/-- The function `ubuntu_create_and_write_to_file` for the active record of the interface
`next_to_sync` (`none` for a `NULL` record): the state returned and the text appended to the
temporary interfaces file. The unmanaged text is printed with `"%s\n"` and a route with
`"up %s\n"`. Opening the file is taken to succeed. -/
def ubuntu_create_and_write_to_file (active : Option interface_t) :
    Option (nsync_state_t × CStr) :=
  match active with
  | none => some (NSYNC_IF_SYNCED, [])
  | some a =>
    (ubuntu_stanza_text (fun u => u ++ ['\n']) (fun r => "up ".toList ++ r ++ ['\n']) a).map
      (fun text => (NSYNC_IF_SYNCED, text))

/-- The function `ubuntu_overwrite_configs` for the active record of the interface
`next_to_sync`: the state returned and the text appended to the temporary interfaces file.
The unmanaged text is printed with `"%s"`, a route with `"up ip route add %s\n"`, and an
empty line ends the stanza. -/
def ubuntu_overwrite_configs (active : interface_t) : Option (nsync_state_t × CStr) :=
  (ubuntu_stanza_text (fun u => u) (fun r => "up ip route add ".toList ++ r ++ ['\n'])
      active).map
    (fun text => (NSYNC_IF_SYNCED, text ++ ['\n']))

/-- The function `ubuntu_keep_existing` for the persisted record of the interface
`next_to_sync`: the same text as `ubuntu_overwrite_configs` writes, for the persisted
record. -/
def ubuntu_keep_existing (persist : interface_t) : Option (nsync_state_t × CStr) :=
  (ubuntu_stanza_text (fun u => u) (fun r => "up ip route add ".toList ++ r ++ ['\n'])
      persist).map
    (fun text => (NSYNC_IF_SYNCED, text ++ ['\n']))

/-- The static interface `eth0` of a Debian host with one mapped route. -/
def ex_eth0_routed : interface_t :=
  { ex_eth0_static with mapped_routes := ["10.9.0.0/16 via 10.0.0.1 dev eth0".toList] }

/-! ## The interfaces file of the Debian dialect (`nsync_ubuntu_parse.c`) -/

/-- The size `MAX_UBUNTU_IF_VAL` of a value buffer of the Debian parsers. -/
def MAX_UBUNTU_IF_VAL : Nat := 100

/-- The state of the loop of `ubuntu_parse_persist_interfaces`. The records started so far are
kept with the current one first: `records` holds `interfaces[num_if], .., interfaces[0]`
and `names` holds `if_name_list[num_if], .., if_name_list[0]`, so `num_if` is -1 for the
empty list. `reached_auto` is the flag of the same name. -/
structure persist_loop_t where
  names : List CStr := []
  records : List interface_t := []
  reached_auto : Bool := false
  deriving DecidableEq, Repr

/-- The value that `ubuntu_parse_persist_interfaces` reads at `loc`, the place of a keyword in
the line: `get_field_delim(v, loc, 2, MAX_UBUNTU_IF_VAL, " ")` followed by `trim(v, NULL)`. -/
def persist_value (loc : CStr) : CStr :=
  trim (get_field_delim [] loc 2 MAX_UBUNTU_IF_VAL [' ']) default_seps

/-- An assignment to a field of `persist_ifs->interfaces[persist_ifs->num_if]`: `none` when
`num_if` is -1, where the source writes in front of the array. -/
def persist_set (f : interface_t → interface_t) (st : persist_loop_t) : Option persist_loop_t :=
  match st.records with
  | [] => none
  | cur :: earlier => some { st with records := f cur :: earlier }

/-- The start of a record in `ubuntu_parse_persist_interfaces`: `num_if++`, the name read
from the second field of the line is stored in `if_name_list[num_if]` and in the `name` of a
new record `interfaces[num_if]`. -/
def persist_new_record (auto_opt : Bool) (line : CStr) (st : persist_loop_t) : persist_loop_t :=
  { st with names := persist_value line :: st.names,
            records := { name := some (persist_value line), auto_opt := auto_opt }
              :: st.records }

/-- One test `loc = strstr(line, key); if (loc != NULL) { found_opt = true; .. }` of
`ubuntu_parse_persist_interfaces`, where `set v` stores the value `v` read at `loc` in the
current record. The flag `found_opt` is the second component. -/
def persist_field (key : CStr) (set : CStr → interface_t → interface_t) (line : CStr)
    (s : persist_loop_t × Bool) : Option (persist_loop_t × Bool) :=
  match strstr line key with
  | none => some s
  | some loc => (persist_set (set (persist_value loc)) s.1).map (fun st => (st, true))

/-- The tests for `iface` and `auto` at the start of the loop body of
`ubuntu_parse_persist_interfaces`: a line with `iface` starts a record unless an `auto` line
has started it (`reached_auto`), a line with `auto` starts a record with `auto_opt` set. -/
def persist_header (line : CStr) (st : persist_loop_t) : persist_loop_t × Bool :=
  let s1 : persist_loop_t × Bool :=
    if strstr line "iface".toList = none then (st, false)
    else if st.reached_auto then ({ st with reached_auto := false }, true)
    else (persist_new_record false line st, true)
  if strstr line "auto".toList = none then s1
  else ({ persist_new_record true line s1.1 with reached_auto := true }, true)

/-- The tests for `hwaddress` and, when it is not found, for `address`. -/
def persist_address (line : CStr) (s : persist_loop_t × Bool) :
    Option (persist_loop_t × Bool) :=
  match strstr line "hwaddress".toList with
  | some loc =>
    (persist_set (fun r => { r with hwaddress := some (persist_value loc) }) s.1).map
      (fun st => (st, true))
  | none => persist_field "address".toList (fun v r => { r with address := some v }) line s

/-- The test for `up` (a route, left to the mapper) and, when it is not found, for `scope`. -/
def persist_scope (line : CStr) (s : persist_loop_t × Bool) : Option (persist_loop_t × Bool) :=
  if strstr line "up".toList = none then
    persist_field "scope".toList (fun v r => { r with scope := some v }) line s
  else some (s.1, true)

/-- The end of the loop body of `ubuntu_parse_persist_interfaces`: a line in which no keyword
was found, read when a record exists, is added to the slot `unmanaged` of the current record.
The first such line is copied with `safe_strncpy(unmanaged, line, strlen(line))`; a later
one is added like a later line of the other accumulators. -/
def persist_unmanaged (line : CStr) (s : persist_loop_t × Bool) : persist_loop_t :=
  if s.2 then s.1
  else
    match s.1.records with
    | [] => s.1
    | cur :: earlier =>
      { s.1 with records :=
          { cur with unmanaged :=
              match cur.unmanaged with
              | none => some (safe_strncpy [] line line.length)
              | some acc => some (accumulate_next acc line) } :: earlier }

/-- The loop body of `ubuntu_parse_persist_interfaces` for one line; `none` where the source
writes to `interfaces[-1]`. -/
def ubuntu_parse_persist_line (st : persist_loop_t) (line : CStr) : Option persist_loop_t :=
  ((((((((persist_field "inet".toList (fun v r => { r with linktype := some v }) line
      (persist_header line st)).bind
    (persist_address line)).bind
    (persist_field "netmask".toList (fun v r => { r with netmask := some v }) line)).bind
    (persist_field "broadcast".toList (fun v r => { r with broadcast := some v }) line)).bind
    (persist_field "metric".toList (fun v r => { r with metric := some v }) line)).bind
    (persist_field "gateway".toList (fun v r => { r with gateway := some v }) line)).bind
    (persist_field "mtu".toList (fun v r => { r with mtu := some v }) line)).bind
    (persist_scope line)).map
    (persist_unmanaged line)

/-- The loop of `ubuntu_parse_persist_interfaces` over the lines read. -/
def ubuntu_parse_persist_loop : persist_loop_t → List CStr → Option persist_loop_t
  | st, [] => some st
  | st, line :: rest =>
    match ubuntu_parse_persist_line st line with
    | none => none
    | some st2 => ubuntu_parse_persist_loop st2 rest

/-- The function `ubuntu_parse_persist_interfaces(file_loc)` on a file with the content
`text`: the names and records in the order of the file. The result is `none` where the
source writes to `interfaces[-1]`. (For a file that cannot be opened the function returns
`NULL`.) -/
def ubuntu_parse_persist_interfaces (text : CStr) : Option if_data_t :=
  (ubuntu_parse_persist_loop {} (read_lines MAX_OUTPUT_LEN text)).map
    (fun st => ⟨st.names.reverse, st.records.reverse⟩)

/-- The words that `ubuntu_parse_persist_interfaces` looks for in a line. -/
def persist_keywords : List CStr :=
  ["iface".toList, "auto".toList, "inet".toList, "hwaddress".toList, "address".toList,
   "netmask".toList, "broadcast".toList, "metric".toList, "gateway".toList, "mtu".toList,
   "up".toList, "scope".toList]

/-- The line holds one of the words of `persist_keywords`. -/
def holds_keyword (line : CStr) : Bool :=
  persist_keywords.any (fun key => (strstr line key).isSome)

/-- A text without its newlines. -/
def without_newlines (text : CStr) : CStr := text.filter (fun c => decide (c ≠ '\n'))

/-- An interfaces file with one stanza of `eth0`, which has two lines of name servers. -/
def ex_interfaces_dns : CStr :=
  ("auto eth0\niface eth0 inet static\n    address 10.0.0.5\n    netmask 255.255.255.0\n".toList
    ++ "    dns-nameservers 10.0.0.1\n    dns-search example.com\n".toList)

/-- An interfaces file with one stanza of `eth0`, which has a `pre-up` command. -/
def ex_interfaces_pre_up : CStr :=
  ("auto eth0\niface eth0 inet static\n    address 10.0.0.5\n".toList
    ++ "    pre-up /sbin/ethtool -s eth0 wol g\n".toList)

/-- One of the words that `ubuntu_parse_persist_interfaces` looks for after the tests for
`iface` and `auto` is found in the line. -/
def holds_setting (line : CStr) : Bool :=
  (strstr line "inet".toList).isSome || (strstr line "hwaddress".toList).isSome
    || (strstr line "address".toList).isSome || (strstr line "netmask".toList).isSome
    || (strstr line "broadcast".toList).isSome || (strstr line "metric".toList).isSome
    || (strstr line "gateway".toList).isSome || (strstr line "mtu".toList).isSome
    || (strstr line "up".toList).isSome || (strstr line "scope".toList).isSome

/-- A stanza of an interfaces file, its lines given without their newlines: the line
`auto <name>` when it has one, the line `iface <name> inet <linktype>`, and the lines that
follow up to the next stanza. -/
structure if_stanza where
  auto_line : Option CStr
  iface_line : CStr
  body : List CStr
  deriving DecidableEq, Repr

/-- The lines of a stanza, in order. -/
def if_stanza.lines (s : if_stanza) : List CStr :=
  s.auto_line.toList ++ s.iface_line :: s.body

/-- A line that `fgets` reads whole: no newline and no NUL inside, and room for it and its
newline in the buffer of `MAX_OUTPUT_LEN` bytes. -/
def fits_line (l : CStr) : Prop := '\n' ∉ l ∧ NUL ∉ l ∧ l.length + 1 < MAX_OUTPUT_LEN

instance (l : CStr) : Decidable (fits_line l) := by
  unfold fits_line; infer_instance

/-- A stanza as the parser delimits it: the `auto` line holds `auto` and not `iface`, the
`iface` line holds `iface` and not `auto`, no line of the body holds `iface` or `auto`, and
every line is read whole. -/
def if_stanza.plain (s : if_stanza) : Prop :=
  (∀ l ∈ s.auto_line.toList,
      (strstr l "auto".toList).isSome = true ∧ (strstr l "iface".toList).isSome = false)
    ∧ (strstr s.iface_line "iface".toList).isSome = true
    ∧ (strstr s.iface_line "auto".toList).isSome = false
    ∧ (∀ l ∈ s.body,
        (strstr l "iface".toList).isSome = false ∧ (strstr l "auto".toList).isSome = false)
    ∧ ∀ l ∈ s.lines, fits_line l

instance (s : if_stanza) : Decidable s.plain := by
  unfold if_stanza.plain; infer_instance

/-- A line in front of the first stanza that the parser passes over: it starts no record
and holds no word of a setting, or it holds `up`. -/
def preamble_line (l : CStr) : Prop :=
  (strstr l "iface".toList).isSome = false ∧ (strstr l "auto".toList).isSome = false
    ∧ (strstr l "inet".toList).isSome = false ∧ (strstr l "address".toList).isSome = false
    ∧ (strstr l "netmask".toList).isSome = false ∧ (strstr l "broadcast".toList).isSome = false
    ∧ (strstr l "metric".toList).isSome = false ∧ (strstr l "gateway".toList).isSome = false
    ∧ (strstr l "mtu".toList).isSome = false
    ∧ ((strstr l "up".toList).isSome = true ∨ (strstr l "scope".toList).isSome = false)
    ∧ fits_line l

instance (l : CStr) : Decidable (preamble_line l) := by
  unfold preamble_line; infer_instance

/-- The text of the lines of a stanza body that hold no keyword, in order and without
newlines; `none` when the body has no such line. -/
def spec_unmanaged (body : List CStr) : Option CStr :=
  if body.filter (fun l => !holds_keyword l) = [] then none
  else some (body.filter (fun l => !holds_keyword l)).flatten

/-- An interfaces file: a comment, the stanza of the loopback and a stanza of `eth0` with a
`pre-up` command between two lines that hold no keyword. -/
def ex_stanzas : List if_stanza :=
  [⟨some "auto lo".toList, "iface lo inet loopback".toList, []⟩,
   ⟨some "auto eth0".toList, "iface eth0 inet static".toList,
     ["    address 10.0.0.5".toList, "    dns-nameservers 10.0.0.1".toList,
      "    pre-up /sbin/ethtool -s eth0 wol g".toList, "    dns-search example.com".toList]⟩]

/-! ## Lines of an ifcfg file, as the claims name them -/

/-- A comment line of an ifcfg file: it starts with `#`. -/
def is_comment_line (l : CStr) : Bool := decide (l.head? = some '#')

/-- A line with a recognized directive: it starts with a string of the table `ifcfg_opt`
followed by `=`. -/
def is_directive_line (l : CStr) : Bool :=
  ifcfg_opt_indices.any (fun k => (ifcfg_opt k ++ ['=']).isPrefixOf l)

/-- A line that is neither a comment nor a recognized directive. -/
def is_unknown_line (l : CStr) : Bool := !is_comment_line l && !is_directive_line l

/-- An ifcfg file of `eth0` with a comment, two lines that are no recognized directive and an
empty line. -/
def ex_ifcfg_unknown_lines : List CStr :=
  ["# written by hand".toList, "DEVICE=eth0".toList, "ZONE=public".toList, [],
   "BOOTPROTO=dhcp".toList, "PEERDNS=no".toList, "ONBOOT".toList]

/-! ## The active configuration of an interface (`nsync_centos_parse.c`) -/

/-- The statements `pchar = strchr(line, '\n'); if (pchar) *pchar = ' ';` of `clean_output`:
the first newline of the line becomes a space. -/
def replace_newline : CStr → CStr
  | [] => []
  | c :: rest => if c = '\n' then ' ' :: rest else c :: replace_newline rest

/-- The function `isspace` of the C locale. -/
def is_space (c : Char) : Bool := decide (c ∈ default_seps)

/-- The second loop of `clean_output`: the byte at index `i` is kept when it is no white
space or when `i > 0` and the byte before it is none; `prev` is the byte before (`none` at
index 0). -/
def strip_spaces : Option Char → CStr → CStr
  | _, [] => []
  | prev, c :: rest =>
    if !is_space c || (match prev with
        | none => false
        | some p => !is_space p) then c :: strip_spaces (some c) rest
    else strip_spaces (some c) rest

/-- The function `clean_output(fp, out_buff)` on the text read from `fp`: the lines are put
one after the other in the buffer of `MAX_OUTPUT_LEN` bytes, their newlines turned into
spaces, and every stretch of white space is cut down to its first byte (a stretch at the
start is removed). The model is for a text that is not empty and fits the buffer. -/
def clean_output (text : CStr) : CStr :=
  strip_spaces none
    ((((read_lines MAX_OUTPUT_LEN text).map replace_newline).flatten).take (MAX_OUTPUT_LEN - 1))

/-- The digits at the start of a string, as a number (the loop of `atoi`). -/
def atoi_digits : Nat → CStr → Nat
  | acc, [] => acc
  | acc, c :: rest => if c.isDigit then atoi_digits (acc * 10 + (c.toNat - 48)) rest else acc

/-- The function `atoi`: leading white space, a sign, and the digits that follow. -/
def atoi (str : CStr) : Int :=
  match str.dropWhile is_space with
  | '-' :: rest => - (atoi_digits 0 rest : Int)
  | '+' :: rest => (atoi_digits 0 rest : Int)
  | s => (atoi_digits 0 s : Int)

/-- The address part that `centos_parse_ip_show` and the Debian parser cut from the text at a
match `loc`: `get_field_delim(v, loc, 2, size, " "); get_field_delim(v, v, col, size, "/");`. -/
def ip_show_slash_field (loc : CStr) (col size : Nat) : CStr :=
  get_field_delim [] (get_field_delim [] loc 2 size [' ']) col size ['/']

/-- The function `centos_parse_ip_show(cmd)`. `output` is what the command prints and
`dhclient` what `ps -A -o cmd | grep -E '(/| )dhclient .'` prints (`none` when the command
cannot be run, for which the function returns `fatal_err_ptr`); `undefined_shift` is handed
to `bitmask_to_netmask_ipv4`. Every field is cut from the cleaned output at the first
match of `strstr` for its word: `mtu`, `link`, `inet` and `inet6`. -/
def centos_parse_ip_show (undefined_shift : Int → Nat) (output dhclient : Option CStr) :
    parse_ptr ip_show_fields_t :=
  match output with
  | none => parse_ptr.fatal_err_ptr
  | some text =>
    let out_buffer := clean_output text
    let name : CStr :=
      (trim (get_field_delim [] out_buffer 2 MAX_VAL_LEN [' ']) [':']).takeWhile
        (fun c => c ≠ '@')
    match dhclient with
    | none => parse_ptr.fatal_err_ptr
    | some ps =>
      parse_ptr.ptr
        { name := some name,
          mtu := (strstr out_buffer "mtu".toList).map
            (fun mtu => get_field_delim [] mtu 2 MAX_VAL_LEN [' ']),
          link := (strstr out_buffer "link".toList).map
            (fun link => get_field_delim [] link 2 MAX_VAL_LEN ['/', ' ']),
          inet := (strstr out_buffer "inet".toList).map
            (fun inet => ip_show_slash_field inet 1 MAX_VAL_LEN),
          inet_mask := (strstr out_buffer "inet".toList).map
            (fun inet_mask => bitmask_to_netmask_ipv4 undefined_shift
              (atoi (ip_show_slash_field inet_mask 2 MAX_VAL_LEN))),
          inet6 := (strstr out_buffer "inet6".toList).map
            (fun inet6 => ip_show_slash_field inet6 1 MAX_VAL_LEN),
          inet6_mask := (strstr out_buffer "inet6".toList).map
            (fun inet6_mask => ip_show_slash_field inet6_mask 1 MAX_VAL_LEN),
          dynamic := (read_lines MAX_OUTPUT_LEN ps).any
            (fun line => (strstr line name).isSome) }

/-- The address that `ubuntu_parse_active_interfaces` reads from the cleaned output of an
interface: `inet = strstr(out_buffer, "inet ")` with a space, then the same two cuts. -/
def ubuntu_active_address (out_buffer : CStr) : Option CStr :=
  (strstr out_buffer "inet ".toList).map
    (fun inet => ip_show_slash_field inet 1 MAX_UBUNTU_IF_VAL)

/-- What `ip addr show eth0` prints for an interface that has an IPv6 address only. -/
def ex_ip_show_v6_only : CStr :=
  ("2: eth0: <BROADCAST,MULTICAST,UP,LOWER_UP> mtu 1500 qdisc pfifo_fast state UP\n".toList
    ++ "    link/ether 52:54:00:12:34:56 brd ff:ff:ff:ff:ff:ff\n".toList
    ++ "    inet6 fe80::5054:ff:fe12:3456/64 scope link \n".toList
    ++ "       valid_lft forever preferred_lft forever\n".toList)

/-- What `ip addr show eth0` prints for an interface with an IPv4 and an IPv6 address. -/
def ex_ip_show_v4_v6 : CStr :=
  ("2: eth0: <BROADCAST,MULTICAST,UP,LOWER_UP> mtu 1500 qdisc pfifo_fast state UP\n".toList
    ++ "    link/ether 52:54:00:12:34:56 brd ff:ff:ff:ff:ff:ff\n".toList
    ++ "    inet 10.0.0.5/24 brd 10.0.0.255 scope global eth0\n".toList
    ++ "       valid_lft forever preferred_lft forever\n".toList
    ++ "    inet6 fe80::5054:ff:fe12:3456/64 scope link \n".toList
    ++ "       valid_lft forever preferred_lft forever\n".toList)

/-! ## The interface list of the Debian dialect (`nsync_ubuntu_parse.c`) -/

/-- The first loop of `ubuntu_parse_active_interfaces` over the lines read, with `line_num`
the number of the next line and `if_name_list` the names stored so far. The name is cut from
a line by the statements of `centos_parse_if_list` (`centos_if_name`). For an interface that
is not up the loop goes on with `continue`, leaving `line_num` as it is. -/
def ubuntu_parse_if_names_loop (is_up : CStr → Bool) : List CStr → Nat → List CStr → List CStr
  | [], _, if_name_list => if_name_list
  | if_line :: rest, line_num, if_name_list =>
    if line_num % 2 = 0 then
      if ¬ is_up (centos_if_name if_line) then
        ubuntu_parse_if_names_loop is_up rest line_num if_name_list
      else
        ubuntu_parse_if_names_loop is_up rest (line_num + 1)
          (if_name_list ++ [centos_if_name if_line])
    else ubuntu_parse_if_names_loop is_up rest (line_num + 1) if_name_list

/-- The list `if_name_list` that `ubuntu_parse_active_interfaces` builds from the output of
the command that lists the links (`none` when the command cannot be run, for which the
function returns `NULL`); the second loop of the function, over the details of the
interfaces, does not change the list. -/
def ubuntu_parse_active_if_names (is_up : CStr → Bool) (output : Option CStr) :
    Option (List CStr) :=
  match output with
  | none => none
  | some text => some (ubuntu_parse_if_names_loop is_up (read_lines MAX_OUTPUT_LEN text) 0 [])

/-- The second line of an interface in a link listing starts with two spaces, as in the
output of `ip link`, where it starts with four. -/
def link_entry.indented (e : link_entry) : Prop := e.second.take 2 = [' ', ' ']

instance (e : link_entry) : Decidable e.indented := by
  unfold link_entry.indented; infer_instance

/-! # Properties -/

/-! ## Lemmas on the comparison of the RHEL dialect -/

theorem foldl_fixed {α β : Type} (f : β → α → β) (st : β) (l : List α)
    (h : ∀ x ∈ l, f st x = st) : l.foldl f st = st := by
  induction l with
  | nil => rfl
  | cons x xs ih =>
    rw [List.foldl_cons, h x (List.mem_cons_self x xs)]
    exact ih (fun y hy => h y (List.mem_cons_of_mem x hy))

theorem centos_compare_field_false (n : Nat) (a s : Option CStr) :
    (centos_compare_field n a s false).2 = false := by
  cases a with
  | none => rfl
  | some v => simp only [centos_compare_field]; split <;> rfl

theorem centos_compare_field_match (n : Nat) (a s : Option CStr) (m : Bool)
    (h : field_matches a s) : (centos_compare_field n a s m).2 = m := by
  rcases h with h | h <;> subst h <;> simp [centos_compare_field]

theorem centos_compare_mtu_false (a s : Option CStr) :
    (centos_compare_mtu a s false).2 = false := by
  cases a with
  | none => rfl
  | some v => simp only [centos_compare_mtu]; split <;> rfl

theorem centos_compare_mtu_default (a s : Option CStr) (m : Bool)
    (ha : a = none ∨ a = some ['1', '5', '0', '0']) :
    (centos_compare_mtu a s m).2 = m := by
  rcases ha with h | h <;> subst h <;> simp [centos_compare_mtu]

theorem centos_compare_fields_flag_false (arping_wait : Bool) (a : ip_show_fields_t)
    (s : ifcfg_fields_t) : (centos_compare_fields arping_wait a s false).2 = false := by
  simp only [centos_compare_fields, centos_compare_field_false, centos_compare_mtu_false]
  repeat' split
  all_goals simp [centos_compare_field_false]

theorem centos_compare_fields_dynamic (arping_wait : Bool) (a : ip_show_fields_t)
    (s : ifcfg_fields_t) (m : Bool) (inet2 mask2 ip2 nm2 : Option CStr)
    (hd : a.dynamic = true) :
    (centos_compare_fields arping_wait { a with inet := inet2, inet_mask := mask2 }
        { s with ipaddr := ip2, netmask := nm2 } m).2
      = (centos_compare_fields arping_wait a s m).2
    ∧ (centos_compare_fields arping_wait a s m).1.ipaddr = s.ipaddr
    ∧ (centos_compare_fields arping_wait a s m).1.netmask = s.netmask := by
  simp [centos_compare_fields, hd]

theorem centos_compare_routes_loop_match (routes pr : List CStr) (n : Nat) (m : Bool)
    (hpr : pr = routes.take n) (hn : n ≤ routes.length) :
    centos_compare_routes_loop routes n (pr, m) = (pr, m) := by
  unfold centos_compare_routes_loop
  apply foldl_fixed
  intro i hi
  have hi2 : i < n := List.mem_range.mp hi
  have hlen : pr.length = n := by rw [hpr, List.length_take]; omega
  have hget : pr.getD i [] = routes.getD i [] := by
    rw [hpr]
    simp [List.getD_eq_getElem?_getD, List.getElem?_take, hi2]
  simp only [centos_compare_routes_step]
  have h1 : ¬ pr.length ≤ i := by omega
  rw [if_neg h1, if_neg (by simpa using hget)]

theorem ubuntu_compare_routes_loop_succ (a p : List CStr) (n : Nat) (m : Bool) :
    ubuntu_compare_routes_loop a p (n + 1) m
      = if a.getD n [] ≠ p.getD n [] then false else ubuntu_compare_routes_loop a p n m := by
  simp only [ubuntu_compare_routes_loop, List.range_succ, List.foldl_append, List.foldl_cons,
    List.foldl_nil]

theorem ubuntu_compare_routes_loop_true (a p : List CStr) (n : Nat) (m : Bool)
    (h : ubuntu_compare_routes_loop a p n m = true) :
    m = true ∧ ∀ j, j < n → a.getD j [] = p.getD j [] := by
  induction n with
  | zero => exact ⟨by simpa [ubuntu_compare_routes_loop] using h, fun j hj => by omega⟩
  | succ k ih =>
    rw [ubuntu_compare_routes_loop_succ] at h
    by_cases hk : a.getD k [] = p.getD k []
    · rw [if_neg (by simpa using hk)] at h
      refine ⟨(ih h).1, fun j hj => ?_⟩
      rcases Nat.lt_succ_iff_lt_or_eq.mp hj with hlt | heq
      · exact (ih h).2 j hlt
      · rw [heq]; exact hk
    · rw [if_pos hk] at h
      exact absurd h (by simp)

theorem ubuntu_compare_routes_loop_false (a p : List CStr) (n : Nat) :
    ubuntu_compare_routes_loop a p n false = false := by
  cases hv : ubuntu_compare_routes_loop a p n false with
  | false => rfl
  | true => exact absurd (ubuntu_compare_routes_loop_true a p n false hv).1 (by simp)

theorem ubuntu_routes_eq_of_loop (a p : List CStr) (m : Bool) (hlen : a.length = p.length)
    (h : ubuntu_compare_routes_loop a p a.length m = true) : a = p := by
  have hall := (ubuntu_compare_routes_loop_true a p a.length m h).2
  apply List.ext_getElem hlen
  intro j h1 h2
  have := hall j h1
  simpa [List.getD_eq_getElem?_getD, List.getElem?_eq_getElem h1,
    List.getElem?_eq_getElem h2] using this

/-! ## Lemmas on texts and their lines -/

theorem text_lines_cons_ne (c : Char) (rest : CStr) (hc : c ≠ '\n') :
    text_lines (c :: rest) = (c :: (text_lines rest).headD []) :: (text_lines rest).tail := by
  rw [text_lines, if_neg hc]
  cases text_lines rest <;> rfl

theorem text_lines_line (l rest : CStr) (hl : '\n' ∉ l) :
    text_lines (l ++ '\n' :: rest) = l :: text_lines rest := by
  induction l with
  | nil => simp [text_lines]
  | cons c cs ih =>
    have hc : c ≠ '\n' := fun h => hl (by simp [h])
    have hcs : '\n' ∉ cs := fun h => hl (List.mem_cons_of_mem c h)
    rw [List.cons_append, text_lines_cons_ne c _ hc, ih hcs]
    rfl

theorem starts_with_self (lit v : CStr) : lit.isPrefixOf (lit ++ v) = true := by
  induction lit with
  | nil => simp [List.isPrefixOf]
  | cons c cs ih => simp [List.isPrefixOf, ih]

theorem starts_with_differs (key lit v : CStr)
    (h : (List.zip key lit).any (fun p => p.1 != p.2) = true) :
    key.isPrefixOf (lit ++ v) = false := by
  induction key generalizing lit with
  | nil => simp at h
  | cons k ks ih =>
    cases lit with
    | nil => simp at h
    | cons c cs =>
      simp only [List.zip_cons_cons, List.any_cons, Bool.or_eq_true, bne_iff_ne, ne_eq] at h
      simp only [List.cons_append, List.isPrefixOf, Bool.and_eq_false_imp, beq_iff_eq]
      intro hk
      rcases h with h | h
      · exact absurd hk h
      · exact ih cs h

theorem text_lines_unlines (ls : List CStr) (rest : CStr) (h : ∀ l ∈ ls, '\n' ∉ l) :
    text_lines (unlines ls ++ rest) = ls ++ text_lines rest := by
  induction ls with
  | nil => rfl
  | cons l ls ih =>
    have h1 : unlines (l :: ls) ++ rest = l ++ '\n' :: (unlines ls ++ rest) := by
      simp [unlines]
    rw [h1, text_lines_line l _ (h l (List.mem_cons_self l ls)),
      ih (fun x hx => h x (List.mem_cons_of_mem l hx))]
    rfl

theorem unlines_append (xs ys : List CStr) : unlines (xs ++ ys) = unlines xs ++ unlines ys := by
  simp [unlines]

theorem centos_create_ifcfg_text_eq (arping_wait : Bool) (if_name : CStr)
    (a : ip_show_fields_t) :
    centos_create_ifcfg_text arping_wait if_name a
      = unlines (centos_create_lines if_name a) ++ centos_create_tail arping_wait a := by
  have h1 : centos_create_link_text a.link = unlines (centos_create_link_lines a.link) := by
    cases a.link <;> simp [centos_create_link_text, centos_create_link_lines, unlines]
  have h2 : "DEVICE=".toList ++ if_name ++ "\nNAME=".toList ++ if_name ++ ['\n']
      = unlines ["DEVICE=".toList ++ if_name, "NAME=".toList ++ if_name] := by
    simp [unlines]
  have h3 : centos_create_inet_text a.inet a.dynamic
      = unlines (centos_create_inet_lines a.inet a.dynamic) := by
    cases a.inet <;> cases a.dynamic <;>
      simp [centos_create_inet_text, centos_create_inet_lines, unlines]
  have h4 : ∀ (key : CStr) (v : Option CStr),
      print_field key v = unlines (v.toList.map (fun x => key ++ ['='] ++ x)) := by
    intro key v
    cases v <;> simp [print_field, unlines]
  have h4a : print_field "NETMASK".toList a.inet_mask
      = unlines (a.inet_mask.toList.map (fun mask => "NETMASK=".toList ++ mask)) := by
    rw [h4]; rfl
  have h4b : print_field "MTU".toList a.mtu
      = unlines (a.mtu.toList.map (fun mtu => "MTU=".toList ++ mtu)) := by
    rw [h4]; rfl
  have h6 : centos_create_inet6_text a.inet6 ++ (if arping_wait then "ARPING_WAIT=8\n".toList else [])
      = unlines (centos_create_inet6_lines a.inet6) ++ centos_create_tail arping_wait a := by
    cases h : a.inet6 <;> cases arping_wait <;>
      simp [centos_create_inet6_text, centos_create_inet6_lines, centos_create_tail, unlines, h]
  simp only [centos_create_ifcfg_text, h1, h2, h3, h4a, h4b]
  simp only [List.append_assoc, h6, centos_create_lines, unlines_append]

theorem centos_create_lines_no_newline (if_name : CStr) (a : ip_show_fields_t)
    (hname : '\n' ∉ if_name)
    (hlink : ∀ v, a.link = some v → '\n' ∉ v) (hinet : ∀ v, a.inet = some v → '\n' ∉ v)
    (hmask : ∀ v, a.inet_mask = some v → '\n' ∉ v) (hmtu : ∀ v, a.mtu = some v → '\n' ∉ v) :
    ∀ l ∈ centos_create_lines if_name a, '\n' ∉ l := by
  intro l hl
  have hlit : ∀ (lit v : CStr), '\n' ∉ lit → '\n' ∉ v → '\n' ∉ lit ++ v := by
    intro lit v h1 h2 h
    rcases List.mem_append.mp h with h | h
    · exact h1 h
    · exact h2 h
  simp only [centos_create_lines, List.mem_append] at hl
  rcases hl with ((((hl | hl) | hl) | hl) | hl) | hl
  · cases hv : a.link with
    | none => simp [centos_create_link_lines, hv] at hl
    | some v =>
      simp only [centos_create_link_lines, hv, List.mem_cons, List.mem_singleton,
        List.not_mem_nil, or_false] at hl
      rcases hl with h | h
      · subst h; decide
      · subst h
        intro hc
        rcases List.mem_cons.mp hc with h | h
        · exact absurd h (by decide)
        · exact hlink v hv h
  · simp only [List.mem_cons, List.mem_singleton, List.not_mem_nil, or_false] at hl
    rcases hl with h | h <;> subst h <;> exact hlit _ _ (by decide) hname
  · cases hv : a.inet with
    | none =>
      simp only [centos_create_inet_lines, hv, List.mem_cons, List.mem_singleton,
        List.not_mem_nil, or_false] at hl
      rcases hl with h | h <;> subst h <;> decide
    | some v =>
      simp only [centos_create_inet_lines, hv, List.mem_cons, List.mem_singleton,
        List.not_mem_nil, or_false] at hl
      rcases hl with h | h | h
      · subst h; decide
      · subst h; split <;> decide
      · subst h; exact hlit _ _ (by decide) (hinet v hv)
  · cases hv : a.inet_mask with
    | none => simp [hv] at hl
    | some v =>
      simp only [hv, Option.toList, List.map, List.mem_singleton] at hl
      subst hl; exact hlit _ _ (by decide) (hmask v hv)
  · cases hv : a.mtu with
    | none => simp [hv] at hl
    | some v =>
      simp only [hv, Option.toList, List.map, List.mem_singleton] at hl
      subst hl; exact hlit _ _ (by decide) (hmtu v hv)
  · cases hv : a.inet6 with
    | none =>
      simp only [centos_create_inet6_lines, hv, List.mem_singleton] at hl
      subst hl; decide
    | some v =>
      simp only [centos_create_inet6_lines, hv, List.mem_singleton] at hl
      subst hl; decide

theorem centos_create_lines_with (key : CStr) (arping_wait : Bool) (if_name : CStr)
    (a : ip_show_fields_t) (hname : '\n' ∉ if_name)
    (hlink : ∀ v, a.link = some v → '\n' ∉ v) (hinet : ∀ v, a.inet = some v → '\n' ∉ v)
    (hmask : ∀ v, a.inet_mask = some v → '\n' ∉ v) (hmtu : ∀ v, a.mtu = some v → '\n' ∉ v) :
    lines_with key (centos_create_ifcfg_text arping_wait if_name a)
      = (centos_create_lines if_name a).filter (fun l => key.isPrefixOf l)
        ++ lines_with key (centos_create_tail arping_wait a) := by
  rw [lines_with, centos_create_ifcfg_text_eq, text_lines_unlines _ _
    (centos_create_lines_no_newline if_name a hname hlink hinet hmask hmtu),
    List.filter_append]
  rfl

/-! ## Lemmas on reading lines and fields -/

theorem fgets_bytes_line (l rest : CStr) (n : Nat) (hl : '\n' ∉ l) (hn : l.length < n) :
    fgets_bytes n (l ++ '\n' :: rest) = (l ++ ['\n'], rest) := by
  induction l generalizing n with
  | nil =>
    cases n with
    | zero => omega
    | succ k => simp [fgets_bytes]
  | cons c cs ih =>
    have hc : c ≠ '\n' := fun h => hl (by simp [h])
    have hcs : '\n' ∉ cs := fun h => hl (List.mem_cons_of_mem c h)
    cases n with
    | zero => simp at hn
    | succ k =>
      have hk : cs.length < k := by simpa using hn
      simp [fgets_bytes, hc, ih k hcs hk]

theorem c_str_of_no_nul (l : CStr) (h : NUL ∉ l) : c_str l = l := by
  unfold c_str
  rw [List.takeWhile_eq_self_iff]
  intro c hc
  simp only [ne_eq, decide_not, Bool.not_eq_true', decide_eq_false_iff_not]
  intro hcn
  exact h (hcn ▸ hc)

theorem read_lines_fuel_unlines (size : Nat) (lines : List CStr) (fuel : Nat)
    (h : ∀ l ∈ lines, '\n' ∉ l ∧ NUL ∉ l ∧ l.length + 1 < size) (hf : lines.length ≤ fuel) :
    read_lines_fuel size fuel (unlines lines) = lines.map (fun l => l ++ ['\n']) := by
  induction lines generalizing fuel with
  | nil =>
    cases fuel with
    | zero => rfl
    | succ k => simp [read_lines_fuel, unlines, fgets]
  | cons l ls ih =>
    cases fuel with
    | zero => simp at hf
    | succ k =>
      obtain ⟨h1, h2, h3⟩ := h l (List.mem_cons_self l ls)
      have hu : unlines (l :: ls) = l ++ '\n' :: unlines ls := by simp [unlines]
      have hne : l ++ '\n' :: unlines ls ≠ [] := by simp
      have hb := fgets_bytes_line l (unlines ls) (size - 1) h1 (by omega)
      have hnul : NUL ∉ l ++ ['\n'] := by
        intro hc
        rcases List.mem_append.mp hc with hc | hc
        · exact h2 hc
        · exact absurd (List.mem_singleton.mp hc) (by decide)
      rw [hu, read_lines_fuel]
      simp only [fgets, hne, if_false, hb, c_str_of_no_nul _ hnul, List.map_cons]
      rw [ih k (fun x hx => h x (List.mem_cons_of_mem l hx)) (by simpa using hf)]

theorem length_le_unlines (lines : List CStr) : lines.length ≤ (unlines lines).length := by
  induction lines with
  | nil => simp
  | cons l ls ih =>
    have hu : unlines (l :: ls) = l ++ '\n' :: unlines ls := by simp [unlines]
    rw [hu]
    simp only [List.length_cons, List.length_append]
    omega

theorem read_lines_unlines (size : Nat) (lines : List CStr)
    (h : ∀ l ∈ lines, '\n' ∉ l ∧ NUL ∉ l ∧ l.length + 1 < size) :
    read_lines size (unlines lines) = lines.map (fun l => l ++ ['\n']) :=
  read_lines_fuel_unlines size lines _ h (length_le_unlines lines)

theorem strsep_no_delim (s delim : CStr) (h : ∀ c ∈ s, c ∉ delim) :
    strsep s delim = (s, none) := by
  induction s with
  | nil => rfl
  | cons c cs ih =>
    have hc : c ∉ delim := h c (List.mem_cons_self c cs)
    simp [strsep, hc, ih (fun x hx => h x (List.mem_cons_of_mem c hx))]

theorem strsep_at_delim (a rest delim : CStr) (d : Char) (h : ∀ c ∈ a, c ∉ delim)
    (hd : d ∈ delim) : strsep (a ++ d :: rest) delim = (a, some rest) := by
  induction a with
  | nil => simp [strsep, hd]
  | cons c cs ih =>
    have hc : c ∉ delim := h c (List.mem_cons_self c cs)
    simp [strsep, hc, ih (fun x hx => h x (List.mem_cons_of_mem c hx))]

theorem ltrim_of_head (v seps : CStr) (h : ∀ c, v.head? = some c → c ∉ seps) :
    ltrim v seps = v := by
  cases v with
  | nil => rfl
  | cons c cs => simp [ltrim, List.dropWhile, h c rfl]

theorem rtrim_of_last (v seps : CStr) (h : ∀ c, v.getLast? = some c → c ∉ seps) :
    rtrim v seps = v := by
  unfold rtrim
  have h2 : ∀ c, v.reverse.head? = some c → c ∉ seps := by
    intro c hc
    exact h c (by simpa [List.head?_reverse] using hc)
  have := ltrim_of_head v.reverse seps h2
  unfold ltrim at this
  rw [this, List.reverse_reverse]

theorem rtrim_append_sep (v seps : CStr) (c : Char) (hc : c ∈ seps) :
    rtrim (v ++ [c]) seps = rtrim v seps := by
  simp [rtrim, List.dropWhile, hc]

theorem trim_plain_value (v : CStr) (hv : plain_value v) (hnl : '\n' ∉ v) :
    trim (safe_strncpy [] (v ++ ['\n']) (min ((v ++ ['\n']).length + 1) MAX_VAL_LEN))
      [DQUOTE, '\n'] = v
    ∧ trim (safe_strncpy [] (v ++ ['\n']) MAX_VAL_LEN) [DQUOTE, '\n'] = v := by
  obtain ⟨hlen, hhead, hlast⟩ := hv
  have hlen2 : v.length < 199 := hlen
  have hl : ∀ c, v.getLast? = some c → c ∉ [DQUOTE, '\n'] := by
    intro c hc hmem
    have hcv : c ∈ v := List.mem_of_getLast?_eq_some hc
    rcases List.mem_cons.mp hmem with h | h
    · exact hlast (h ▸ hc)
    · exact hnl ((List.mem_singleton.mp h) ▸ hcv)
  have hh : ∀ c, v.head? = some c → c ∉ [DQUOTE, '\n'] := by
    intro c hc hmem
    have hcv : c ∈ v := List.mem_of_mem_head? hc
    rcases List.mem_cons.mp hmem with h | h
    · exact hhead (h ▸ hc)
    · exact hnl ((List.mem_singleton.mp h) ▸ hcv)
  have htrim : trim v [DQUOTE, '\n'] = v := by
    unfold trim
    rw [rtrim_of_last v _ hl, ltrim_of_head v _ hh]
  have htrim2 : trim (v ++ ['\n']) [DQUOTE, '\n'] = v := by
    unfold trim
    rw [rtrim_append_sep v _ '\n' (by simp), rtrim_of_last v _ hl, ltrim_of_head v _ hh]
  have key : ∀ n, 198 ≤ n → trim ((v ++ ['\n']).take n) [DQUOTE, '\n'] = v := by
    intro n hn
    by_cases h198 : v.length = 198
    · by_cases hn2 : n = 198
      · have : (v ++ ['\n']).take n = v := by
          rw [hn2, List.take_append_of_le_length (by omega), List.take_of_length_le (by omega)]
        rw [this, htrim]
      · have : (v ++ ['\n']).take n = v ++ ['\n'] := by
          apply List.take_of_length_le
          simp only [List.length_append, List.length_singleton]; omega
        rw [this, htrim2]
    · have : (v ++ ['\n']).take n = v ++ ['\n'] := by
        apply List.take_of_length_le
        simp only [List.length_append, List.length_singleton]; omega
      rw [this, htrim2]
  constructor
  · simp only [safe_strncpy, MAX_VAL_LEN, CFG_LINE_LEN, MAX_OPT_LEN, List.length_append,
      List.length_singleton]
    have hmin : min (v.length + 1 + 1) (300 - 100 - 1) ≠ 0 := by omega
    rw [if_neg hmin]
    by_cases h197 : v.length + 1 ≤ 198
    · have : (v ++ ['\n']).take (min (v.length + 1 + 1) (300 - 100 - 1) - 1) = v ++ ['\n'] := by
        apply List.take_of_length_le
        simp only [List.length_append, List.length_singleton]; omega
      rw [this, htrim2]
    · have : min (v.length + 1 + 1) (300 - 100 - 1) - 1 = 198 := by omega
      rw [this]
      exact key 198 (le_refl _)
  · simp only [safe_strncpy, MAX_VAL_LEN, CFG_LINE_LEN, MAX_OPT_LEN]
    exact key 198 (le_refl _)

/-! ## Lemmas on the options of an ifcfg line -/

theorem opt_str_to_enum_spec (str : CStr) (k : ifcfg_opt_t) (h : opt_str_to_enum str = k)
    (hk : k ≠ UNKNOWN_OPT) : str = ifcfg_opt k ∧ k ∈ ifcfg_opt_indices := by
  unfold opt_str_to_enum at h
  cases hf : ifcfg_opt_indices.find? (fun i => decide (str = ifcfg_opt i)) with
  | none => rw [hf] at h; exact absurd h.symm hk
  | some i =>
    rw [hf] at h
    have hi : i = k := h
    subst hi
    exact ⟨by simpa using List.find?_some hf, List.mem_of_find?_eq_some hf⟩

theorem opt_str_to_enum_ne_num (str : CStr) : opt_str_to_enum str ≠ NUM_OPT := by
  intro h
  have := (opt_str_to_enum_spec str NUM_OPT h (by decide)).2
  exact absurd this (by decide)

theorem ifcfg_opt_shape : ∀ k ∈ ifcfg_opt_indices,
    (ifcfg_opt k).length ≤ 18 ∧ '\n' ∉ ifcfg_opt k ∧ '=' ∉ ifcfg_opt k
      ∧ (k ≠ COMMENT → (ifcfg_opt k).head? ≠ some '#') := by
  decide

theorem get_field_delim_first (src delim : CStr) (destsz : Nat) :
    get_field_delim [] src 1 destsz delim
      = safe_strncpy [] (strsep src delim).1 (min ((strsep src delim).1.length + 1) destsz) := by
  simp [get_field_delim, get_field_loop]

theorem get_field_delim_second (src delim : CStr) (destsz : Nat) :
    get_field_delim [] src 2 destsz delim
      = match (strsep src delim).2 with
        | none => safe_strncpy [] [] destsz
        | some p =>
          safe_strncpy [] (strsep p delim).1 (min ((strsep p delim).1.length + 1) destsz) := by
  cases h : (strsep src delim).2 <;> simp [get_field_delim, get_field_loop, h]

theorem ifcfg_split_comment (body : CStr) (hnl : '\n' ∉ body) (hplain : plain_value body) :
    ifcfg_split_line ('#' :: body ++ ['\n']) = (['#'], body) := by
  have h := (trim_plain_value body hplain hnl).2
  simp only [ifcfg_split_line, List.cons_append, List.head?_cons, if_true, List.tail_cons, h]
  rfl

theorem line_split_at_eq (l : CStr) (h : '=' ∈ l) :
    l = l.takeWhile (fun c => c ≠ '=') ++ '=' :: ifcfg_line_value l
      ∧ '=' ∉ l.takeWhile (fun c => c ≠ '=') := by
  induction l with
  | nil => simp at h
  | cons c cs ih =>
    by_cases hc : c = '='
    · subst hc
      simp [ifcfg_line_value, List.takeWhile, List.dropWhile]
    · have hcs : '=' ∈ cs := by
        rcases List.mem_cons.mp h with h | h
        · exact absurd h.symm hc
        · exact h
      obtain ⟨h1, h2⟩ := ih hcs
      have hv : ifcfg_line_value (c :: cs) = ifcfg_line_value cs := by
        simp [ifcfg_line_value, List.dropWhile, hc]
      have ht : (c :: cs).takeWhile (fun c => c ≠ '=') = c :: cs.takeWhile (fun c => c ≠ '=') := by
        simp [List.takeWhile, hc]
      rw [hv, ht]
      refine ⟨by rw [List.cons_append, ← h1], ?_⟩
      intro hm
      rcases List.mem_cons.mp hm with hm | hm
      · exact hc hm.symm
      · exact h2 hm

theorem ifcfg_split_no_eq (l : CStr) (hnl : '\n' ∉ l) (hhead : l.head? ≠ some '#')
    (heq : '=' ∉ l) : ifcfg_line_opt l = UNKNOWN_OPT := by
  by_contra hk
  have hsep : strsep (l ++ ['\n']) ['='] = (l ++ ['\n'], none) := by
    apply strsep_no_delim
    intro c hc hd
    have hce : c = '=' := by simpa using hd
    subst hce
    rcases List.mem_append.mp hc with h | h
    · exact heq h
    · exact absurd (List.mem_singleton.mp h) (by decide)
  have hhead2 : (l ++ ['\n']).head? ≠ some '#' := by
    cases l with
    | nil => decide
    | cons c cs => simpa using hhead
  obtain ⟨h1, h2⟩ := opt_str_to_enum_spec (ifcfg_split_line (l ++ ['\n'])).1
    (ifcfg_line_opt l) rfl hk
  have hshape := ifcfg_opt_shape _ h2
  rw [← h1] at hshape
  simp only [ifcfg_split_line, hhead2, if_false, get_field_delim_first, hsep] at hshape
  obtain ⟨hlen, hnonl, -, -⟩ := hshape
  simp only [safe_strncpy, MAX_OPT_LEN, List.length_append, List.length_singleton] at hlen hnonl
  have hmin : min (l.length + 1 + 1) 100 ≠ 0 := by omega
  rw [if_neg hmin] at hlen hnonl
  rw [List.length_take] at hlen
  simp only [List.length_append, List.length_singleton] at hlen
  have htake : (l ++ ['\n']).take (min (l.length + 1 + 1) 100 - 1) = l ++ ['\n'] := by
    apply List.take_of_length_le
    simp only [List.length_append, List.length_singleton]; omega
  rw [htake] at hnonl
  exact hnonl (by simp)

theorem ifcfg_split_directive (l : CStr) (k : ifcfg_opt_t) (hnl : '\n' ∉ l)
    (hhead : l.head? ≠ some '#') (hk : ifcfg_line_opt l = k) (hku : k ≠ UNKNOWN_OPT)
    (hplain : '=' ∉ ifcfg_line_value l ∧ plain_value (ifcfg_line_value l)) :
    l = ifcfg_opt k ++ '=' :: ifcfg_line_value l
      ∧ ifcfg_split_line (l ++ ['\n']) = (ifcfg_opt k, ifcfg_line_value l)
      ∧ k ∈ ifcfg_opt_indices ∧ k ≠ COMMENT := by
  have heq : '=' ∈ l := by
    by_contra hne
    exact hku (hk ▸ ifcfg_split_no_eq l hnl hhead hne)
  obtain ⟨hsplit, hkeyeq⟩ := line_split_at_eq l heq
  generalize hkey : l.takeWhile (fun c => c ≠ '=') = key at hsplit hkeyeq
  generalize hval : ifcfg_line_value l = value at hsplit hplain
  have hvnl : '\n' ∉ value := by
    intro h
    apply hnl
    rw [hsplit]
    exact List.mem_append_right _ (List.mem_cons_of_mem _ h)
  have hL : l ++ ['\n'] = key ++ '=' :: (value ++ ['\n']) := by
    rw [hsplit]; simp
  have hsep1 : strsep (l ++ ['\n']) ['='] = (key, some (value ++ ['\n'])) := by
    rw [hL]
    apply strsep_at_delim
    · intro c hc hd
      have hce : c = '=' := by simpa using hd
      exact hkeyeq (hce ▸ hc)
    · simp
  have hsep2 : strsep (value ++ ['\n']) ['='] = (value ++ ['\n'], none) := by
    apply strsep_no_delim
    intro c hc hd
    have hce : c = '=' := by simpa using hd
    subst hce
    rcases List.mem_append.mp hc with h | h
    · exact hplain.1 h
    · exact absurd (List.mem_singleton.mp h) (by decide)
  have hhead2 : (l ++ ['\n']).head? ≠ some '#' := by
    cases l with
    | nil => decide
    | cons c cs => simpa using hhead
  have hsplitline : ifcfg_split_line (l ++ ['\n'])
      = (safe_strncpy [] key (min (key.length + 1) MAX_OPT_LEN), value) := by
    simp only [ifcfg_split_line, hhead2, if_false, get_field_delim_first,
      get_field_delim_second, hsep1, hsep2, (trim_plain_value value hplain.2 hvnl).1]
  obtain ⟨h1, h2⟩ := opt_str_to_enum_spec _ _ hk hku
  rw [hsplitline] at h1
  simp only at h1
  have hshape := ifcfg_opt_shape _ h2
  have hkk : key = ifcfg_opt k := by
    have hlen := hshape.1
    rw [← h1] at hlen
    simp only [safe_strncpy, MAX_OPT_LEN] at hlen h1
    have hmin : min (key.length + 1) 100 ≠ 0 := by omega
    rw [if_neg hmin] at hlen h1
    rw [List.length_take] at hlen
    have htake : key.take (min (key.length + 1) 100 - 1) = key := by
      apply List.take_of_length_le
      omega
    rw [htake] at h1
    exact h1
  subst hkk
  refine ⟨hsplit, ?_, h2, ?_⟩
  · rw [hsplitline]
    have hlen := hshape.1
    simp only [safe_strncpy, MAX_OPT_LEN]
    have hmin : min ((ifcfg_opt k).length + 1) 100 ≠ 0 := by omega
    rw [if_neg hmin, List.take_of_length_le (by omega)]
  · intro hc
    subst hc
    apply hhead
    rw [hsplit]
    rfl

/-! ## Lemmas on the record built by the parser -/

theorem parse_ifcfg_switch_get_ne (cfg cfg2 : ifcfg_fields_t) (opt k : ifcfg_opt_t)
    (v line : CStr) (h : parse_ifcfg_switch cfg opt v line = some cfg2) (hne : opt ≠ k) :
    cfg2.get k = cfg.get k := by
  cases opt <;> cases k <;>
    first
    | exact absurd rfl hne
    | (simp only [parse_ifcfg_switch] at h
       first
       | (cases h <;> rfl)
       | (split at h <;> cases h <;> rfl))

theorem parse_ifcfg_switch_get_self (cfg cfg2 : ifcfg_fields_t) (opt : ifcfg_opt_t)
    (v line : CStr) (h : parse_ifcfg_switch cfg opt v line = some cfg2)
    (hopt : opt ∈ ifcfg_opt_indices) : cfg2.get opt = some v := by
  cases opt <;>
    first
    | exact absurd hopt (by decide)
    | (simp only [parse_ifcfg_switch] at h; cases h; rfl)

theorem parse_ifcfg_switch_some (cfg : ifcfg_fields_t) (opt : ifcfg_opt_t) (v line : CStr)
    (hopt : opt ≠ NUM_OPT) : ∃ cfg2, parse_ifcfg_switch cfg opt v line = some cfg2 := by
  cases opt <;>
    first
    | exact absurd rfl hopt
    | (simp only [parse_ifcfg_switch]
       first
       | exact ⟨_, rfl⟩
       | (split <;> exact ⟨_, rfl⟩))

theorem parse_ifcfg_loop_some (cfg : ifcfg_fields_t) (ls : List CStr) :
    ∃ cfg2, parse_ifcfg_loop cfg ls = some cfg2 := by
  induction ls generalizing cfg with
  | nil => exact ⟨cfg, rfl⟩
  | cons l ls ih =>
    obtain ⟨c1, h1⟩ := parse_ifcfg_switch_some cfg (opt_str_to_enum (ifcfg_split_line l).1)
      (ifcfg_split_line l).2 l (opt_str_to_enum_ne_num _)
    obtain ⟨c2, h2⟩ := ih c1
    exact ⟨c2, by simp only [parse_ifcfg_loop, parse_ifcfg_fields, h1, h2]⟩

theorem parse_ifcfg_loop_unchanged (cfg cfg2 : ifcfg_fields_t) (ls : List CStr)
    (k : ifcfg_opt_t) (hk : ∀ l ∈ ls, opt_str_to_enum (ifcfg_split_line l).1 ≠ k)
    (h : parse_ifcfg_loop cfg ls = some cfg2) : cfg2.get k = cfg.get k := by
  induction ls generalizing cfg with
  | nil =>
    simp only [parse_ifcfg_loop, Option.some.injEq] at h
    rw [h]
  | cons l ls ih =>
    simp only [parse_ifcfg_loop, parse_ifcfg_fields] at h
    cases h1 : parse_ifcfg_switch cfg (opt_str_to_enum (ifcfg_split_line l).1)
        (ifcfg_split_line l).2 l with
    | none => rw [h1] at h; cases h
    | some c1 =>
      rw [h1] at h
      rw [ih c1 (fun x hx => hk x (List.mem_cons_of_mem l hx)) h]
      exact parse_ifcfg_switch_get_ne cfg c1 _ k _ l h1 (hk l (List.mem_cons_self l ls))

theorem parse_ifcfg_loop_set (cfg cfg2 : ifcfg_fields_t) (pre post : List CStr) (l : CStr)
    (hopt : opt_str_to_enum (ifcfg_split_line l).1 ∈ ifcfg_opt_indices)
    (hpost : ∀ x ∈ post, opt_str_to_enum (ifcfg_split_line x).1
      ≠ opt_str_to_enum (ifcfg_split_line l).1)
    (h : parse_ifcfg_loop cfg (pre ++ l :: post) = some cfg2) :
    cfg2.get (opt_str_to_enum (ifcfg_split_line l).1) = some (ifcfg_split_line l).2 := by
  induction pre generalizing cfg with
  | nil =>
    simp only [List.nil_append, parse_ifcfg_loop, parse_ifcfg_fields] at h
    cases h1 : parse_ifcfg_switch cfg (opt_str_to_enum (ifcfg_split_line l).1)
        (ifcfg_split_line l).2 l with
    | none => rw [h1] at h; cases h
    | some c1 =>
      rw [h1] at h
      rw [parse_ifcfg_loop_unchanged c1 cfg2 post _ hpost h]
      exact parse_ifcfg_switch_get_self cfg c1 _ _ l h1 hopt
  | cons p ps ih =>
    simp only [List.cons_append, parse_ifcfg_loop] at h
    cases h1 : parse_ifcfg_fields cfg p with
    | none => rw [h1] at h; cases h
    | some c1 =>
      rw [h1] at h
      exact ih c1 h

/-! ## Lemmas on the rewriting loop -/

theorem overwrite_loop_map (r : ifcfg_fields_t) (lines : List CStr) (f : CStr → CStr)
    (g : CStr → Bool)
    (h : ∀ l ∈ lines, overwrite_line r (l ++ ['\n']) = some (f l, g l)) :
    overwrite_loop r (lines.map (fun l => l ++ ['\n']))
      = some ((lines.map f).flatten, lines.any g) := by
  induction lines with
  | nil => rfl
  | cons l ls ih =>
    simp only [List.map_cons, overwrite_loop, h l (List.mem_cons_self l ls),
      ih (fun x hx => h x (List.mem_cons_of_mem l hx)), List.flatten_cons, List.any_cons]

theorem flatten_drop_default_mtu (lines : List CStr) :
    (lines.map (fun l => if is_default_mtu_line l = true then [] else l ++ ['\n'])).flatten
      = unlines (lines.filter (fun l => !is_default_mtu_line l)) := by
  induction lines with
  | nil => rfl
  | cons l ls ih =>
    by_cases hl : is_default_mtu_line l = true
    · simp only [List.map_cons, List.flatten_cons, hl, if_true, List.nil_append, ih,
        List.filter_cons, Bool.not_true, Bool.false_eq_true, if_false]
    · have hl2 : is_default_mtu_line l = false := by simpa using hl
      simp only [List.map_cons, List.flatten_cons, hl2, Bool.false_eq_true, if_false, ih,
        List.filter_cons, Bool.not_false, if_true]
      simp [unlines]

theorem default_mtu_line_opt (l : CStr) (h : is_default_mtu_line l = true) :
    ifcfg_line_opt l = MTU := by
  have h2 : l = "MTU=1500".toList ∨ l = "MTU=".toList := by
    simpa [is_default_mtu_line] using h
  rcases h2 with h2 | h2 <;> subst h2 <;> decide

theorem overwrite_line_plain (r : ifcfg_fields_t) (l : CStr) (hnl : '\n' ∉ l)
    (hplain : ifcfg_line_plain l)
    (hget : ifcfg_line_opt l ∈ ifcfg_opt_indices → ifcfg_line_opt l ≠ COMMENT →
      r.get (ifcfg_line_opt l) = some (ifcfg_split_line (l ++ ['\n'])).2) :
    overwrite_line r (l ++ ['\n'])
      = some (if is_default_mtu_line l = true then [] else l ++ ['\n'],
          decide (ifcfg_line_opt l = ARPING_WAIT)) := by
  have hdef : ifcfg_line_opt l ≠ MTU → is_default_mtu_line l = false := by
    intro hne
    cases hd : is_default_mtu_line l with
    | false => rfl
    | true => exact absurd (default_mtu_line_opt l hd) hne
  have hline : overwrite_line r (l ++ ['\n'])
      = overwrite_switch r (ifcfg_line_opt l) (ifcfg_split_line (l ++ ['\n'])).2
          (l ++ ['\n']) := rfl
  by_cases hhead : l.head? = some '#'
  · cases l with
    | nil => simp at hhead
    | cons c body =>
      have hc : c = '#' := by simpa using hhead
      subst hc
      have hbody : plain_value body := by
        simpa [ifcfg_line_plain] using hplain
      have hbnl : '\n' ∉ body := fun h => hnl (List.mem_cons_of_mem _ h)
      have hs := ifcfg_split_comment body hbnl hbody
      have hopt : ifcfg_line_opt ('#' :: body) = COMMENT := by
        unfold ifcfg_line_opt
        rw [hs]
        show opt_str_to_enum ['#'] = COMMENT
        decide
      rw [hline, hopt, hdef (by rw [hopt]; decide), hs]
      simp [overwrite_switch]
  · by_cases hu : ifcfg_line_opt l = UNKNOWN_OPT
    · rw [hline, hu, hdef (by rw [hu]; decide)]
      simp [overwrite_switch]
    · have hp : '=' ∉ ifcfg_line_value l ∧ plain_value (ifcfg_line_value l) := by
        simpa [ifcfg_line_plain, hhead, hu] using hplain
      obtain ⟨hl, hs, hmem, hnc⟩ := ifcfg_split_directive l _ hnl hhead rfl hu hp
      have hg := hget hmem hnc
      rw [hs] at hg
      simp only at hg
      rw [hline, hs]
      simp only
      generalize ifcfg_line_opt l = k at hl hmem hnc hg hdef hu
      generalize ifcfg_line_value l = value at hl hg
      by_cases hm : k = MTU
      · subst hm
        have hmtu : r.mtu = some value := hg
        have hiff : is_default_mtu_line l = decide (value = "1500".toList ∨ value = []) := by
          rw [hl]
          simp only [is_default_mtu_line]
          congr 1
          apply propext
          constructor
          · rintro (h | h)
            · left
              have : "MTU=1500".toList = ifcfg_opt MTU ++ '=' :: "1500".toList := by decide
              rw [this] at h
              simpa using List.append_cancel_left h
            · right
              have : "MTU=".toList = ifcfg_opt MTU ++ '=' :: [] := by decide
              rw [this] at h
              simpa using List.append_cancel_left h
          · rintro (h | h) <;> subst h
            · left; decide
            · right; decide
        rw [hiff]
        simp only [overwrite_switch, hmtu]
        by_cases h1 : value = "1500".toList
        · simp [h1]
        · by_cases h2 : value = []
          · simp [h2]
          · have h3 : value.length ≠ 0 := by
              intro h; exact h2 (List.length_eq_zero.mp h)
            rw [if_pos ⟨h3, h1⟩]
            simp only [h1, h2, or_self, decide_False, Bool.false_eq_true, if_false]
            rw [hl]
            simp [print_field]
            rfl
      · rw [hdef hm]
        rw [hl]
        cases k <;>
          first
          | exact absurd rfl hm
          | exact absurd rfl hnc
          | exact absurd rfl hu
          | exact absurd hmem (by decide)
          | (simp only [overwrite_switch, ifcfg_fields_t.get] at hg ⊢
             simp [hg, print_field, ifcfg_opt])

/-! ## The claims -/

/-- C1 (defect of the code). The ifcfg file of eth1 is set up for DHCP and has no IPADDR
line, the interface is active with the static address 10.0.1.5/24. The first pass compares
(`NSYNC_BACKUP`) and rewrites the file: `ARPING_WAIT=8`, absent from the file, is added at
its end, but the address and the netmask that the comparison stored in the record are not
written, since `centos_overwrite_configs` prints a directive only for a line of the old
file. The second pass over the written files, with the same active state, therefore answers
`NSYNC_BACKUP` again and not `NSYNC_KEEP_EXISTING`. -/
theorem C1_centos_second_pass_overwrites_again :
    centos_pass true [] ⟨[]⟩ (some ex_active_eth1) ex_ifcfg_dhcp none
        = ⟨some NSYNC_BACKUP,
            "DEVICE=eth1\nBOOTPROTO=dhcp\nONBOOT=yes\nARPING_WAIT=8\n".toList, some []⟩
      ∧ (centos_pass true [] ⟨[]⟩ (some ex_active_eth1)
            "DEVICE=eth1\nBOOTPROTO=dhcp\nONBOOT=yes\nARPING_WAIT=8\n".toList
            (some [])).compare = some NSYNC_BACKUP := by
  refine ⟨by decide, by decide⟩

/-- C2 (counterexample). The file `DEVICE="eth1"` is written back as `DEVICE=eth1`: the
quotes around a value are removed when the line is read and are not put back. -/
theorem C2_counterexample_quotes_dropped :
    centos_parse_then_overwrite false [ 'D', 'E', 'V', 'I', 'C', 'E', '=', DQUOTE, 'e', 't', 'h',
        '1', DQUOTE, '\n' ] = some "DEVICE=eth1\n".toList := by
  decide

/-- C2 (amended). For an ifcfg file made of newline-terminated lines without NUL that fit the
line buffer, in which no comment and no value of a recognized directive starts or ends with
a double quote or is longer than the value buffer, no value of a recognized directive holds
an `=`, and no recognized directive is given twice: parsing the file with
`centos_parse_ifcfg` and writing the unchanged record with `centos_overwrite_configs` (no
active routes) gives the original text without its lines `MTU=1500` and `MTU=`. -/
theorem C2_centos_ifcfg_round_trip (arping_wait : Bool) (lines : List CStr)
    (h : ifcfg_lines_plain lines) :
    centos_parse_then_overwrite arping_wait (unlines lines)
      = some (unlines (lines.filter (fun l => !is_default_mtu_line l))) := by
  obtain ⟨hall, hnodup⟩ := h
  have hread := read_lines_unlines CFG_LINE_LEN lines
    (fun l hl => ⟨(hall l hl).1, (hall l hl).2.1, (hall l hl).2.2.1⟩)
  obtain ⟨r, hr⟩ := parse_ifcfg_loop_some {} (lines.map (fun l => l ++ ['\n']))
  have hget : ∀ l ∈ lines, ifcfg_line_opt l ∈ ifcfg_opt_indices → ifcfg_line_opt l ≠ COMMENT →
      r.get (ifcfg_line_opt l) = some (ifcfg_split_line (l ++ ['\n'])).2 := by
    intro l hl hmem hnc
    obtain ⟨pre, post, hsplit⟩ := List.append_of_mem hl
    have hpk : decide (ifcfg_line_opt l ≠ COMMENT ∧ ifcfg_line_opt l ≠ UNKNOWN_OPT) = true := by
      have hnu : ifcfg_line_opt l ≠ UNKNOWN_OPT := by
        intro hc
        rw [hc] at hmem
        exact absurd hmem (by decide)
      simpa using ⟨hnc, hnu⟩
    have hpost : ∀ x ∈ post.map (fun l => l ++ ['\n']),
        opt_str_to_enum (ifcfg_split_line x).1
          ≠ opt_str_to_enum (ifcfg_split_line (l ++ ['\n'])).1 := by
      intro x hx hxe
      obtain ⟨y, hy, hyx⟩ := List.mem_map.mp hx
      subst hyx
      have hye : ifcfg_line_opt y = ifcfg_line_opt l := hxe
      rw [hsplit, List.map_append, List.filter_append, List.map_cons, List.filter_cons,
        if_pos hpk] at hnodup
      have hnd := (List.nodup_cons.mp (List.Nodup.of_append_right hnodup)).1
      apply hnd
      rw [← hye]
      exact List.mem_filter.mpr ⟨List.mem_map.mpr ⟨y, hy, rfl⟩, by rw [hye]; exact hpk⟩
    have hr2 := hr
    rw [hsplit, List.map_append, List.map_cons] at hr2
    exact parse_ifcfg_loop_set {} r _ _ (l ++ ['\n']) hmem hpost hr2
  have hloop := overwrite_loop_map r lines
    (fun l => if is_default_mtu_line l = true then [] else l ++ ['\n'])
    (fun l => decide (ifcfg_line_opt l = ARPING_WAIT))
    (fun l hl => overwrite_line_plain r l (hall l hl).1 (hall l hl).2.2.2 (hget l hl))
  have harp : ¬ (arping_wait = true ∧
      ¬ (lines.any (fun l => decide (ifcfg_line_opt l = ARPING_WAIT))) = true
      ∧ r.arping_wait ≠ none) := by
    rintro ⟨-, hflag, hne⟩
    apply hne
    have hno : ∀ x ∈ lines.map (fun l => l ++ ['\n']),
        opt_str_to_enum (ifcfg_split_line x).1 ≠ ARPING_WAIT := by
      intro x hx hxe
      obtain ⟨y, hy, hyx⟩ := List.mem_map.mp hx
      subst hyx
      apply hflag
      exact List.any_eq_true.mpr ⟨y, hy, by simpa using hxe⟩
    exact parse_ifcfg_loop_unchanged {} r _ ARPING_WAIT hno hr
  have htext : overwrite_ifcfg_text arping_wait r (unlines lines)
      = some (unlines (lines.filter (fun l => !is_default_mtu_line l))) := by
    simp only [overwrite_ifcfg_text, hread, hloop]
    rw [if_neg harp, flatten_drop_default_mtu]
  have hnum : ¬ (routes_parsed_t.num_route ⟨[]⟩ > 0) := by decide
  simp only [centos_parse_then_overwrite, centos_parse_ifcfg, hread, hr,
    centos_overwrite_configs, hnum, if_false, htext]

/-- C2 (amended), at an instance: a file with a comment, directives, an unrecognized
directive, a blank line and the line `MTU=1500`. -/
theorem C2_centos_ifcfg_round_trip_witness :
    centos_parse_then_overwrite true (unlines ex_ifcfg_lines)
      = some (unlines ["# eth1, set by hand".toList, "DEVICE=eth1".toList,
          "BOOTPROTO=none".toList, "IPADDR=10.0.1.5".toList, "".toList,
          "ZONE=public".toList]) :=
  C2_centos_ifcfg_round_trip true ex_ifcfg_lines (by
    refine ⟨?_, by decide⟩
    intro l hl
    simp only [ex_ifcfg_lines, List.mem_cons, List.mem_singleton, List.not_mem_nil,
      or_false] at hl
    rcases hl with h | h | h | h | h | h | h <;> subst h <;>
      refine ⟨by decide, by decide, by decide, ?_⟩ <;>
      simp only [ifcfg_line_plain, plain_value] <;> decide)

/-- C3 (defect of the code). The persisted route list of eth1 holds the route of eth0 and so
differs from the route list that `centos_map_routes_to_if` attaches to eth1, yet
`centos_compare_configs` answers `NSYNC_KEEP_EXISTING`: its loop reads the routes from the
array of all active routes (`CENTOS_ACTIVE_ROUTES_I`) and not from the list of the interface
(`CENTOS_MAPPED_I_ROUTE_J`). With the persisted list equal to the list of eth1 it answers
`NSYNC_BACKUP`. -/
theorem C3_centos_route_compare_reads_all_routes :
    (centos_map_routes_to_if ⟨ex_routes⟩ ⟨["eth0".toList, "eth1".toList]⟩).getD 1 ⟨[]⟩
        = ⟨["10.2.0.0/16 via 10.0.1.1 dev eth1".toList]⟩
      ∧ centos_compare_state false ex_routes ⟨["10.2.0.0/16 via 10.0.1.1 dev eth1".toList]⟩
          (some (ex_rt_cfg ["10.1.0.0/16 via 10.0.0.1 dev eth0".toList]))
          (some ex_stored_eth1) (some ex_active_eth1) = some NSYNC_KEEP_EXISTING
      ∧ centos_compare_state false ex_routes ⟨["10.2.0.0/16 via 10.0.1.1 dev eth1".toList]⟩
          (some (ex_rt_cfg ["10.2.0.0/16 via 10.0.1.1 dev eth1".toList]))
          (some ex_stored_eth1) (some ex_active_eth1) = some NSYNC_BACKUP := by
  refine ⟨by decide, by decide, by decide⟩

/-- C4 (counterexample). The loopback interface has one active route and no persisted route,
so the two route lists differ in length, and `ubuntu_compare_configs` answers
`NSYNC_KEEP_EXISTING`: link types that are equal and loopback (or dhcp) end the comparison
before the routes are looked at. -/
theorem C4_counterexample_loopback_routes_ignored :
    ubuntu_compare_configs 2 2
        { ex_lo with mapped_routes := ["10.9.9.0/24 dev lo".toList] } ex_lo
      = some NSYNC_KEEP_EXISTING := by
  decide

/-- C4 (amended). With equal interface counts and link types present on both sides, when the
early exit for equal loopback or dhcp link types is not taken (the link types differ, or
the active link type is neither loopback nor dhcp), two route lists that differ in length
or in the text of any entry make `ubuntu_compare_configs` return `NSYNC_BACKUP`. -/
theorem C4_ubuntu_route_mismatch_backup (n : Nat) (a p : interface_t) (la lp : CStr)
    (hla : a.linktype = some la) (hlp : p.linktype = some lp)
    (hexit : lp ≠ la ∨ (la ≠ "loopback".toList ∧ la ≠ "dhcp".toList))
    (hroutes : a.mapped_routes ≠ p.mapped_routes) :
    ubuntu_compare_configs n n a p = some NSYNC_BACKUP := by
  have hrest : ∀ m8 : Bool,
      (if a.mapped_routes.length ≠ p.mapped_routes.length then some NSYNC_BACKUP
        else if ubuntu_compare_routes_loop a.mapped_routes p.mapped_routes
            a.mapped_routes.length m8 = true
          then some NSYNC_KEEP_EXISTING else some NSYNC_BACKUP) = some NSYNC_BACKUP := by
    intro m8
    by_cases hlen : a.mapped_routes.length = p.mapped_routes.length
    · rw [if_neg (by simpa using hlen)]
      by_cases hloop : ubuntu_compare_routes_loop a.mapped_routes p.mapped_routes
          a.mapped_routes.length m8 = true
      · exact absurd (ubuntu_routes_eq_of_loop _ _ m8 hlen hloop) hroutes
      · rw [if_neg hloop]
    · rw [if_pos hlen]
  simp only [ubuntu_compare_configs, hla, hlp, ne_eq, not_true_eq_false, if_false]
  by_cases hne : lp = la
  · rcases hexit with h | ⟨h1, h2⟩
    · exact absurd hne h
    · simp only [hne, not_true_eq_false, if_false, h1, h2, or_self]
      exact hrest _
  · simp only [hne, not_false_eq_true, if_true]
    exact hrest _

/-- C4 (amended), at an instance: a static interface with one active and no persisted route. -/
theorem C4_ubuntu_route_mismatch_backup_witness :
    ubuntu_compare_configs 1 1
        { ex_eth0_static with mapped_routes := ["10.9.0.0/16 via 10.0.0.1 dev eth0".toList] }
        ex_eth0_static = some NSYNC_BACKUP :=
  C4_ubuntu_route_mismatch_backup 1 _ _ "static".toList "static".toList rfl rfl
    (Or.inr ⟨by decide, by decide⟩) (by decide)

theorem centos_compare_fields_mtu_default (arping_wait : Bool) (a : ip_show_fields_t)
    (s : ifcfg_fields_t) (m : Bool) (x y : Option CStr)
    (hx : x = none ∨ x = some ['1', '5', '0', '0']) :
    (centos_compare_fields arping_wait { a with mtu := x } { s with mtu := y } m).2
      = (centos_compare_fields arping_wait { a with mtu := none } { s with mtu := none } m).2 := by
  simp only [centos_compare_fields, centos_compare_mtu_default x y _ hx,
    centos_compare_mtu_default none none _ (Or.inl rfl)]

theorem centos_compare_state_mtu_default (arping_wait : Bool) (routes : List CStr)
    (mapped : routes_parsed_t) (persist_rts : Option rt_cfg_t) (s : ifcfg_fields_t)
    (a : ip_show_fields_t) (x y : Option CStr)
    (hx : x = none ∨ x = some ['1', '5', '0', '0']) :
    centos_compare_state arping_wait routes mapped persist_rts (some { s with mtu := y })
        (some { a with mtu := x })
      = centos_compare_state arping_wait routes mapped persist_rts (some { s with mtu := none })
        (some { a with mtu := none }) := by
  have hf := fun m => centos_compare_fields_mtu_default arping_wait a s m x y hx
  cases persist_rts with
  | none =>
    by_cases h0 : mapped.num_route > 0
    · simp [centos_compare_state, centos_compare_configs, h0]
    · simp only [centos_compare_state, centos_compare_configs, h0, if_false, Option.map_some',
        hf true]
  | some rc =>
    simp only [centos_compare_state, centos_compare_configs, Option.map_some', hf _]

/-- C5 (defect of the code). On a host with the routes of eth0 and eth1, the persisted route
file of eth1 holds the one route that `centos_map_routes_to_if` attaches to eth1, every
compared field of the persisted record agrees with the active one, the active MTU is `1500`
and the persisted MTU is absent, and `centos_compare_configs` answers `NSYNC_BACKUP`: its
route loop compares the persisted route with entry 0 of the array of all routes, the route
of eth0. On a host where the route of eth1 is the only route, the same records give
`NSYNC_KEEP_EXISTING`. The MTU test itself raises no mismatch: for every input, the state
returned with MTUs that are absent or `1500` on both sides is the state returned with both
MTUs absent. -/
theorem C5_centos_mtu_default_behind_route_loop :
    (centos_map_routes_to_if ⟨ex_routes⟩ ⟨["eth0".toList, "eth1".toList]⟩).getD 1 ⟨[]⟩
        = ⟨[ex_route_eth1]⟩
      ∧ (ex_active_eth1.mtu, ex_stored_eth1.mtu) = (some "1500".toList, none)
      ∧ centos_compare_state false ex_routes ⟨[ex_route_eth1]⟩
          (some (ex_rt_cfg [ex_route_eth1])) (some ex_stored_eth1) (some ex_active_eth1)
        = some NSYNC_BACKUP
      ∧ centos_compare_state false [ex_route_eth1] ⟨[ex_route_eth1]⟩
          (some (ex_rt_cfg [ex_route_eth1])) (some ex_stored_eth1) (some ex_active_eth1)
        = some NSYNC_KEEP_EXISTING
      ∧ (∀ (arping_wait : Bool) (routes : List CStr) (mapped : routes_parsed_t)
          (persist_rts : Option rt_cfg_t) (s : ifcfg_fields_t) (a : ip_show_fields_t),
          centos_compare_state arping_wait routes mapped persist_rts
              (some { s with mtu := none }) (some { a with mtu := some "1500".toList })
            = centos_compare_state arping_wait routes mapped persist_rts
              (some { s with mtu := none }) (some { a with mtu := none })
          ∧ centos_compare_state arping_wait routes mapped persist_rts
              (some { s with mtu := some "1500".toList }) (some { a with mtu := none })
            = centos_compare_state arping_wait routes mapped persist_rts
              (some { s with mtu := none }) (some { a with mtu := none })
          ∧ centos_compare_state arping_wait routes mapped persist_rts
              (some { s with mtu := some "1500".toList })
              (some { a with mtu := some "1500".toList })
            = centos_compare_state arping_wait routes mapped persist_rts
              (some { s with mtu := none }) (some { a with mtu := none })) := by
  refine ⟨by decide, rfl, by decide, by decide, ?_⟩
  intro arping_wait routes mapped persist_rts s a
  exact ⟨centos_compare_state_mtu_default arping_wait routes mapped persist_rts s a _ _
      (Or.inr rfl),
    centos_compare_state_mtu_default arping_wait routes mapped persist_rts s a _ _ (Or.inl rfl),
    centos_compare_state_mtu_default arping_wait routes mapped persist_rts s a _ _
      (Or.inr rfl)⟩

/-- C6 (counterexample). Only the persisted MTU is present (`9000`, the active record has
none), every other field matches, and `centos_compare_configs` answers
`NSYNC_KEEP_EXISTING`: a field absent from the active record is not compared. -/
theorem C6_counterexample_active_mtu_absent :
    centos_compare_state false [] ⟨[]⟩ none
        (some { ex_stored_eth1 with mtu := some "9000".toList })
        (some { ex_active_eth1 with mtu := none }) = some NSYNC_KEEP_EXISTING := by
  decide

/-- C6 (amended). In `centos_compare_configs` with a persisted ifcfg record, an active MTU
that is present, is not `1500` and is not textually equal to the persisted MTU (an absent
persisted MTU being compared as the empty string) gives `NSYNC_BACKUP`. -/
theorem C6_centos_mtu_mismatch_backup (arping_wait : Bool) (routes : List CStr)
    (mapped : routes_parsed_t) (persist_rts : Option rt_cfg_t) (s : ifcfg_fields_t)
    (a : ip_show_fields_t) (mtu : CStr)
    (hmtu : a.mtu = some mtu) (h1500 : mtu ≠ "1500".toList) (hne : mtu ≠ s.mtu.getD []) :
    centos_compare_state arping_wait routes mapped persist_rts (some s) (some a)
      = some NSYNC_BACKUP := by
  have hfields : ∀ m, (centos_compare_fields arping_wait a s m).2 = false := by
    intro m
    have h2 : ∀ m2, (centos_compare_mtu a.mtu s.mtu m2).2 = false := by
      intro m2
      have h15 : ¬ mtu = ['1', '5', '0', '0'] := h1500
      simp [centos_compare_mtu, hmtu, hne, h15]
    simp only [centos_compare_fields, h2]
    repeat' split
    all_goals simp [centos_compare_field_false]
  cases persist_rts with
  | none =>
    by_cases h0 : mapped.num_route > 0
    · simp [centos_compare_state, centos_compare_configs, h0]
    · simp [centos_compare_state, centos_compare_configs, h0, hfields]
  | some rc =>
    simp [centos_compare_state, centos_compare_configs, hfields]

/-- C6 (amended), at an instance: active MTU `9000`, persisted record without MTU. -/
theorem C6_centos_mtu_mismatch_backup_witness :
    centos_compare_state false [] ⟨[]⟩ none (some ex_stored_eth1)
        (some { ex_active_eth1 with mtu := some "9000".toList }) = some NSYNC_BACKUP :=
  C6_centos_mtu_mismatch_backup false [] ⟨[]⟩ none ex_stored_eth1 _ "9000".toList rfl
    (by decide) (by decide)

/-- C7 (counterexample). A statically addressed interface whose fields and routes all agree,
with active MTU `1500` and no persisted mtu: `ubuntu_compare_configs` answers
`NSYNC_BACKUP`. -/
theorem C7_counterexample_ubuntu_mtu_1500_absent :
    ubuntu_compare_configs 1 1 { ex_eth0_static with mtu := some "1500".toList } ex_eth0_static
      = some NSYNC_BACKUP := by
  decide

/-- C7 (amended). `ubuntu_compare_configs` has no default for the MTU: for an interface whose
link type is static on both sides, an active MTU of `1500` against an absent persisted mtu,
or an absent active MTU against a persisted mtu of `1500`, is a mismatch and the result is
`NSYNC_BACKUP`. -/
theorem C7_ubuntu_mtu_has_no_default (n : Nat) (a p : interface_t)
    (hla : a.linktype = some "static".toList) (hlp : p.linktype = some "static".toList)
    (hmtu : (a.mtu = some "1500".toList ∧ p.mtu = none)
      ∨ (a.mtu = none ∧ p.mtu = some "1500".toList)) :
    ubuntu_compare_configs n n a p = some NSYNC_BACKUP := by
  have hd : ubuntu_field_differs a.mtu p.mtu = true := by
    rcases hmtu with ⟨h1, h2⟩ | ⟨h1, h2⟩ <;> rw [h1, h2] <;> rfl
  have h1 : ¬ ("static".toList = "loopback".toList ∨ "static".toList = "dhcp".toList) := by
    decide
  simp only [ubuntu_compare_configs, hla, hlp, ne_eq, not_true_eq_false, if_false, h1, hd,
    Bool.not_true, Bool.and_false, Bool.false_and, ubuntu_compare_routes_loop_false]
  split <;> simp

/-- C7 (amended), at an instance: active MTU `1500`, no persisted mtu. -/
theorem C7_ubuntu_mtu_has_no_default_witness :
    ubuntu_compare_configs 1 1 { ex_eth0_static with mtu := some "1500".toList } ex_eth0_static
      = some NSYNC_BACKUP :=
  C7_ubuntu_mtu_has_no_default 1 _ _ rfl rfl (Or.inl ⟨rfl, rfl⟩)

/-- C8. For an active record with `dynamic = true`, the state returned by
`centos_compare_configs` is the same whatever the active inet and inet_mask and the
persisted IPADDR and NETMASK are (with a persisted ifcfg record, and without one), and the
comparison leaves the persisted IPADDR and NETMASK as they were. -/
theorem C8_centos_dynamic_suppresses_address (arping_wait : Bool) (routes : List CStr)
    (mapped : routes_parsed_t) (persist_rts : Option rt_cfg_t) (s : ifcfg_fields_t)
    (a : ip_show_fields_t) (inet2 mask2 ip2 nm2 : Option CStr) (hd : a.dynamic = true) :
    centos_compare_state arping_wait routes mapped persist_rts
        (some { s with ipaddr := ip2, netmask := nm2 })
        (some { a with inet := inet2, inet_mask := mask2 })
      = centos_compare_state arping_wait routes mapped persist_rts (some s) (some a)
    ∧ centos_compare_state arping_wait routes mapped persist_rts none
        (some { a with inet := inet2, inet_mask := mask2 })
      = centos_compare_state arping_wait routes mapped persist_rts none (some a)
    ∧ (centos_compare_stored arping_wait routes mapped persist_rts (some s) (some a)).map
          ifcfg_fields_t.ipaddr = some s.ipaddr
    ∧ (centos_compare_stored arping_wait routes mapped persist_rts (some s) (some a)).map
          ifcfg_fields_t.netmask = some s.netmask := by
  have hf := fun m => centos_compare_fields_dynamic arping_wait a s m inet2 mask2 ip2 nm2 hd
  cases persist_rts with
  | none =>
    by_cases h0 : mapped.num_route > 0
    · simp [centos_compare_state, centos_compare_stored, centos_compare_configs, h0]
    · simp only [centos_compare_state, centos_compare_stored, centos_compare_configs, h0,
        if_false, Option.map_some', Option.some_bind, (hf true).1, (hf true).2.1,
        (hf true).2.2, and_self]
  | some rc =>
    simp only [centos_compare_state, centos_compare_stored, centos_compare_configs,
      Option.map_some', Option.some_bind, (hf _).1, (hf _).2.1, (hf _).2.2, and_self]

/-- C8, at an instance: a dynamic `eth1` whose addresses are replaced on both sides. -/
theorem C8_centos_dynamic_suppresses_address_witness :
    centos_compare_state true ex_routes ⟨[]⟩ none
        (some { ex_stored_eth1 with ipaddr := some "192.168.7.7".toList, netmask := none })
        (some { { ex_active_eth1 with dynamic := true } with
                  inet := some "10.0.9.9".toList, inet_mask := none })
      = centos_compare_state true ex_routes ⟨[]⟩ none (some ex_stored_eth1)
          (some { ex_active_eth1 with dynamic := true })
    ∧ (centos_compare_stored true ex_routes ⟨[]⟩ none (some ex_stored_eth1)
          (some { ex_active_eth1 with dynamic := true })).map ifcfg_fields_t.ipaddr
        = some ex_stored_eth1.ipaddr
    ∧ (centos_compare_stored true ex_routes ⟨[]⟩ none (some ex_stored_eth1)
          (some { ex_active_eth1 with dynamic := true })).map ifcfg_fields_t.netmask
        = some ex_stored_eth1.netmask :=
  have h := C8_centos_dynamic_suppresses_address true ex_routes ⟨[]⟩ none ex_stored_eth1
    { ex_active_eth1 with dynamic := true } (some "10.0.9.9".toList) none
    (some "192.168.7.7".toList) none rfl
  ⟨h.1, h.2.2.1, h.2.2.2⟩

/-- C9 (counterexample). For the active record of eth1 with `dynamic = true`, the text written
by `centos_create_and_write_to_file` holds the lines `IPADDR=10.0.1.5` and
`NETMASK=255.255.255.0`. -/
theorem C9_counterexample_dynamic_address_written :
    "IPADDR=10.0.1.5".toList ∈ text_lines
        (centos_create_ifcfg_text true "eth1".toList { ex_active_eth1 with dynamic := true })
      ∧ "NETMASK=255.255.255.0".toList ∈ text_lines
        (centos_create_ifcfg_text true "eth1".toList { ex_active_eth1 with dynamic := true })
      ∧ (centos_create_and_write_to_file true "eth1".toList ⟨[]⟩
          (some { ex_active_eth1 with dynamic := true })).ifcfg
        = some (centos_create_ifcfg_text true "eth1".toList
            { ex_active_eth1 with dynamic := true }) := by
  refine ⟨by decide, by decide, rfl⟩

/-- C9 (amended). For an active record with `dynamic = true` whose values hold no newline,
the text written by `centos_create_and_write_to_file` has the boot protocol line
`BOOTPROTO=dhcp` and no other; it has the line `IPADDR=<inet>` when the record has an IPv4
address and no line starting with `IPADDR=` when it has none, and the line
`NETMASK=<inet_mask>` when the record has a netmask and no line starting with `NETMASK=`
when it has none. -/
theorem C9_centos_create_dynamic_lines (arping_wait : Bool) (if_name : CStr)
    (a : ip_show_fields_t) (hd : a.dynamic = true) (hname : '\n' ∉ if_name)
    (hlink : ∀ v, a.link = some v → '\n' ∉ v) (hinet : ∀ v, a.inet = some v → '\n' ∉ v)
    (hmask : ∀ v, a.inet_mask = some v → '\n' ∉ v) (hmtu : ∀ v, a.mtu = some v → '\n' ∉ v) :
    lines_with "BOOTPROTO=".toList (centos_create_ifcfg_text arping_wait if_name a)
        = ["BOOTPROTO=dhcp".toList]
      ∧ lines_with "IPADDR=".toList (centos_create_ifcfg_text arping_wait if_name a)
        = a.inet.toList.map (fun inet => "IPADDR=".toList ++ inet)
      ∧ lines_with "NETMASK=".toList (centos_create_ifcfg_text arping_wait if_name a)
        = a.inet_mask.toList.map (fun mask => "NETMASK=".toList ++ mask) := by
  rw [centos_create_lines_with _ _ _ _ hname hlink hinet hmask hmtu,
    centos_create_lines_with _ _ _ _ hname hlink hinet hmask hmtu,
    centos_create_lines_with _ _ _ _ hname hlink hinet hmask hmtu]
  have htail : ∀ key : CStr, key = "BOOTPROTO=".toList ∨ key = "IPADDR=".toList
      ∨ key = "NETMASK=".toList → lines_with key (centos_create_tail arping_wait a) = [] := by
    intro key hkey
    cases hi6 : a.inet6 <;> cases arping_wait <;>
      rcases hkey with h | h | h <;> subst h <;> simp only [centos_create_tail, hi6] <;> decide
  rw [htail _ (Or.inl rfl), htail _ (Or.inr (Or.inl rfl)), htail _ (Or.inr (Or.inr rfl))]
  simp only [centos_create_lines, List.filter_append, hd]
  have e1 : ∀ key : CStr, key = "BOOTPROTO=".toList ∨ key = "IPADDR=".toList
      ∨ key = "NETMASK=".toList →
      (centos_create_link_lines a.link).filter (fun l => key.isPrefixOf l) = [] := by
    intro key hkey
    cases a.link with
    | none => rfl
    | some v =>
      have h1 := starts_with_differs key "TYPE=Ethernet ".toList []
      have h2 := starts_with_differs key ['#'] v
      rcases hkey with h | h | h <;> subst h <;>
        simp [centos_create_link_lines, List.filter_cons,
          h1 (by decide), h2 (by decide)]
  have e2 : ∀ key : CStr, key = "BOOTPROTO=".toList ∨ key = "IPADDR=".toList
      ∨ key = "NETMASK=".toList →
      ["DEVICE=".toList ++ if_name, "NAME=".toList ++ if_name].filter
        (fun l => key.isPrefixOf l) = [] := by
    intro key hkey
    have h1 := starts_with_differs key "DEVICE=".toList if_name
    have h2 := starts_with_differs key "NAME=".toList if_name
    rcases hkey with h | h | h <;> subst h <;>
      simp [List.filter_cons, h1 (by decide), h2 (by decide)]
  have e4 : ∀ key : CStr, key = "BOOTPROTO=".toList ∨ key = "IPADDR=".toList →
      (a.inet_mask.toList.map (fun mask => "NETMASK=".toList ++ mask)).filter
        (fun l => key.isPrefixOf l) = [] := by
    intro key hkey
    have h1 := starts_with_differs key "NETMASK=".toList
    cases a.inet_mask <;> rcases hkey with h | h <;> subst h <;>
      simp [List.filter_cons, h1 _ (by decide)]
  have e4b : (a.inet_mask.toList.map (fun mask => "NETMASK=".toList ++ mask)).filter
        (fun l => "NETMASK=".toList.isPrefixOf l)
      = a.inet_mask.toList.map (fun mask => "NETMASK=".toList ++ mask) := by
    cases a.inet_mask with
    | none => rfl
    | some v => simp [List.filter_cons, starts_with_self "NETMASK=".toList v]
  have e5 : ∀ key : CStr, key = "BOOTPROTO=".toList ∨ key = "IPADDR=".toList
      ∨ key = "NETMASK=".toList →
      (a.mtu.toList.map (fun mtu => "MTU=".toList ++ mtu)).filter
        (fun l => key.isPrefixOf l) = [] := by
    intro key hkey
    have h1 := starts_with_differs key "MTU=".toList
    cases a.mtu <;> rcases hkey with h | h | h <;> subst h <;>
      simp [List.filter_cons, h1 _ (by decide)]
  have e6 : ∀ key : CStr, key = "BOOTPROTO=".toList ∨ key = "IPADDR=".toList
      ∨ key = "NETMASK=".toList →
      (centos_create_inet6_lines a.inet6).filter (fun l => key.isPrefixOf l) = [] := by
    intro key hkey
    cases a.inet6 <;> rcases hkey with h | h | h <;> subst h <;>
      simp only [centos_create_inet6_lines] <;> decide
  have e3 : centos_create_inet_lines a.inet true
        = ["ONBOOT=".toList ++ (if a.inet = none then "no".toList else "yes".toList),
            "BOOTPROTO=".toList ++ "dhcp".toList]
          ++ a.inet.toList.map (fun inet => "IPADDR=".toList ++ inet) := by
    cases a.inet with
    | none => rfl
    | some v => rfl
  have e3x : ∀ (key : CStr) (v : CStr), key = "BOOTPROTO=".toList ∨ key = "NETMASK=".toList →
      key.isPrefixOf ("IPADDR=".toList ++ v) = false := by
    intro key v hkey
    rcases hkey with h | h <;> subst h <;>
      exact starts_with_differs _ _ _ (by decide)
  have e3a : (centos_create_inet_lines a.inet true).filter
      (fun l => "BOOTPROTO=".toList.isPrefixOf l) = ["BOOTPROTO=dhcp".toList] := by
    rw [e3, List.filter_append]
    cases a.inet with
    | none => decide
    | some v =>
      have hx := e3x _ v (Or.inl rfl)
      have h0 : ["ONBOOT=".toList ++ "yes".toList, "BOOTPROTO=".toList ++ "dhcp".toList].filter
            (fun l => "BOOTPROTO=".toList.isPrefixOf l) = ["BOOTPROTO=dhcp".toList] := by
        decide
      simp only [reduceCtorEq, if_false]
      rw [h0]
      simp [List.filter_cons, hx]
  have e3b : (centos_create_inet_lines a.inet true).filter
      (fun l => "IPADDR=".toList.isPrefixOf l)
      = a.inet.toList.map (fun inet => "IPADDR=".toList ++ inet) := by
    rw [e3, List.filter_append]
    cases a.inet with
    | none => decide
    | some v =>
      have hx := starts_with_self "IPADDR=".toList v
      have h0 : ["ONBOOT=".toList ++ "yes".toList, "BOOTPROTO=".toList ++ "dhcp".toList].filter
            (fun l => "IPADDR=".toList.isPrefixOf l) = [] := by
        decide
      simp only [reduceCtorEq, if_false]
      rw [h0]
      simp [List.filter_cons, hx]
  have e3c : (centos_create_inet_lines a.inet true).filter
      (fun l => "NETMASK=".toList.isPrefixOf l) = [] := by
    rw [e3, List.filter_append]
    cases a.inet with
    | none => decide
    | some v =>
      have hx := e3x _ v (Or.inr rfl)
      have h0 : ["ONBOOT=".toList ++ "yes".toList, "BOOTPROTO=".toList ++ "dhcp".toList].filter
            (fun l => "NETMASK=".toList.isPrefixOf l) = [] := by
        decide
      simp only [reduceCtorEq, if_false]
      rw [h0]
      simp [List.filter_cons, hx]
  rw [e1 _ (Or.inl rfl), e1 _ (Or.inr (Or.inl rfl)), e1 _ (Or.inr (Or.inr rfl)),
    e2 _ (Or.inl rfl), e2 _ (Or.inr (Or.inl rfl)), e2 _ (Or.inr (Or.inr rfl)),
    e4 _ (Or.inl rfl), e4 _ (Or.inr rfl), e4b,
    e5 _ (Or.inl rfl), e5 _ (Or.inr (Or.inl rfl)), e5 _ (Or.inr (Or.inr rfl)),
    e6 _ (Or.inl rfl), e6 _ (Or.inr (Or.inl rfl)), e6 _ (Or.inr (Or.inr rfl)),
    e3a, e3b, e3c]
  simp

/-- C9 (amended), at an instance: the dynamic eth1 has its address and netmask written. -/
theorem C9_centos_create_dynamic_lines_witness :
    lines_with "BOOTPROTO=".toList
        (centos_create_ifcfg_text true "eth1".toList { ex_active_eth1 with dynamic := true })
        = ["BOOTPROTO=dhcp".toList]
      ∧ lines_with "IPADDR=".toList
        (centos_create_ifcfg_text true "eth1".toList { ex_active_eth1 with dynamic := true })
        = ["IPADDR=10.0.1.5".toList]
      ∧ lines_with "NETMASK=".toList
        (centos_create_ifcfg_text true "eth1".toList { ex_active_eth1 with dynamic := true })
        = ["NETMASK=255.255.255.0".toList] :=
  C9_centos_create_dynamic_lines true "eth1".toList { ex_active_eth1 with dynamic := true } rfl
    (by decide) (by simp [ex_active_eth1]) (by simp [ex_active_eth1])
    (by simp [ex_active_eth1]) (by simp [ex_active_eth1])

/-- C10 (defect of the code). For the active record of eth1, whose MTU is `1500`, the text
written by `centos_create_and_write_to_file` holds the line `MTU=1500`, the line that
`centos_overwrite_configs` leaves out of a rewritten file. -/
theorem C10_centos_create_writes_default_mtu :
    (centos_create_and_write_to_file true "eth1".toList ⟨[]⟩ (some ex_active_eth1)).ifcfg
        = some (centos_create_ifcfg_text true "eth1".toList ex_active_eth1)
      ∧ "MTU=1500".toList ∈ text_lines
          (centos_create_ifcfg_text true "eth1".toList ex_active_eth1)
      ∧ has_line_with "MTU=".toList
          (centos_create_ifcfg_text true "eth1".toList ex_active_eth1)
      ∧ overwrite_ifcfg_text false { mtu := some "1500".toList } "MTU=1500\n".toList
          = some [] := by
  refine ⟨rfl, by decide, by decide, by decide⟩

/-! ## The flag of the field comparisons -/

theorem centos_compare_field_true (n : Nat) (a s : Option CStr) (m : Bool)
    (h : (centos_compare_field n a s m).2 = true) : m = true ∧ field_matches a s := by
  cases a with
  | none => exact ⟨h, Or.inl rfl⟩
  | some v =>
    by_cases hv : v = s.getD []
    · subst hv
      simp [centos_compare_field] at h
      exact ⟨h, Or.inr rfl⟩
    · simp [centos_compare_field, hv] at h

theorem centos_compare_mtu_true (a s : Option CStr) (m : Bool)
    (h : (centos_compare_mtu a s m).2 = true) : m = true := by
  cases a with
  | none => exact h
  | some v =>
    by_cases hv : v ≠ s.getD [] ∧ v ≠ ['1', '5', '0', '0']
    · simp [centos_compare_mtu, hv] at h
    · simp only [centos_compare_mtu, hv, if_false] at h
      exact h

theorem centos_compare_fields_true (arping_wait : Bool) (a : ip_show_fields_t)
    (s : ifcfg_fields_t) (m : Bool) (h : (centos_compare_fields arping_wait a s m).2 = true) :
    m = true ∧ field_matches a.name s.device
      ∧ (a.dynamic = false → field_matches a.inet s.ipaddr ∧ field_matches a.inet_mask s.netmask)
      ∧ ¬ (arping_wait = true ∧ s.arping_wait = none) := by
  simp only [centos_compare_fields] at h
  by_cases haw : arping_wait = true ∧ s.arping_wait = none
  · rw [if_pos haw] at h
    exact absurd h (by simp)
  · rw [if_neg haw] at h
    by_cases hd : a.dynamic = true
    · simp only [hd, if_true] at h
      have h1 := centos_compare_mtu_true _ _ _ h
      have h2 := centos_compare_field_true _ _ _ _ h1
      exact ⟨h2.1, h2.2, fun hf => absurd hd (by simp [hf]), haw⟩
    · have hd2 : a.dynamic = false := by simpa using hd
      simp only [hd2, Bool.false_eq_true, if_false] at h
      have h4 := centos_compare_field_true _ _ _ _ h
      have h3 := centos_compare_field_true _ _ _ _ h4.1
      have h1 := centos_compare_mtu_true _ _ _ h3.1
      have h2 := centos_compare_field_true _ _ _ _ h1
      exact ⟨h2.1, h2.2, fun _ => ⟨h3.2, h4.2⟩, haw⟩

theorem centos_compare_fields_frame (arping_wait : Bool) (a : ip_show_fields_t)
    (s : ifcfg_fields_t) (m : Bool) :
    ∃ device mtu ipaddr netmask arping : Option CStr,
      (centos_compare_fields arping_wait a s m).1
        = { s with device := device, mtu := mtu, ipaddr := ipaddr, netmask := netmask,
                   arping_wait := arping } :=
  ⟨_, _, _, _, _, rfl⟩

theorem centos_compare_state_of_flag (arping_wait : Bool) (routes : List CStr)
    (mapped : routes_parsed_t) (persist_rts : Option rt_cfg_t) (s : ifcfg_fields_t)
    (a : ip_show_fields_t) (hfields : ∀ m, (centos_compare_fields arping_wait a s m).2 = false) :
    centos_compare_state arping_wait routes mapped persist_rts (some s) (some a)
      = some NSYNC_BACKUP := by
  cases persist_rts with
  | none =>
    by_cases h0 : mapped.num_route > 0
    · simp [centos_compare_state, centos_compare_configs, h0]
    · simp [centos_compare_state, centos_compare_configs, h0, hfields]
  | some rc =>
    simp [centos_compare_state, centos_compare_configs, hfields]

/-- C11 (counterexample). The interface eth1 has lost its IPv4 address: the active record has
neither inet nor inet_mask, the persisted record still has IPADDR and NETMASK. Exactly one
side of each of these pairs is present, and `centos_compare_configs` answers
`NSYNC_KEEP_EXISTING`. -/
theorem C11_counterexample_persisted_only_address :
    centos_compare_state false [] ⟨[]⟩ none (some ex_stored_eth1)
        (some { ex_active_eth1 with inet := none, inet_mask := none })
      = some NSYNC_KEEP_EXISTING := by
  decide

/-- C11 (amended). In `centos_compare_configs` with a statically addressed active record and
a persisted ifcfg record, if for one of the pairs (active name, persisted DEVICE), (active
inet, persisted IPADDR), (active inet_mask, persisted NETMASK) the persisted side is absent
and the active side is present and not the empty string, the result is `NSYNC_BACKUP`. -/
theorem C11_centos_active_only_backup (arping_wait : Bool) (routes : List CStr)
    (mapped : routes_parsed_t) (persist_rts : Option rt_cfg_t) (s : ifcfg_fields_t)
    (a : ip_show_fields_t) (hstatic : a.dynamic = false)
    (h : (s.device = none ∧ a.name ≠ none ∧ a.name ≠ some [])
      ∨ (s.ipaddr = none ∧ a.inet ≠ none ∧ a.inet ≠ some [])
      ∨ (s.netmask = none ∧ a.inet_mask ≠ none ∧ a.inet_mask ≠ some [])) :
    centos_compare_state arping_wait routes mapped persist_rts (some s) (some a)
      = some NSYNC_BACKUP := by
  have hone : ∀ x : Option CStr, x ≠ none → x ≠ some [] → ¬ field_matches x none := by
    intro x h1 h2 hm
    rcases hm with hm | hm
    · exact h1 hm
    · exact h2 hm
  apply centos_compare_state_of_flag
  intro m
  cases hflag : (centos_compare_fields arping_wait a s m).2 with
  | false => rfl
  | true =>
    have hall := centos_compare_fields_true arping_wait a s m hflag
    rcases h with ⟨hs, h1, h2⟩ | ⟨hs, h1, h2⟩ | ⟨hs, h1, h2⟩
    · exact absurd (hs ▸ hall.2.1) (hone _ h1 h2)
    · exact absurd (hs ▸ (hall.2.2.1 hstatic).1) (hone _ h1 h2)
    · exact absurd (hs ▸ (hall.2.2.1 hstatic).2) (hone _ h1 h2)

/-- C11 (amended), at an instance: the active record of eth1 against a persisted record
without IPADDR. -/
theorem C11_centos_active_only_backup_witness :
    centos_compare_state false [] ⟨[]⟩ none (some { ex_stored_eth1 with ipaddr := none })
        (some ex_active_eth1) = some NSYNC_BACKUP :=
  C11_centos_active_only_backup false [] ⟨[]⟩ none { ex_stored_eth1 with ipaddr := none }
    ex_active_eth1 rfl (Or.inr (Or.inl ⟨rfl, by decide, by decide⟩))

/-! ## The merge outside the early return -/

theorem centos_compare_field_merged (n : Nat) (s : Option CStr) (m : Bool) (v : CStr)
    (hlen : v.length < n) : (centos_compare_field n (some v) s m).1 = some v := by
  by_cases hv : v = s.getD []
  · simp [centos_compare_field, ← hv]
  · simp [centos_compare_field, hv, memcpy_str, hlen]

theorem centos_compare_stored_reached (arping_wait : Bool) (routes : List CStr)
    (mapped : routes_parsed_t) (persist_rts : Option rt_cfg_t) (s : ifcfg_fields_t)
    (a : ip_show_fields_t) (hpath : persist_rts ≠ none ∨ mapped.num_route = 0) :
    ∃ m, centos_compare_configs arping_wait routes mapped persist_rts (some s) (some a)
      = some ⟨if (centos_compare_fields arping_wait a s m).2 then NSYNC_KEEP_EXISTING
              else NSYNC_BACKUP,
          persist_rts.map (fun rc =>
            { rc with routes := (centos_compare_routes_loop routes mapped.num_route
                (rc.routes, decide (rc.num_routes = mapped.num_route))).1 }),
          some (centos_compare_fields arping_wait a s m).1⟩ := by
  cases persist_rts with
  | none =>
    have h0 : ¬ mapped.num_route > 0 := by
      rcases hpath with h | h
      · exact absurd rfl h
      · omega
    exact ⟨true, by simp [centos_compare_configs, h0]⟩
  | some rc =>
    exact ⟨(centos_compare_routes_loop routes mapped.num_route
      (rc.routes, decide (rc.num_routes = mapped.num_route))).2, by
      simp [centos_compare_configs]⟩

theorem centos_compare_merges_fields (arping_wait : Bool) (routes : List CStr)
    (mapped : routes_parsed_t) (persist_rts : Option rt_cfg_t) (s : ifcfg_fields_t)
    (a : ip_show_fields_t) (name inet mask : CStr)
    (hpath : persist_rts ≠ none ∨ mapped.num_route = 0) (hstatic : a.dynamic = false)
    (hname : a.name = some name) (hinet : a.inet = some inet) (hmask : a.inet_mask = some mask)
    (hl1 : name.length < MAX_OPT_LEN) (hl2 : inet.length < 20) (hl3 : mask.length < 20) :
    (centos_compare_stored arping_wait routes mapped persist_rts (some s) (some a)).map
        (fun r => (r.device, r.ipaddr, r.netmask))
      = some (some name, some inet, some mask) := by
  obtain ⟨m, hm⟩ := centos_compare_stored_reached arping_wait routes mapped persist_rts s a hpath
  simp only [centos_compare_stored, hm, Option.some_bind, Option.map_some', centos_compare_fields,
    hstatic, hname, hinet, hmask, Bool.false_eq_true, if_false,
    centos_compare_field_merged _ _ _ _ hl1, centos_compare_field_merged _ _ _ _ hl2,
    centos_compare_field_merged _ _ _ _ hl3]

theorem centos_compare_sets_arping_wait (routes : List CStr) (mapped : routes_parsed_t)
    (persist_rts : Option rt_cfg_t) (s : ifcfg_fields_t) (a : ip_show_fields_t)
    (hpath : persist_rts ≠ none ∨ mapped.num_route = 0) (hs : s.arping_wait = none) :
    centos_compare_state true routes mapped persist_rts (some s) (some a) = some NSYNC_BACKUP
    ∧ (centos_compare_stored true routes mapped persist_rts (some s) (some a)).map
        ifcfg_fields_t.arping_wait = some (some ['8']) := by
  obtain ⟨m, hm⟩ := centos_compare_stored_reached true routes mapped persist_rts s a hpath
  have h2 : (centos_compare_fields true a s m).2 = false := by
    simp [centos_compare_fields, hs]
  have h1 : (centos_compare_fields true a s m).1.arping_wait = some ['8'] := by
    simp [centos_compare_fields, hs]
  simp [centos_compare_state, centos_compare_stored, hm, h1, h2]

/-- C12 (defect of the code). The interface eth1 has one active route and no persisted route
file; its ifcfg file holds `IPADDR=10.0.1.9` while the active address is 10.0.1.5.
`centos_compare_configs` returns `NSYNC_BACKUP` from its test of the route file, before any
field is compared: the persisted record still holds 10.0.1.9, and the pass of the driver
writes the ifcfg file back with the old address. With an (empty) persisted route file the
same comparison stores 10.0.1.5 in the record. -/
theorem C12_centos_early_return_skips_merge :
    centos_compare_state false [ex_route_eth1] ⟨[ex_route_eth1]⟩ none
        (some { ex_stored_eth1 with ipaddr := some "10.0.1.9".toList }) (some ex_active_eth1)
      = some NSYNC_BACKUP
    ∧ (centos_compare_stored false [ex_route_eth1] ⟨[ex_route_eth1]⟩ none
        (some { ex_stored_eth1 with ipaddr := some "10.0.1.9".toList })
        (some ex_active_eth1)).map ifcfg_fields_t.ipaddr
      = some (some "10.0.1.9".toList)
    ∧ centos_pass false [ex_route_eth1] ⟨[ex_route_eth1]⟩ (some ex_active_eth1)
        ex_ifcfg_stale none
      = ⟨some NSYNC_BACKUP, ex_ifcfg_stale, some (unlines [ex_route_eth1])⟩
    ∧ centos_compare_state false [ex_route_eth1] ⟨[ex_route_eth1]⟩ (some (ex_rt_cfg []))
        (some { ex_stored_eth1 with ipaddr := some "10.0.1.9".toList }) (some ex_active_eth1)
      = some NSYNC_BACKUP
    ∧ (centos_compare_stored false [ex_route_eth1] ⟨[ex_route_eth1]⟩ (some (ex_rt_cfg []))
        (some { ex_stored_eth1 with ipaddr := some "10.0.1.9".toList })
        (some ex_active_eth1)).map ifcfg_fields_t.ipaddr
      = some (some "10.0.1.5".toList) := by
  refine ⟨by decide, by decide, by decide, by decide, by decide⟩

/-- C13. For every input with a persisted and an active record, the record that
`centos_compare_configs` leaves is the persisted record with new values in at most the
fields device, mtu, ipaddr, netmask and arping_wait: every other field (type, onboot,
bootproto, gateway, dns, the ipv6 fields, hwaddr, uuid, name, the comment slot, the unknown
slot and the rest) is as before the call. Without an active record the function either
returns with the record untouched or reads the `NULL` record. -/
theorem C13_centos_compare_frame (arping_wait : Bool) (routes : List CStr)
    (mapped : routes_parsed_t) (persist_rts : Option rt_cfg_t) (s : ifcfg_fields_t) :
    (∀ a : ip_show_fields_t, ∃ device mtu ipaddr netmask arping : Option CStr,
      centos_compare_stored arping_wait routes mapped persist_rts (some s) (some a)
        = some { s with device := device, mtu := mtu, ipaddr := ipaddr, netmask := netmask,
                        arping_wait := arping })
    ∧ (centos_compare_stored arping_wait routes mapped persist_rts (some s) none = some s
      ∨ centos_compare_stored arping_wait routes mapped persist_rts (some s) none = none) := by
  constructor
  · intro a
    cases persist_rts with
    | none =>
      by_cases h0 : mapped.num_route > 0
      · exact ⟨s.device, s.mtu, s.ipaddr, s.netmask, s.arping_wait, by
          simp [centos_compare_stored, centos_compare_configs, h0]⟩
      · obtain ⟨d, mt, i, n, w, h⟩ := centos_compare_fields_frame arping_wait a s true
        exact ⟨d, mt, i, n, w, by
          simp [centos_compare_stored, centos_compare_configs, h0, h]⟩
    | some rc =>
      obtain ⟨d, mt, i, n, w, h⟩ := centos_compare_fields_frame arping_wait a s
        (centos_compare_routes_loop routes mapped.num_route
          (rc.routes, decide (rc.num_routes = mapped.num_route))).2
      exact ⟨d, mt, i, n, w, by
        simp [centos_compare_stored, centos_compare_configs, h]⟩
  · cases persist_rts with
    | none =>
      by_cases h0 : mapped.num_route > 0
      · left; simp [centos_compare_stored, centos_compare_configs, h0]
      · right; simp [centos_compare_stored, centos_compare_configs, h0]
    | some rc => right; simp [centos_compare_stored, centos_compare_configs]

/-- C14 (defect of the code). `ARPING_WAIT` is requested, the persisted record of eth1 has
none, and eth1 has one active route and no persisted route file. `centos_compare_configs`
returns `NSYNC_BACKUP` from its test of the route file and leaves the record without
`ARPING_WAIT`; the pass of the driver then writes the ifcfg file back without the directive.
With an (empty) persisted route file the same comparison sets `ARPING_WAIT` to 8. -/
theorem C14_centos_early_return_skips_arping_wait :
    centos_compare_state true [ex_route_eth1] ⟨[ex_route_eth1]⟩ none
        (some { ex_stored_eth1 with arping_wait := none }) (some ex_active_eth1)
      = some NSYNC_BACKUP
    ∧ (centos_compare_stored true [ex_route_eth1] ⟨[ex_route_eth1]⟩ none
        (some { ex_stored_eth1 with arping_wait := none })
        (some ex_active_eth1)).map ifcfg_fields_t.arping_wait
      = some none
    ∧ centos_pass true [ex_route_eth1] ⟨[ex_route_eth1]⟩ (some ex_active_eth1)
        ex_ifcfg_static none
      = ⟨some NSYNC_BACKUP, ex_ifcfg_static, some (unlines [ex_route_eth1])⟩
    ∧ (centos_compare_stored true [ex_route_eth1] ⟨[ex_route_eth1]⟩ (some (ex_rt_cfg []))
        (some { ex_stored_eth1 with arping_wait := none })
        (some ex_active_eth1)).map ifcfg_fields_t.arping_wait
      = some (some "8".toList) := by
  refine ⟨by decide, by decide, by decide, by decide⟩

/-- C15 (defect of the code). The merged record of eth1 has values for IPADDR, NETMASK, MTU
(9000) and ARPING_WAIT, none of which has a line in the old file `ex_ifcfg_dhcp`. The file
written by `centos_overwrite_configs` gets the line `ARPING_WAIT=8` after the lines of the
old file, and no line for IPADDR, NETMASK or MTU. -/
theorem C15_centos_overwrite_drops_missing_directives :
    (centos_overwrite_configs true [] ⟨[]⟩ none ex_merged_eth1 (some ex_ifcfg_dhcp)).ifcfg
      = some "DEVICE=eth1\nBOOTPROTO=dhcp\nONBOOT=yes\nARPING_WAIT=8\n".toList
    ∧ ¬ has_line_with "IPADDR=".toList
        "DEVICE=eth1\nBOOTPROTO=dhcp\nONBOOT=yes\nARPING_WAIT=8\n".toList
    ∧ ¬ has_line_with "NETMASK=".toList
        "DEVICE=eth1\nBOOTPROTO=dhcp\nONBOOT=yes\nARPING_WAIT=8\n".toList
    ∧ ¬ has_line_with "MTU=".toList
        "DEVICE=eth1\nBOOTPROTO=dhcp\nONBOOT=yes\nARPING_WAIT=8\n".toList := by
  refine ⟨by decide, by decide, by decide, by decide⟩

/-- C17 (defect of the code). On a host with the interfaces eth0 and eth1 and the routes
`ex_routes`, `centos_map_routes_to_if` maps the second route to eth1. The route file that
`centos_overwrite_configs` writes for eth1 holds the first route, the one of eth0;
`centos_create_and_write_to_file` writes the mapped route. -/
theorem C17_centos_overwrite_writes_other_route :
    centos_map_routes_to_if ⟨ex_routes⟩ ⟨["eth0".toList, "eth1".toList]⟩
      = [⟨["10.1.0.0/16 via 10.0.0.1 dev eth0".toList]⟩, ⟨[ex_route_eth1]⟩]
    ∧ (centos_overwrite_configs false ex_routes ⟨[ex_route_eth1]⟩ none ex_stored_eth1
        (some ex_ifcfg_static)).route
      = some "10.1.0.0/16 via 10.0.0.1 dev eth0\n".toList
    ∧ (centos_create_and_write_to_file false "eth1".toList ⟨[ex_route_eth1]⟩
        (some ex_active_eth1)).route
      = some "10.2.0.0/16 via 10.0.1.1 dev eth1\n".toList := by
  refine ⟨by decide, by decide, by decide⟩

/-! ## The pieces printed by the rewriting loop -/

theorem overwrite_line_rewrites (r : ifcfg_fields_t) (line : CStr) :
    ∃ piece added, overwrite_line r line = some (piece, added) ∧ rewrites_line line piece := by
  have hne := opt_str_to_enum_ne_num (ifcfg_split_line line).1
  unfold overwrite_line rewrites_line
  generalize opt_str_to_enum (ifcfg_split_line line).1 = k at hne ⊢
  generalize (ifcfg_split_line line).2 = v
  cases k
  case NUM_OPT => exact absurd rfl hne
  case UNKNOWN_OPT => exact ⟨_, _, rfl, rfl⟩
  case COMMENT => exact ⟨_, _, rfl, v, rfl⟩
  case MTU =>
    cases hm : r.mtu with
    | none => exact ⟨[], false, by simp [overwrite_switch, hm], none, rfl⟩
    | some mtu =>
      by_cases hc : mtu.length ≠ 0 ∧ mtu ≠ "1500".toList
      · exact ⟨_, false, by simp only [overwrite_switch, hm]; rw [if_pos hc]; rfl,
          some mtu, rfl⟩
      · exact ⟨[], false, by simp only [overwrite_switch, hm, hc, if_false], none, rfl⟩
  all_goals exact ⟨_, _, rfl, _, rfl⟩

theorem overwrite_loop_rewrites (r : ifcfg_fields_t) (lines : List CStr) :
    ∃ pieces added, overwrite_loop r lines = some (pieces.flatten, added)
      ∧ List.Forall₂ rewrites_line lines pieces := by
  induction lines with
  | nil => exact ⟨[], false, rfl, List.Forall₂.nil⟩
  | cons l ls ih =>
    obtain ⟨piece, b, h1, h2⟩ := overwrite_line_rewrites r l
    obtain ⟨pieces, bs, h3, h4⟩ := ih
    exact ⟨piece :: pieces, b || bs, by simp only [overwrite_loop, h1, h3, List.flatten_cons],
      List.Forall₂.cons h2 h4⟩

/-- C16. For every old ifcfg text and every record, the ifcfg file written by
`centos_overwrite_configs` is the concatenation, in the order of the lines that the loop reads
from the old file, of one piece for each line, followed by at most one added `ARPING_WAIT`
line. The piece of a line whose option is not recognized is that line, byte for byte; the
piece of a comment is a comment line; the piece of a recognized directive is empty or one
line with the key of that directive. -/
theorem C16_centos_overwrite_keeps_lines_in_order (arping_wait : Bool) (routes : List CStr)
    (mapped : routes_parsed_t) (persist_rts : Option rt_cfg_t) (stored_cfg : ifcfg_fields_t)
    (old : CStr) :
    ∃ (pieces : List CStr) (added : Option CStr),
      (centos_overwrite_configs arping_wait routes mapped persist_rts stored_cfg (some old)).ifcfg
        = some (pieces.flatten ++ print_field "ARPING_WAIT".toList added)
      ∧ List.Forall₂ rewrites_line (read_lines CFG_LINE_LEN old) pieces := by
  have key : ∀ r : ifcfg_fields_t, ∃ (pieces : List CStr) (added : Option CStr),
      overwrite_ifcfg_text arping_wait r old
        = some (pieces.flatten ++ print_field "ARPING_WAIT".toList added)
      ∧ List.Forall₂ rewrites_line (read_lines CFG_LINE_LEN old) pieces := by
    intro r
    obtain ⟨pieces, b, h1, h2⟩ := overwrite_loop_rewrites r (read_lines CFG_LINE_LEN old)
    by_cases hc : arping_wait = true ∧ ¬ b = true ∧ r.arping_wait ≠ none
    · exact ⟨pieces, r.arping_wait, by simp only [overwrite_ifcfg_text, h1]; rw [if_pos hc],
        h2⟩
    · exact ⟨pieces, none, by
        simp only [overwrite_ifcfg_text, h1]; rw [if_neg hc]; simp [print_field], h2⟩
  by_cases h0 : mapped.num_route > 0
  · obtain ⟨pieces, added, h1, h2⟩ := key
      { stored_cfg with
        onboot := some (memcpy_str (stored_cfg.onboot.getD []) "yes".toList 3) }
    exact ⟨pieces, added, by simp only [centos_overwrite_configs, h0, if_true, h1], h2⟩
  · obtain ⟨pieces, added, h1, h2⟩ := key stored_cfg
    exact ⟨pieces, added, by simp only [centos_overwrite_configs, h0, if_false, h1], h2⟩

/-! ## Lemmas on the persisted route file -/

theorem parse_route_blank (rc : rt_cfg_t) :
    parse_route_cfg_fields rc ['\n']
      = ⟨rc.routes, rc.comments, Function.update rc.gaps rc.num_routes
          (some ((rc.gaps rc.num_routes).getD [] ++ ['\n']))⟩ := by
  cases h : rc.gaps rc.num_routes <;>
    simp [parse_route_cfg_fields, h, safe_strncpy, accumulate_next]

theorem parse_route_comment (rc : rt_cfg_t) (c : CStr) (hc : c.head? = some '#') :
    parse_route_cfg_fields rc (c ++ ['\n'])
      = ⟨rc.routes, Function.update rc.comments rc.num_routes
          (some ((rc.comments rc.num_routes).getD [] ++ (c ++ ['\n']))), rc.gaps⟩ := by
  cases c with
  | nil => simp at hc
  | cons x xs =>
    have hx : x = '#' := by simpa using hc
    subst hx
    have ht : List.take (xs.length + 1) (xs ++ ['\n']) = xs ++ ['\n'] :=
      List.take_of_length_le (by simp)
    cases h : rc.comments rc.num_routes <;>
      simp [parse_route_cfg_fields, h, safe_strncpy, accumulate_next, ht]

theorem parse_route_route (rc : rt_cfg_t) (r : CStr) (hnl : '\n' ∉ r) (hne : r ≠ [])
    (hhash : r.head? ≠ some '#') (htrim : trim r default_seps = r) :
    parse_route_cfg_fields rc (r ++ ['\n']) = ⟨rc.routes ++ [r], rc.comments, rc.gaps⟩ := by
  cases r with
  | nil => exact absurd rfl hne
  | cons x xs =>
    have hx1 : x ≠ '\n' := fun h => hnl (by simp [h])
    have hx2 : x ≠ '#' := fun h => hhash (by simp [h])
    have ht : trim (x :: xs ++ ['\n']) default_seps = x :: xs := by
      have h1 := rtrim_append_sep (x :: xs) default_seps '\n' (by decide)
      unfold trim at htrim ⊢
      rw [h1, htrim]
    simp only [parse_route_cfg_fields, List.cons_append, List.head?_cons, Option.some.injEq, hx1,
      hx2, if_false]
    rw [← List.cons_append, ht]


theorem parse_route_blanks_fold (k : Nat) (rc : rt_cfg_t) :
    ((List.replicate k ['\n']).foldl parse_route_cfg_fields rc).routes = rc.routes
    ∧ ((List.replicate k ['\n']).foldl parse_route_cfg_fields rc).comments = rc.comments
    ∧ (∀ j, j ≠ rc.num_routes →
        ((List.replicate k ['\n']).foldl parse_route_cfg_fields rc).gaps j = rc.gaps j)
    ∧ (((List.replicate k ['\n']).foldl parse_route_cfg_fields rc).gaps rc.num_routes).getD []
        = (rc.gaps rc.num_routes).getD [] ++ List.replicate k '\n' := by
  induction k generalizing rc with
  | zero => simp
  | succ k ih =>
    obtain ⟨h1, h2, h3, h4⟩ := ih (parse_route_cfg_fields rc ['\n'])
    have hn : (parse_route_cfg_fields rc ['\n']).num_routes = rc.num_routes := by
      rw [parse_route_blank]; rfl
    rw [hn] at h3 h4
    rw [List.replicate_succ, List.foldl_cons]
    refine ⟨?_, ?_, ?_, ?_⟩
    · rw [h1, parse_route_blank]
    · rw [h2, parse_route_blank]
    · intro j hj
      rw [h3 j hj, parse_route_blank]
      exact Function.update_noteq hj _ _
    · rw [h4, parse_route_blank]
      simp [Function.update_same, List.replicate_succ]

theorem parse_route_comments_fold (cs : List CStr) (rc : rt_cfg_t)
    (hcs : ∀ c ∈ cs, c.head? = some '#') :
    ((cs.map (fun l => l ++ ['\n'])).foldl parse_route_cfg_fields rc).routes = rc.routes
    ∧ ((cs.map (fun l => l ++ ['\n'])).foldl parse_route_cfg_fields rc).gaps = rc.gaps
    ∧ (∀ j, j ≠ rc.num_routes →
        ((cs.map (fun l => l ++ ['\n'])).foldl parse_route_cfg_fields rc).comments j
          = rc.comments j)
    ∧ (((cs.map (fun l => l ++ ['\n'])).foldl parse_route_cfg_fields rc).comments
          rc.num_routes).getD []
        = (rc.comments rc.num_routes).getD [] ++ unlines cs := by
  induction cs generalizing rc with
  | nil => simp [unlines]
  | cons c cs ih =>
    have hc := hcs c (List.mem_cons_self c cs)
    obtain ⟨h1, h2, h3, h4⟩ := ih (parse_route_cfg_fields rc (c ++ ['\n']))
      (fun x hx => hcs x (List.mem_cons_of_mem c hx))
    have hn : (parse_route_cfg_fields rc (c ++ ['\n'])).num_routes = rc.num_routes := by
      rw [parse_route_comment rc c hc]; rfl
    rw [hn] at h3 h4
    rw [List.map_cons, List.foldl_cons]
    refine ⟨?_, ?_, ?_, ?_⟩
    · rw [h1, parse_route_comment rc c hc]
    · rw [h2, parse_route_comment rc c hc]
    · intro j hj
      rw [h3 j hj, parse_route_comment rc c hc]
      exact Function.update_noteq hj _ _
    · rw [h4, parse_route_comment rc c hc]
      simp [Function.update_same, unlines]

theorem parse_route_block_fold (b : route_block) (rc : rt_cfg_t) (hb : b.plain)
    (hg : (rc.gaps rc.num_routes).getD [] = [])
    (hcm : (rc.comments rc.num_routes).getD [] = []) :
    ((b.lines.map (fun l => l ++ ['\n'])).foldl parse_route_cfg_fields rc).routes
        = rc.routes ++ [b.route]
    ∧ (∀ j, j ≠ rc.num_routes →
        ((b.lines.map (fun l => l ++ ['\n'])).foldl parse_route_cfg_fields rc).gaps j = rc.gaps j
        ∧ ((b.lines.map (fun l => l ++ ['\n'])).foldl parse_route_cfg_fields rc).comments j
            = rc.comments j)
    ∧ (((b.lines.map (fun l => l ++ ['\n'])).foldl parse_route_cfg_fields rc).gaps
          rc.num_routes).getD []
        ++ (((b.lines.map (fun l => l ++ ['\n'])).foldl parse_route_cfg_fields rc).comments
          rc.num_routes).getD []
        ++ (b.route ++ ['\n'])
      = unlines b.lines := by
  obtain ⟨hc, hnl, _, _, hne, hhash, htrim⟩ := hb
  obtain ⟨g1, g2, g3, g4⟩ := parse_route_blanks_fold b.blanks rc
  generalize hrc1 : (List.replicate b.blanks ['\n']).foldl parse_route_cfg_fields rc = rc1
    at g1 g2 g3 g4
  have hn1 : rc1.num_routes = rc.num_routes := by
    unfold rt_cfg_t.num_routes; rw [g1]
  obtain ⟨c1, c2, c3, c4⟩ := parse_route_comments_fold b.comments rc1
    (fun c hx => (hc c hx).1)
  generalize hrc2 : (b.comments.map (fun l => l ++ ['\n'])).foldl parse_route_cfg_fields rc1
    = rc2 at c1 c2 c3 c4
  rw [hn1] at c3 c4
  have hfold : (b.lines.map (fun l => l ++ ['\n'])).foldl parse_route_cfg_fields rc
      = ⟨rc2.routes ++ [b.route], rc2.comments, rc2.gaps⟩ := by
    simp only [route_block.lines, List.map_append, List.map_replicate, List.foldl_append,
      List.nil_append, List.map_cons, List.map_nil, List.foldl_cons, List.foldl_nil, hrc1, hrc2]
    exact parse_route_route rc2 b.route hnl hne hhash htrim
  rw [hfold]
  refine ⟨by simp only [c1, g1], ?_, ?_⟩
  · intro j hj
    exact ⟨by simp only [c2, g3 j hj], by simp only [c3 j hj, g2]⟩
  · have hblank : ∀ k : Nat, unlines (List.replicate k ([] : CStr)) = List.replicate k '\n' := by
      intro k
      induction k with
      | zero => rfl
      | succ k ih =>
        have hu : unlines (List.replicate (k + 1) ([] : CStr))
            = '\n' :: unlines (List.replicate k ([] : CStr)) := by
          simp [List.replicate_succ, unlines]
        rw [hu, ih, List.replicate_succ]
    simp only [c2, g4, c4, g2, hg, hcm, route_block.lines, unlines_append, hblank,
      List.nil_append]
    simp [unlines, List.append_assoc]

theorem parse_route_lines_append (xs ys : List CStr) :
    parse_route_lines (xs ++ ys)
      = (ys.map (fun l => l ++ ['\n'])).foldl parse_route_cfg_fields (parse_route_lines xs) := by
  simp [parse_route_lines, List.foldl_append]

theorem parse_route_blocks (blocks : List route_block) (h : ∀ b ∈ blocks, b.plain) :
    (parse_route_lines (blocks.map route_block.lines).flatten).routes.length = blocks.length
    ∧ overwrite_route_text (parse_route_lines (blocks.map route_block.lines).flatten).routes
          (parse_route_lines (blocks.map route_block.lines).flatten).num_routes
          (some (parse_route_lines (blocks.map route_block.lines).flatten))
        = unlines (blocks.map route_block.lines).flatten
    ∧ ∀ j, blocks.length ≤ j →
        (parse_route_lines (blocks.map route_block.lines).flatten).gaps j = none
        ∧ (parse_route_lines (blocks.map route_block.lines).flatten).comments j = none := by
  induction blocks using List.reverseRecOn with
  | nil => exact ⟨rfl, rfl, fun j _ => ⟨rfl, rfl⟩⟩
  | append_singleton bs b ih =>
    obtain ⟨i1, i2, i3⟩ := ih (fun x hx => h x (List.mem_append_left _ hx))
    have hb := h b (List.mem_append_right _ (List.mem_singleton_self b))
    have hlines : ((bs ++ [b]).map route_block.lines).flatten
        = (bs.map route_block.lines).flatten ++ b.lines := by simp
    rw [hlines, parse_route_lines_append]
    generalize parse_route_lines (bs.map route_block.lines).flatten = rc at i1 i2 i3
    have hn : rc.num_routes = bs.length := i1
    obtain ⟨f1, f2, f3⟩ := parse_route_block_fold b rc hb
      (by rw [hn, (i3 _ (Nat.le_refl _)).1]; rfl) (by rw [hn, (i3 _ (Nat.le_refl _)).2]; rfl)
    generalize (b.lines.map (fun l => l ++ ['\n'])).foldl parse_route_cfg_fields rc = rc2
      at f1 f2 f3
    rw [hn] at f2 f3
    have hn2 : rc2.num_routes = bs.length + 1 := by
      unfold rt_cfg_t.num_routes; rw [f1, List.length_append, i1]; rfl
    refine ⟨by rw [f1]; simp [i1], ?_, ?_⟩
    · rw [hn2, unlines_append, ← i2, ← f3, hn]
      unfold overwrite_route_text
      rw [List.range_succ, List.map_append, List.flatten_append]
      congr 1
      · congr 1
        apply List.map_congr_left
        intro j hj
        have hj2 : j < bs.length := List.mem_range.mp hj
        have hj3 : j ≠ bs.length := by omega
        simp only [(f2 j hj3).1, (f2 j hj3).2, f1]
        rw [List.getD_append _ _ _ _ (by rw [i1]; exact hj2)]
      · simp only [List.map_cons, List.map_nil, List.flatten_cons, List.flatten_nil,
          List.append_nil, f1]
        rw [List.getD_append_right _ _ _ _ (by rw [i1]), i1]
        simp
    · intro j hj
      have hj2 : bs.length + 1 ≤ j := by simpa using hj
      have hj3 : j ≠ bs.length := by omega
      rw [(f2 j hj3).1, (f2 j hj3).2]
      exact i3 j (by omega)

/-- C18 (counterexample). A route file with a comment, then a blank line, then a route is
written back with the blank line before the comment; and a comment after the last route is
not written back at all. -/
theorem C18_counterexample_comment_before_blank_line :
    centos_route_round_trip "# routes of eth1\n\n10.2.0.0/16 via 10.0.1.1 dev eth1\n".toList
      = some "\n# routes of eth1\n10.2.0.0/16 via 10.0.1.1 dev eth1\n".toList
    ∧ centos_route_round_trip "10.2.0.0/16 via 10.0.1.1 dev eth1\n# checked\n".toList
      = some "10.2.0.0/16 via 10.0.1.1 dev eth1\n".toList := by
  refine ⟨by decide, by decide⟩

/-- C18 (amended). A route file made of at most `MAX_ROUTES` stretches, each with its blank
lines first, then its comment lines, then one route line without white space at either end
(so the file ends with a route line), is reproduced byte for byte by parsing it with
`centos_parse_route_cfg` and writing it back with the route loop of
`centos_overwrite_configs`, the active routes being the parsed routes. The bound on the
number of stretches is the size of the arrays of `route_config`, which this embedding does
not limit. -/
theorem C18_centos_route_round_trip (blocks : List route_block)
    (hplain : ∀ b ∈ blocks, b.plain) (_hnum : blocks.length ≤ MAX_ROUTES) :
    centos_route_round_trip (route_blocks_text blocks) = some (route_blocks_text blocks) := by
  have hlines : ∀ l ∈ (blocks.map route_block.lines).flatten,
      '\n' ∉ l ∧ NUL ∉ l ∧ l.length + 1 < MAX_OUTPUT_LEN := by
    intro l hl
    obtain ⟨ls, hls, hl2⟩ := List.mem_flatten.mp hl
    obtain ⟨b, hb, hbl⟩ := List.mem_map.mp hls
    obtain ⟨hc, h1, h2, h3, _⟩ := hplain b hb
    rw [← hbl, route_block.lines] at hl2
    rcases List.mem_append.mp hl2 with h | h
    · rcases List.mem_append.mp h with h | h
      · rw [(List.mem_replicate.mp h).2]
        exact ⟨by simp, by simp, by decide⟩
      · exact (hc l h).2
    · rw [List.mem_singleton.mp h]
      exact ⟨h1, h2, h3⟩
  have hread := read_lines_unlines MAX_OUTPUT_LEN _ hlines
  have hparse : centos_parse_route_cfg (some (route_blocks_text blocks))
      = parse_ptr.ptr (parse_route_lines (blocks.map route_block.lines).flatten) := by
    simp only [centos_parse_route_cfg, route_blocks_text, hread, parse_route_lines]
  simp only [centos_route_round_trip, hparse]
  rw [(parse_route_blocks blocks hplain).2.1]
  rfl

/-- C18 (amended), at an instance: a route file of eth1 with a blank line and a comment
before its first route and a comment before its second. -/
theorem C18_centos_route_round_trip_witness :
    route_blocks_text ex_route_blocks
      = ("\n# routes of eth1\n10.2.0.0/16 via 10.0.1.1 dev eth1\n"
          ++ "# link to the lab\n10.3.0.0/16 via 10.0.1.1 dev eth1\n").toList
    ∧ centos_route_round_trip (route_blocks_text ex_route_blocks)
      = some (route_blocks_text ex_route_blocks) :=
  ⟨by decide, C18_centos_route_round_trip ex_route_blocks (by decide) (by decide)⟩

/-! ## Lines after a newline -/

theorem text_lines_after_newline (pre rest x : CStr) (hx : x ∈ text_lines rest) :
    x ∈ (text_lines (pre ++ '\n' :: rest)).tail := by
  induction pre with
  | nil => simpa [text_lines] using hx
  | cons c cs ih =>
    by_cases hc : c = '\n'
    · subst hc
      simp only [List.cons_append, text_lines, if_true, List.tail_cons]
      exact List.mem_of_mem_tail ih
    · rw [List.cons_append, text_lines_cons_ne c _ hc, List.tail_cons]
      exact ih

/-- C19. For a statically addressed active record with IPv4 address `A` and netmask `M`
(neither holding a newline) and at least one mapped route,
`centos_create_and_write_to_file` returns `NSYNC_IF_SYNCED`, writes an ifcfg text that has
the lines `ONBOOT=yes`, `BOOTPROTO=none`, `IPADDR=A` and `NETMASK=M`, and writes a route file
made of the mapped routes, one per line, in order. In the driver, whatever the other state
functions are, an interface without ifcfg file goes from `NSYNC_CHECK_EXIST` to
`NSYNC_CREATE_WRITE` and from there to `NSYNC_IF_SYNCED` with these two files written: no
state on the way is `NSYNC_BACKUP`. -/
theorem C19_centos_create_new (arping_wait : Bool) (if_name : CStr) (a : ip_show_fields_t)
    (mapped : routes_parsed_t) (A M : CStr) (route_file : Option CStr)
    (check_OS : centos_if_info_t → nsync_state_t × centos_if_info_t)
    (sf : state_func_t centos_if_info_t)
    (hstatic : a.dynamic = false) (hinet : a.inet = some A) (hmask : a.inet_mask = some M)
    (hA : '\n' ∉ A) (hM : '\n' ∉ M) (hroutes : mapped.route_list ≠ []) :
    centos_create_and_write_to_file arping_wait if_name mapped (some a)
        = ⟨NSYNC_IF_SYNCED, some (centos_create_ifcfg_text arping_wait if_name a),
            some (unlines mapped.route_list)⟩
    ∧ (∀ l ∈ ["ONBOOT=yes".toList, "BOOTPROTO=none".toList, "IPADDR=".toList ++ A,
          "NETMASK=".toList ++ M],
        l ∈ text_lines (centos_create_ifcfg_text arping_wait if_name a))
    ∧ driver_step check_OS
          { sf with check_exist := centos_check_persistent_files,
                    create_write := centos_create_write }
          NSYNC_CHECK_EXIST ⟨arping_wait, some if_name, some a, mapped, none, route_file⟩
        = driver_turn.next NSYNC_CREATE_WRITE
            ⟨arping_wait, some if_name, some a, mapped, none, route_file⟩
    ∧ driver_step check_OS
          { sf with check_exist := centos_check_persistent_files,
                    create_write := centos_create_write }
          NSYNC_CREATE_WRITE ⟨arping_wait, some if_name, some a, mapped, none, route_file⟩
        = driver_turn.next NSYNC_IF_SYNCED
            ⟨arping_wait, some if_name, some a, mapped,
              some (centos_create_ifcfg_text arping_wait if_name a),
              some (unlines mapped.route_list)⟩ := by
  have hnum : mapped.num_route ≠ 0 := by
    cases mapped with
    | mk rl =>
      cases rl with
      | nil => exact absurd rfl hroutes
      | cons r rs => simp [routes_parsed_t.num_route]
  have hw : centos_create_and_write_to_file arping_wait if_name mapped (some a)
      = ⟨NSYNC_IF_SYNCED, some (centos_create_ifcfg_text arping_wait if_name a),
          some (unlines mapped.route_list)⟩ := by
    simp [centos_create_and_write_to_file, hnum, print_routes, unlines]
  refine ⟨hw, ?_, rfl, ?_⟩
  · have htext : centos_create_ifcfg_text arping_wait if_name a
        = (centos_create_link_text a.link
            ++ ("DEVICE=".toList ++ if_name ++ "\nNAME=".toList ++ if_name))
          ++ '\n' :: (unlines ["ONBOOT=yes".toList, "BOOTPROTO=none".toList,
              "IPADDR=".toList ++ A, "NETMASK=".toList ++ M]
            ++ (print_field "MTU".toList a.mtu ++ centos_create_inet6_text a.inet6
              ++ (if arping_wait then "ARPING_WAIT=8\n".toList else []))) := by
      simp [centos_create_ifcfg_text, centos_create_inet_text, hinet, hmask, hstatic,
        print_field, unlines, List.append_assoc]
    have hlines : ∀ l ∈ ["ONBOOT=yes".toList, "BOOTPROTO=none".toList, "IPADDR=".toList ++ A,
        "NETMASK=".toList ++ M], '\n' ∉ l := by
      intro l hl
      simp only [List.mem_cons, List.mem_singleton, List.not_mem_nil, or_false] at hl
      rcases hl with h | h | h | h
      · rw [h]; decide
      · rw [h]; decide
      · rw [h]; intro hm
        rcases List.mem_append.mp hm with h2 | h2
        · exact absurd h2 (by decide)
        · exact hA h2
      · rw [h]; intro hm
        rcases List.mem_append.mp hm with h2 | h2
        · exact absurd h2 (by decide)
        · exact hM h2
    intro l hl
    rw [htext]
    apply List.mem_of_mem_tail
    apply text_lines_after_newline
    rw [text_lines_unlines _ _ hlines]
    exact List.mem_append_left _ hl
  · simp only [driver_step, centos_create_write, Option.getD_some, hw]
    rfl

/-- C19, at an instance: eth0 with 10.0.0.5/24 and the route `10.0.0.0/24 dev eth0`, no
persisted file. -/
theorem C19_centos_create_new_witness :
    centos_create_and_write_to_file true "eth0".toList ⟨[ex_route_eth0]⟩ (some ex_active_eth0)
      = ⟨NSYNC_IF_SYNCED, some (centos_create_ifcfg_text true "eth0".toList ex_active_eth0),
          some (unlines [ex_route_eth0])⟩
    ∧ (∀ l ∈ ["ONBOOT=yes".toList, "BOOTPROTO=none".toList,
          "IPADDR=".toList ++ "10.0.0.5".toList, "NETMASK=".toList ++ "255.255.255.0".toList],
        l ∈ text_lines (centos_create_ifcfg_text true "eth0".toList ex_active_eth0))
    ∧ driver_step (fun info => (NSYNC_GET_CONFIG, info)) ex_state_funcs NSYNC_CHECK_EXIST
          ex_info_eth0
        = driver_turn.next NSYNC_CREATE_WRITE ex_info_eth0
    ∧ driver_step (fun info => (NSYNC_GET_CONFIG, info)) ex_state_funcs NSYNC_CREATE_WRITE
          ex_info_eth0
        = driver_turn.next NSYNC_IF_SYNCED
            { ex_info_eth0 with
              ifcfg_file := some (centos_create_ifcfg_text true "eth0".toList ex_active_eth0),
              route_file := some (unlines [ex_route_eth0]) } :=
  C19_centos_create_new true "eth0".toList ex_active_eth0 ⟨[ex_route_eth0]⟩
    "10.0.0.5".toList "255.255.255.0".toList none (fun info => (NSYNC_GET_CONFIG, info))
    ex_state_funcs rfl rfl rfl (by decide) (by decide) (by decide)

/-! ## Lemmas on the backup directory -/

theorem dec_value_digit (d : Nat) (hd : d < 10) : (Char.ofNat (48 + d)).toNat - 48 = d := by
  interval_cases d <;> rfl

theorem dec_value_print_int_fuel (fuel n : Nat) (h : n < 10 ^ fuel) :
    dec_value (print_int_fuel fuel n) = n := by
  induction fuel generalizing n with
  | zero => simp at h; subst h; rfl
  | succ k ih =>
    by_cases h10 : n < 10
    · simp [print_int_fuel, h10, dec_value, dec_value_digit n h10]
    · have hdiv : n / 10 < 10 ^ k := by
        apply Nat.div_lt_of_lt_mul
        rw [Nat.pow_succ] at h
        omega
      have hrec := ih (n / 10) hdiv
      simp only [print_int_fuel, h10, if_false]
      unfold dec_value at hrec ⊢
      rw [List.foldl_append, hrec]
      simp only [List.foldl_cons, List.foldl_nil]
      rw [dec_value_digit _ (Nat.mod_lt n (by decide))]
      omega

theorem dec_value_print_int_02 (n : Nat) : dec_value (print_int_02 n) = n := by
  have hn : n < 10 ^ (n + 1) := by
    calc n < 2 ^ n := Nat.lt_two_pow n
      _ ≤ 10 ^ n := Nat.pow_le_pow_left (by decide) n
      _ ≤ 10 ^ (n + 1) := Nat.pow_le_pow_right (by decide) (Nat.le_succ n)
  have h := dec_value_print_int_fuel (n + 1) n hn
  unfold print_int_02 print_int
  by_cases h10 : n < 10
  · rw [if_pos h10]
    unfold dec_value at h ⊢
    rw [List.foldl_cons]
    exact h
  · rw [if_neg h10]
    exact h

theorem spec_backup_name_injective (date : CStr) : Function.Injective (spec_backup_name date) := by
  intro i j hij
  have hlen : ∀ k, (spec_backup_name date (k + 1)).length
      = (spec_backup_name date 0).length + 1 + (print_int_02 (k + 1)).length := by
    intro k
    simp [spec_backup_name]
    omega
  cases i with
  | zero =>
    cases j with
    | zero => rfl
    | succ j =>
      have h := congrArg List.length hij
      rw [hlen j] at h
      omega
  | succ i =>
    cases j with
    | zero =>
      have h := congrArg List.length hij
      rw [hlen i] at h
      omega
    | succ j =>
      have h : print_int_02 (i + 1) = print_int_02 (j + 1) := by
        simpa [spec_backup_name] using hij
      have h2 := congrArg dec_value h
      rw [dec_value_print_int_02, dec_value_print_int_02] at h2
      exact h2

theorem backup_dir_loop_run (dir_check : CStr → Bool) (location date : CStr) (n i fuel : Nat)
    (hex : ∀ j, i ≤ j → j < i + n → dir_check (location ++ spec_backup_name date j) = true)
    (hfree : dir_check (location ++ spec_backup_name date (i + n)) = false) (hfuel : n < fuel) :
    backup_dir_loop dir_check location date fuel (i + 1) (spec_backup_name date i)
      = some (spec_backup_name date (i + n)) := by
  induction n generalizing i fuel with
  | zero =>
    cases fuel with
    | zero => omega
    | succ f =>
      have h0 : dir_check (location ++ spec_backup_name date i) = false := hfree
      simp [backup_dir_loop, h0]
  | succ n ih =>
    cases fuel with
    | zero => omega
    | succ f =>
      have h0 : dir_check (location ++ spec_backup_name date i) = true :=
        hex i (Nat.le_refl i) (by omega)
      have hstep := ih (i + 1) f (fun j h1 h2 => hex j (by omega) (by omega))
        (by rw [show i + 1 + n = i + (n + 1) by omega]; exact hfree) (by omega)
      simp only [backup_dir_loop, h0, if_true]
      rw [show i + (n + 1) = i + 1 + n by omega, ← hstep]
      rfl

theorem backup_name_free (date location : CStr) (existing : List CStr) :
    ∃ k, k ≤ existing.length ∧ location ++ spec_backup_name date k ∉ existing := by
  by_contra hall
  have hall2 : ∀ k, k ≤ existing.length → location ++ spec_backup_name date k ∈ existing := by
    intro k hk
    by_contra hn
    exact hall ⟨k, hk, hn⟩
  have hinj : Function.Injective (fun k => location ++ spec_backup_name date k) := by
    intro i j hij
    exact spec_backup_name_injective date (List.append_cancel_left hij)
  have hnodup : ((List.range (existing.length + 1)).map
      (fun k => location ++ spec_backup_name date k)).Nodup :=
    List.Nodup.map hinj (List.nodup_range _)
  have hsub : (List.range (existing.length + 1)).map
      (fun k => location ++ spec_backup_name date k) ⊆ existing := by
    intro x hx
    obtain ⟨k, hk, hkx⟩ := List.mem_map.mp hx
    rw [← hkx]
    exact hall2 k (by have := List.mem_range.mp hk; omega)
  have hlen := (List.subperm_of_subset hnodup hsub).length_le
  simp at hlen

/-- C20. For every date, every backup location and every finite set of existing directories
(given as the list of their paths), the first backup of a run arrives at the first name in
the sequence `nsync.D`, `nsync.D.01`, `nsync.D.02`, ... whose path is not an existing
directory, in `centos_backup_files` (with `backup.started` false) and in
`ubuntu_backup_files` alike: the loop ends within one test more than there are directories,
the name `k` of the sequence that it leaves does not exist, and every earlier name of the
sequence does. The counter of the loop is an `int` in the source; it stays below the number
of existing directories plus one. -/
theorem C20_backup_dir_first_free (date location : CStr) (existing : List CStr) :
    ∃ k, centos_backup_dir false (fun p => decide (p ∈ existing)) location date
          (existing.length + 1) = some (spec_backup_name date k)
      ∧ ubuntu_backup_dir (fun p => decide (p ∈ existing)) location date
          (existing.length + 1) = some (spec_backup_name date k)
      ∧ location ++ spec_backup_name date k ∉ existing
      ∧ (∀ j, j < k → location ++ spec_backup_name date j ∈ existing)
      ∧ k ≤ existing.length := by
  have hfree : ∃ k, location ++ spec_backup_name date k ∉ existing := by
    obtain ⟨k, _, hk⟩ := backup_name_free date location existing
    exact ⟨k, hk⟩
  obtain ⟨k0, hk0, hk0free⟩ := backup_name_free date location existing
  have hle : Nat.find hfree ≤ existing.length := Nat.le_trans (Nat.find_min' hfree hk0free) hk0
  have hmin : ∀ j, j < Nat.find hfree → location ++ spec_backup_name date j ∈ existing := by
    intro j hj
    by_contra hn
    exact Nat.find_min hfree hj hn
  have hrun := backup_dir_loop_run (fun p => decide (p ∈ existing)) location date
    (Nat.find hfree) 0 (existing.length + 1)
    (fun j _ hj => by simpa using hmin j (by omega))
    (by simpa using Nat.find_spec hfree) (by omega)
  simp only [Nat.zero_add] at hrun
  refine ⟨Nat.find hfree, ?_, ?_, Nat.find_spec hfree, hmin, hle⟩
  · simp only [centos_backup_dir, Bool.false_eq_true, if_false]
    exact hrun
  · exact hrun

theorem backup_dir_examples :
    centos_backup_dir false (fun p => decide (p ∈ ["/var/backups/nsync.20240101".toList]))
        "/var/backups/".toList "20240101".toList 2 = some "nsync.20240101.01".toList
    ∧ ubuntu_backup_dir
        (fun p => decide (p ∈ ["/var/backups/nsync.20240101".toList,
          "/var/backups/nsync.20240101.01".toList]))
        "/var/backups/".toList "20240101".toList 3 = some "nsync.20240101.02".toList
    ∧ centos_backup_dir false (fun p => decide (p ∈ ([] : List CStr)))
        "/var/backups/".toList "20240101".toList 1 = some "nsync.20240101".toList := by
  refine ⟨by decide, by decide, by decide⟩

/-- C21 (defect of the code). A backup directory of the same day exists before the run, and
two interfaces are backed up in the run. The first call of `centos_backup_files` makes the
directory `nsync.20240101.01` and copies `ifcfg-eth0` into it; the second call, with
`backup.started` set, skips the naming loop and copies `ifcfg-eth1` into `nsync.20240101`,
the directory of the earlier run. Without a directory before the run, both calls copy into
`nsync.20240101`. -/
theorem C21_centos_second_backup_other_directory :
    centos_backup_files (fun _ => 0) "20240101".toList ex_cfg_loc "eth0".toList ex_backup
        ex_backup_world
      = some ⟨NSYNC_OVERWRITE, { ex_backup with started := true },
          { ex_backup_world with
            dirs := [ex_cfg_loc ++ "nsync.20240101".toList,
              ex_cfg_loc ++ "nsync.20240101.01".toList],
            commands :=
              ["mkdir /etc/sysconfig/network-scripts/nsync.20240101.01".toList,
               ("cp /etc/sysconfig/network-scripts/ifcfg-eth0 "
                ++ "/etc/sysconfig/network-scripts/nsync.20240101.01").toList] }⟩
    ∧ (centos_backup_files (fun _ => 0) "20240101".toList ex_cfg_loc "eth1".toList
        { ex_backup with started := true }
        { ex_backup_world with
          dirs := [ex_cfg_loc ++ "nsync.20240101".toList,
            ex_cfg_loc ++ "nsync.20240101.01".toList] }).map
        (fun r => (r.state, r.world.commands))
      = some (NSYNC_OVERWRITE,
          [("cp /etc/sysconfig/network-scripts/ifcfg-eth1 "
            ++ "/etc/sysconfig/network-scripts/nsync.20240101").toList])
    ∧ (centos_backup_files (fun _ => 0) "20240101".toList ex_cfg_loc "eth0".toList ex_backup
        { ex_backup_world with dirs := [] }).map (fun r => (r.backup.started, r.world.commands))
      = some (true,
          ["mkdir /etc/sysconfig/network-scripts/nsync.20240101".toList,
           ("cp /etc/sysconfig/network-scripts/ifcfg-eth0 "
            ++ "/etc/sysconfig/network-scripts/nsync.20240101").toList]) := by
  refine ⟨by decide, by decide, by decide⟩

/-- C22 (defect of the code). On a host where `cp` fails with exit status 1,
`centos_backup_files` and `ubuntu_backup_files` return `NSYNC_OVERWRITE`; so they do where
`mkdir` fails with exit status 1, and the directory does not exist afterwards. Only the
return value -1 of `system` makes them return `NSYNC_ERROR`. The driver calls the overwrite
function in the turn after a backup function has returned `NSYNC_OVERWRITE`. -/
theorem C22_backup_failure_goes_unnoticed :
    (centos_backup_files ex_system_cp_fails "20240101".toList ex_cfg_loc "eth0".toList ex_backup
        ex_world_fresh).map (fun r => (r.state, r.world.commands))
      = some (NSYNC_OVERWRITE,
          ["mkdir /etc/sysconfig/network-scripts/nsync.20240101".toList,
           ("cp /etc/sysconfig/network-scripts/ifcfg-eth0 "
            ++ "/etc/sysconfig/network-scripts/nsync.20240101").toList])
    ∧ (centos_backup_files ex_system_mkdir_fails "20240101".toList ex_cfg_loc "eth0".toList
        ex_backup ex_world_fresh).map (fun r => (r.state, r.backup.started, r.world.dirs))
      = some (NSYNC_OVERWRITE, true, [])
    ∧ (ubuntu_backup_files ex_system_cp_fails "20240101".toList "/etc/network/".toList
        "interfaces".toList { ex_backup with default_path := "/etc/network/".toList }
        ex_world_fresh).map (fun r => (r.state, r.backup.complete))
      = some (NSYNC_OVERWRITE, true)
    ∧ (centos_backup_files (fun _ => -1) "20240101".toList ex_cfg_loc "eth0".toList ex_backup
        ex_world_fresh).map (fun r => r.state)
      = some NSYNC_ERROR
    ∧ (∀ (check_OS : backup_world_t → nsync_state_t × backup_world_t)
        (sf : state_func_t backup_world_t) (info : backup_world_t),
        driver_step check_OS sf NSYNC_BACKUP info
            = driver_turn.next (sf.backup info).1 (sf.backup info).2
          ∧ driver_step check_OS sf NSYNC_OVERWRITE info
            = driver_turn.next (sf.overwrite info).1 (sf.overwrite info).2) := by
  refine ⟨by decide, by decide, by decide, by decide, fun _ _ _ => ⟨rfl, rfl⟩⟩

/-- C23 (defect of the code). When the command of `ubuntu_cleanup_and_free` cannot be run,
the function returns `NSYNC_ERROR`; the driver, in the state `NSYNC_DONE`, calls it and
returns 0 whatever state it gets back. A state function that returns `NSYNC_ERROR` in any
other state makes the driver return -1 in its next turn. -/
theorem C23_driver_returns_zero_after_failed_cleanup
    (check_OS : backup_world_t → nsync_state_t × backup_world_t)
    (sf : state_func_t backup_world_t) (w : backup_world_t) :
    (ubuntu_cleanup_and_free (fun _ => -1) "/etc/network/".toList "interfaces".toList w).1
      = NSYNC_ERROR
    ∧ driver check_OS
        { sf with done := ubuntu_cleanup_and_free (fun _ => -1) "/etc/network/".toList
                    "interfaces".toList }
        1 NSYNC_DONE w
      = some (0, (ubuntu_cleanup_and_free (fun _ => -1) "/etc/network/".toList
          "interfaces".toList w).2)
    ∧ driver check_OS sf 1 NSYNC_ERROR w = some (-1, w) := by
  refine ⟨rfl, rfl, rfl⟩

/-- C24 (defect of the code). On a Debian host without interfaces file,
`ubuntu_parse_persist_routes` returns `NULL` and `ubuntu_get_config` returns `NSYNC_ERROR`,
whatever the other parsers return: it never returns `NSYNC_GET_UNSYNCED`. On a RHEL host
without any ifcfg or route file, where the commands give an interface list, a route list
and a record (or `NULL`) for each interface, `centos_get_config` returns
`NSYNC_GET_UNSYNCED`. -/
theorem C24_ubuntu_get_config_needs_interfaces_file :
    ubuntu_get_config (some ex_if_data) (some []) none none = some NSYNC_ERROR
    ∧ (∀ (active_ifs : Option if_data_t) (active_routes : Option (List CStr))
        (persist_ifs : Option if_data_t),
        ubuntu_get_config active_ifs active_routes none persist_ifs = some NSYNC_ERROR
          ∨ ubuntu_get_config active_ifs active_routes none persist_ifs = none)
    ∧ (∀ (ilp : if_list_parsed_t) (rp : routes_parsed_t)
        (active : CStr → Option ip_show_fields_t),
        centos_get_config (some ilp) (some rp) (fun _ => none) (fun _ => none)
            (fun name =>
              match active name with
              | some a => parse_ptr.ptr a
              | none => parse_ptr.null)
          = NSYNC_GET_UNSYNCED) := by
  refine ⟨by decide, ?_, ?_⟩
  · intro active_ifs active_routes persist_ifs
    cases active_ifs with
    | none => exact Or.inl rfl
    | some ifs =>
      cases active_routes with
      | none => exact Or.inl rfl
      | some routes =>
        cases h : map_routes_to_if ifs routes with
        | none => right; simp [ubuntu_get_config, h]
        | some m => left; simp [ubuntu_get_config, h, ubuntu_parse_persist_routes]
  · intro ilp rp active
    have h1 : ilp.if_list.any
        (fun name => (centos_parse_ifcfg ((fun _ => none) name)).is_fatal) = false := by
      simp [centos_parse_ifcfg, parse_ptr.is_fatal]
    have h2 : ilp.if_list.any
        (fun name => (centos_parse_route_cfg ((fun _ => none) name)).is_fatal) = false := by
      simp [centos_parse_route_cfg, parse_ptr.is_fatal]
    have h3 : ilp.if_list.any
        (fun name => (match active name with
          | some a => parse_ptr.ptr a
          | none => parse_ptr.null : parse_ptr ip_show_fields_t).is_fatal) = false := by
      rw [List.any_eq_false]
      intro name _
      cases active name <;> simp [parse_ptr.is_fatal]
    simp only [centos_get_config, h1, h2, h3, Bool.false_eq_true, if_false]

/-! ## Lemmas on the mapping of routes -/

theorem foldl_append_filter {α : Type} (p : α → Prop) [DecidablePred p] (l acc : List α) :
    l.foldl (fun mapped x => if p x then mapped else mapped ++ [x]) acc
      = acc ++ l.filter (fun x => decide (¬ p x)) := by
  induction l generalizing acc with
  | nil => simp
  | cons x xs ih =>
    by_cases hx : p x
    · simp [List.foldl_cons, hx, ih]
    · simp [List.foldl_cons, hx, ih]

theorem starts_with_iff (key l : CStr) :
    key.isPrefixOf l = true ↔ ∃ rest, l = key ++ rest := by
  induction key generalizing l with
  | nil => simp [List.isPrefixOf]
  | cons k ks ih =>
    cases l with
    | nil => simp [List.isPrefixOf]
    | cons c cs =>
      simp only [List.isPrefixOf, Bool.and_eq_true, beq_iff_eq, ih, List.cons_append,
        List.cons.injEq]
      constructor
      · rintro ⟨h1, rest, h2⟩
        exact ⟨rest, h1.symm, h2⟩
      · rintro ⟨rest, h1, h2⟩
        exact ⟨h1.symm, rest, h2⟩

theorem strstr_isSome_iff (route name : CStr) :
    (strstr route name).isSome = true ↔ ∃ pre post, route = pre ++ name ++ post := by
  induction route with
  | nil =>
    by_cases hn : name = []
    · subst hn
      simp [strstr]
    · simp [strstr, hn]
  | cons c rest ih =>
    by_cases hp : name.isPrefixOf (c :: rest) = true
    · simp only [strstr, hp, if_true, Option.isSome_some, true_iff]
      obtain ⟨t, ht⟩ := (starts_with_iff name (c :: rest)).mp hp
      exact ⟨[], t, by simpa using ht⟩
    · simp only [strstr, hp, Bool.false_eq_true, if_false, ih]
      constructor
      · rintro ⟨pre, post, h⟩
        exact ⟨c :: pre, post, by simp [h]⟩
      · rintro ⟨pre, post, h⟩
        cases pre with
        | nil =>
          exact absurd ((starts_with_iff name (c :: rest)).mpr ⟨post, by simpa using h⟩) hp
        | cons d pre2 =>
          simp only [List.cons_append, List.cons.injEq] at h
          exact ⟨pre2, post, h.2⟩

theorem map_routes_one_eq (route_list : List CStr) (name : CStr) :
    map_routes_one route_list name
      = route_list.filter (fun route => (strstr route name).isSome) := by
  unfold map_routes_one
  rw [foldl_append_filter (fun route => strstr route name = none)]
  simp only [List.nil_append]
  congr 1
  funext route
  cases strstr route name <;> simp

/-- C27. For every route list and interface list, the list that `centos_map_routes_to_if`
attaches to an interface is the list of the routes, in their original order, in which
`strstr` finds the name of the interface; and `strstr` finds a name in a route exactly when
the route is some text, the name, and some text. A route that holds several names is thus
attached to each of them. -/
theorem C27_centos_map_routes_by_substring (rp : routes_parsed_t) (ilp : if_list_parsed_t) :
    centos_map_routes_to_if rp ilp
        = ilp.if_list.map
            (fun name => ⟨rp.route_list.filter (fun route => (strstr route name).isSome)⟩)
    ∧ ∀ route name : CStr,
        (strstr route name).isSome = true ↔ ∃ pre post, route = pre ++ name ++ post := by
  refine ⟨?_, strstr_isSome_iff⟩
  unfold centos_map_routes_to_if
  apply List.map_congr_left
  intro name _
  unfold centos_map_routes_one
  rw [foldl_append_filter (fun route => strstr route name = none)]
  simp only [List.nil_append]
  congr 2
  funext route
  cases strstr route name <;> simp

/-- C28 (counterexample). An interface configured by DHCP is given no route by
`map_routes_to_if`, although the route holds its name. -/
theorem C28_counterexample_dhcp_interface_gets_no_route :
    map_routes_to_if ⟨["eth0".toList], [ex_eth0_dhcp]⟩ ["default via 10.0.2.2 dev eth0".toList]
      = some ⟨["eth0".toList], [{ ex_eth0_dhcp with mapped_routes := [] }]⟩ := by
  decide

/-- C28 (amended). For every route list and every interface list whose link types are all
present (with as many names as interfaces), `map_routes_to_if` attaches to an interface
whose link type does not start with `dhcp` the routes, in their original order, in which
`strstr` finds the name of the interface, and to an interface whose link type starts with
`dhcp` no route at all. -/
theorem C28_ubuntu_map_routes_by_substring (sys_ifs : if_data_t) (route_list : List CStr)
    (hlen : sys_ifs.if_name_list.length = sys_ifs.interfaces.length)
    (hlink : ∀ iface ∈ sys_ifs.interfaces, iface.linktype ≠ none) :
    map_routes_to_if sys_ifs route_list
      = some { sys_ifs with
          interfaces := List.zipWith
            (fun iface name =>
              { iface with
                mapped_routes :=
                  if strncmp_eq (iface.linktype.getD []) "dhcp".toList 4 then []
                  else route_list.filter (fun route => (strstr route name).isSome) })
            sys_ifs.interfaces sys_ifs.if_name_list } := by
  have key : ∀ (ifs : List interface_t) (names : List CStr), names.length = ifs.length →
      (∀ iface ∈ ifs, iface.linktype ≠ none) →
      map_routes_loop route_list ifs names
        = some (List.zipWith
            (fun iface name =>
              { iface with
                mapped_routes :=
                  if strncmp_eq (iface.linktype.getD []) "dhcp".toList 4 then []
                  else route_list.filter (fun route => (strstr route name).isSome) })
            ifs names) := by
    intro ifs
    induction ifs with
    | nil => intro names _ _; rfl
    | cons iface rest ih =>
      intro names hl hall
      cases names with
      | nil => simp at hl
      | cons name names2 =>
        have hrest := ih names2 (by simpa using hl)
          (fun x hx => hall x (List.mem_cons_of_mem iface hx))
        cases hlt : iface.linktype with
        | none => exact absurd hlt (hall iface (List.mem_cons_self iface rest))
        | some lt =>
          simp only [map_routes_loop, hlt, List.tail_cons, hrest, List.headD_cons,
            map_routes_one_eq, List.zipWith_cons_cons, Option.getD_some]
          split <;> rfl
  simp only [map_routes_to_if, key _ _ hlen hlink, Option.map_some']

/-- C28 (amended), at an instance: the loopback and a static interface with one route. -/
theorem C28_ubuntu_map_routes_by_substring_witness :
    map_routes_to_if ex_if_data ["10.1.0.0/16 via 10.0.0.1 dev eth0".toList]
      = some { ex_if_data with
          interfaces := List.zipWith
            (fun iface name =>
              { iface with
                mapped_routes :=
                  if strncmp_eq (iface.linktype.getD []) "dhcp".toList 4 then []
                  else ["10.1.0.0/16 via 10.0.0.1 dev eth0".toList].filter
                    (fun route => (strstr route name).isSome) })
            ex_if_data.interfaces ex_if_data.if_name_list } :=
  C28_ubuntu_map_routes_by_substring ex_if_data ["10.1.0.0/16 via 10.0.0.1 dev eth0".toList]
    (by decide) (by decide)

/-! ## Lemmas on the selection of the next interface -/

theorem get_unsynced_loop_spec (synced : List Bool) (turns i : Nat) :
    i ≤ get_unsynced_loop synced turns i
    ∧ get_unsynced_loop synced turns i ≤ i + turns
    ∧ (∀ j, i ≤ j → j < get_unsynced_loop synced turns i → synced.getD j false = true)
    ∧ (get_unsynced_loop synced turns i < i + turns →
        synced.getD (get_unsynced_loop synced turns i) false = false) := by
  induction turns generalizing i with
  | zero => exact ⟨Nat.le_refl i, Nat.le_refl i, fun j h1 h2 => by
      simp only [get_unsynced_loop] at h2; omega, fun h => by
      simp only [get_unsynced_loop] at h; omega⟩
  | succ k ih =>
    by_cases hi : synced.getD i false = false
    · rw [get_unsynced_loop, if_pos hi]
      exact ⟨Nat.le_refl i, by omega, fun j h1 h2 => by omega, fun _ => hi⟩
    · rw [get_unsynced_loop, if_neg hi]
      obtain ⟨h1, h2, h3, h4⟩ := ih (i + 1)
      refine ⟨by omega, by omega, ?_, fun h => h4 (by omega)⟩
      intro j hj1 hj2
      rcases Nat.eq_or_lt_of_le hj1 with heq | hlt
      · rw [← heq]; simpa using hi
      · exact h3 j (by omega) hj2

/-- C25. For every array of flags and every number `n` of interfaces that the array has room
for, `centos_get_unsynced` and `ubuntu_get_unsynced` do the same: they leave the flags and
the number as they are, they return `NSYNC_DONE` exactly when the flags 0 to n-1 are all
true, and otherwise they return `NSYNC_CHECK_EXIST` with `next_to_sync` set to the smallest
index below `n` whose flag is false. -/
theorem C25_get_unsynced_selects_first {τ : Type} (info : sync_info_t τ)
    (hn : info.num_if ≤ info.synced.length) :
    ubuntu_get_unsynced info = centos_get_unsynced info
    ∧ (centos_get_unsynced info).2.synced = info.synced
    ∧ (centos_get_unsynced info).2.num_if = info.num_if
    ∧ ((centos_get_unsynced info).1 = NSYNC_DONE
        ↔ ∀ i, i < info.num_if → info.synced[i]? = some true)
    ∧ ((centos_get_unsynced info).1 = NSYNC_DONE
      ∨ ((centos_get_unsynced info).1 = NSYNC_CHECK_EXIST
        ∧ (centos_get_unsynced info).2.next_to_sync < info.num_if
        ∧ info.synced[(centos_get_unsynced info).2.next_to_sync]? = some false
        ∧ ∀ j, j < (centos_get_unsynced info).2.next_to_sync →
            info.synced[j]? = some true)) := by
  obtain ⟨_, h2, h3, h4⟩ := get_unsynced_loop_spec info.synced info.num_if 0
  have hget : ∀ (j : Nat) (b : Bool), j < info.num_if → info.synced.getD j false = b →
      info.synced[j]? = some b := by
    intro j b hj hb
    have hlt : j < info.synced.length := by omega
    rw [List.getD_eq_getElem?_getD, List.getElem?_eq_getElem hlt] at hb
    rw [List.getElem?_eq_getElem hlt]
    simpa using hb
  by_cases hdone : get_unsynced_loop info.synced info.num_if 0 = info.num_if
  · have hstate : centos_get_unsynced info = (NSYNC_DONE, info) := by
      simp [centos_get_unsynced, hdone]
    refine ⟨by simp [ubuntu_get_unsynced, centos_get_unsynced], by rw [hstate],
      by rw [hstate], ?_, Or.inl (by rw [hstate])⟩
    rw [hstate]
    simp only [true_iff]
    intro i hi
    exact hget i true hi (h3 i (Nat.zero_le i) (by omega))
  · have hstate : centos_get_unsynced info
        = (NSYNC_CHECK_EXIST,
            { info with next_to_sync := get_unsynced_loop info.synced info.num_if 0 }) := by
      simp [centos_get_unsynced, hdone]
    have hlt : get_unsynced_loop info.synced info.num_if 0 < info.num_if := by omega
    have hfalse := hget _ false hlt (h4 (by omega))
    refine ⟨by simp [ubuntu_get_unsynced, centos_get_unsynced], by rw [hstate],
      by rw [hstate], ?_, Or.inr ?_⟩
    · rw [hstate]
      simp only [reduceCtorEq, false_iff, not_forall]
      exact ⟨_, hlt, by rw [hfalse]; simp⟩
    · rw [hstate]
      exact ⟨rfl, hlt, hfalse, fun j hj =>
        have hj2 : j < get_unsynced_loop info.synced info.num_if 0 := hj
        hget j true (by omega) (h3 j (Nat.zero_le j) hj2)⟩

/-- C25, at an instance: of three interfaces the first is synced; the second is selected. -/
theorem C25_get_unsynced_selects_first_witness :
    ubuntu_get_unsynced ex_sync_info = centos_get_unsynced ex_sync_info
    ∧ (centos_get_unsynced ex_sync_info).2.synced = ex_sync_info.synced
    ∧ (centos_get_unsynced ex_sync_info).2.num_if = ex_sync_info.num_if
    ∧ ((centos_get_unsynced ex_sync_info).1 = NSYNC_DONE
        ↔ ∀ i, i < ex_sync_info.num_if → ex_sync_info.synced[i]? = some true)
    ∧ ((centos_get_unsynced ex_sync_info).1 = NSYNC_DONE
      ∨ ((centos_get_unsynced ex_sync_info).1 = NSYNC_CHECK_EXIST
        ∧ (centos_get_unsynced ex_sync_info).2.next_to_sync < ex_sync_info.num_if
        ∧ ex_sync_info.synced[(centos_get_unsynced ex_sync_info).2.next_to_sync]? = some false
        ∧ ∀ j, j < (centos_get_unsynced ex_sync_info).2.next_to_sync →
            ex_sync_info.synced[j]? = some true)) :=
  C25_get_unsynced_selects_first ex_sync_info (by decide)

/-! ## Lemmas on the loop over the interfaces -/

theorem driver_mono {σ : Type} (check_OS : σ → nsync_state_t × σ) (sf : state_func_t σ)
    (k m : Nat) (st : nsync_state_t) (info : σ) (r : Int × σ)
    (h : driver check_OS sf k st info = some r) :
    driver check_OS sf (k + m) st info = some r := by
  induction k generalizing st info with
  | zero => simp [driver] at h
  | succ k ih =>
    rw [show k + 1 + m = (k + m) + 1 by omega]
    cases hstep : driver_step check_OS sf st info with
    | ret value info2 =>
      simp only [driver, hstep] at h ⊢
      exact h
    | next state2 info2 =>
      simp only [driver, hstep] at h ⊢
      exact ih state2 info2 h

theorem unsynced_count_set (synced : List Bool) (i n : Nat) (hi : i < n)
    (hf : synced[i]? = some false) :
    unsynced_count (synced.set i true) n + 1 = unsynced_count synced n := by
  unfold unsynced_count
  induction synced generalizing i n with
  | nil => simp at hf
  | cons b bs ih =>
    cases n with
    | zero => omega
    | succ m =>
      cases i with
      | zero =>
        have hb : b = false := by simpa using hf
        subst hb
        simp [List.set, List.take, List.count_cons]
      | succ j =>
        have := ih j m (by omega) (by simpa using hf)
        simp only [List.set, List.take, List.count_cons]
        omega

theorem unsynced_count_le (synced : List Bool) (n : Nat) : unsynced_count synced n ≤ n := by
  unfold unsynced_count
  have h1 := List.count_le_length false (synced.take n)
  have h2 : (synced.take n).length ≤ n := by simp
  omega

theorem pass_ends_mono {τ : Type} (check_OS : sync_info_t τ → nsync_state_t × sync_info_t τ)
    (sf : state_func_t (sync_info_t τ)) (synced : List Bool) (i n j j2 : Nat)
    (st : nsync_state_t) (x : sync_info_t τ) (hj : j ≤ j2)
    (h : pass_ends check_OS sf synced i n j st x) : pass_ends check_OS sf synced i n j2 st x := by
  obtain ⟨k, hk, rest⟩ := h
  exact ⟨k, Nat.le_trans hk hj, rest⟩

theorem pass_ends_error {τ : Type} (check_OS : sync_info_t τ → nsync_state_t × sync_info_t τ)
    (sf : state_func_t (sync_info_t τ)) (synced : List Bool) (i n : Nat) (x : sync_info_t τ) :
    pass_ends check_OS sf synced i n 1 NSYNC_ERROR x :=
  ⟨1, Nat.le_refl 1, x, Or.inl (fun _ => rfl)⟩

theorem pass_ends_step {τ : Type} (check_OS : sync_info_t τ → nsync_state_t × sync_info_t τ)
    (sf : state_func_t (sync_info_t τ)) (synced : List Bool) (i n j : Nat)
    (st st2 : nsync_state_t) (x x2 : sync_info_t τ)
    (hstep : driver_step check_OS sf st x = driver_turn.next st2 x2)
    (h : pass_ends check_OS sf synced i n j st2 x2) :
    pass_ends check_OS sf synced i n (j + 1) st x := by
  obtain ⟨k, hk, info2, h2⟩ := h
  have hd : ∀ fuel, driver check_OS sf (fuel + (k + 1)) st x
      = driver check_OS sf (fuel + k) st2 x2 := by
    intro fuel
    rw [show fuel + (k + 1) = (fuel + k) + 1 by omega]
    simp only [driver, hstep]
  refine ⟨k + 1, by omega, info2, ?_⟩
  rcases h2 with h2 | ⟨h3, h4, h5⟩
  · exact Or.inl (fun fuel => by rw [hd, h2])
  · exact Or.inr ⟨h3, h4, fun fuel => by rw [hd, h5]⟩


theorem pass_ends_call {τ : Type} (check_OS : sync_info_t τ → nsync_state_t × sync_info_t τ)
    (sf : state_func_t (sync_info_t τ)) (synced : List Bool) (i n j : Nat)
    (st : nsync_state_t) (f : sync_info_t τ → nsync_state_t × sync_info_t τ)
    (states : List nsync_state_t) (hf : step_returns f states)
    (hcall : ∀ x, driver_step check_OS sf st x = driver_turn.next (f x).1 (f x).2)
    (hnext : ∀ s ∈ states, ∀ y : sync_info_t τ,
      y.synced = synced → y.next_to_sync = i → y.num_if = n →
      pass_ends check_OS sf synced i n j s y)
    (x : sync_info_t τ) (h1 : x.synced = synced) (h2 : x.next_to_sync = i) (h3 : x.num_if = n) :
    pass_ends check_OS sf synced i n (j + 1) st x := by
  obtain ⟨hm, g1, g2, g3⟩ := hf x
  exact pass_ends_step check_OS sf synced i n j st _ x _ (hcall x)
    (hnext _ hm _ (by rw [g1, h1]) (by rw [g2, h2]) (by rw [g3, h3]))

theorem pass_ends_selected {τ : Type}
    (check_OS : sync_info_t τ → nsync_state_t × sync_info_t τ)
    (sf : state_func_t (sync_info_t τ)) (hsf : reconciliation_table sf) (synced : List Bool)
    (i n : Nat) (x : sync_info_t τ) (h1 : x.synced = synced) (h2 : x.next_to_sync = i)
    (h3 : x.num_if = n) :
    pass_ends check_OS sf synced i n 5 NSYNC_CHECK_EXIST x := by
  obtain ⟨_, hmark, hce, hcc, hbk, how, hcw, hke⟩ := hsf
  have herr : ∀ (j : Nat) (y : sync_info_t τ), 1 ≤ j →
      pass_ends check_OS sf synced i n j NSYNC_ERROR y := fun j y hj =>
    pass_ends_mono check_OS sf synced i n 1 j _ y hj (pass_ends_error check_OS sf synced i n y)
  have hsynced : ∀ y : sync_info_t τ, y.synced = synced → y.next_to_sync = i → y.num_if = n →
      pass_ends check_OS sf synced i n 1 NSYNC_IF_SYNCED y := by
    intro y g1 g2 g3
    rcases hmark with hm | hm
    · refine ⟨1, Nat.le_refl 1, (centos_mark_synced y).2, Or.inr ⟨?_, ?_, fun fuel => ?_⟩⟩
      · simp [centos_mark_synced, g1, g2]
      · simp [centos_mark_synced, g3]
      · simp only [driver, driver_step, hm]
        rfl
    · refine ⟨1, Nat.le_refl 1, (ubuntu_mark_synced y).2, Or.inr ⟨?_, ?_, fun fuel => ?_⟩⟩
      · simp [ubuntu_mark_synced, g1, g2]
      · simp [ubuntu_mark_synced, g3]
      · simp only [driver, driver_step, hm]
        rfl
  have two : ∀ s ∈ [NSYNC_IF_SYNCED, NSYNC_ERROR], ∀ y : sync_info_t τ,
      y.synced = synced → y.next_to_sync = i → y.num_if = n →
      pass_ends check_OS sf synced i n 1 s y := by
    intro s hs y g1 g2 g3
    simp only [List.mem_cons, List.mem_singleton, List.not_mem_nil, or_false] at hs
    rcases hs with hs | hs <;> subst hs
    · exact hsynced y g1 g2 g3
    · exact herr 1 y (Nat.le_refl 1)
  have hover := pass_ends_call check_OS sf synced i n 1 NSYNC_OVERWRITE sf.overwrite _ how
    (fun _ => rfl) two
  have hcreate := pass_ends_call check_OS sf synced i n 1 NSYNC_CREATE_WRITE sf.create_write _
    hcw (fun _ => rfl) two
  have hkeep := pass_ends_call check_OS sf synced i n 1 NSYNC_KEEP_EXISTING sf.keep_existing _
    hke (fun _ => rfl) two
  have hbackup := pass_ends_call check_OS sf synced i n 2 NSYNC_BACKUP sf.backup _ hbk
    (fun _ => rfl) (by
      intro s hs y g1 g2 g3
      simp only [List.mem_cons, List.mem_singleton, List.not_mem_nil, or_false] at hs
      rcases hs with hs | hs <;> subst hs
      · exact hover y g1 g2 g3
      · exact herr 2 y (by omega))
  have hcompare := pass_ends_call check_OS sf synced i n 3 NSYNC_COMPARE_CONFIG
    sf.compare_config _ hcc (fun _ => rfl) (by
      intro s hs y g1 g2 g3
      simp only [List.mem_cons, List.mem_singleton, List.not_mem_nil, or_false] at hs
      rcases hs with hs | hs | hs <;> subst hs
      · exact pass_ends_mono check_OS sf synced i n 2 3 _ y (by omega) (hkeep y g1 g2 g3)
      · exact hbackup y g1 g2 g3
      · exact herr 3 y (by omega))
  exact pass_ends_call check_OS sf synced i n 4 NSYNC_CHECK_EXIST sf.check_exist _ hce
    (fun _ => rfl) (by
      intro s hs y g1 g2 g3
      simp only [List.mem_cons, List.mem_singleton, List.not_mem_nil, or_false] at hs
      rcases hs with hs | hs | hs <;> subst hs
      · exact hcompare y g1 g2 g3
      · exact pass_ends_mono check_OS sf synced i n 2 4 _ y (by omega) (hcreate y g1 g2 g3)
      · exact herr 4 y (by omega)) x h1 h2 h3

theorem get_unsynced_cases (synced : List Bool) (n : Nat) (hn : n ≤ synced.length) :
    get_unsynced_loop synced n 0 = n
    ∨ (get_unsynced_loop synced n 0 < n
      ∧ synced[get_unsynced_loop synced n 0]? = some false) := by
  obtain ⟨_, h2, _, h4⟩ := get_unsynced_loop_spec synced n 0
  by_cases hdone : get_unsynced_loop synced n 0 = n
  · exact Or.inl hdone
  · right
    have hlt : get_unsynced_loop synced n 0 < n := by omega
    have hb := h4 (by omega)
    have hlen : get_unsynced_loop synced n 0 < synced.length := by omega
    rw [List.getD_eq_getElem?_getD, List.getElem?_eq_getElem hlen] at hb
    rw [List.getElem?_eq_getElem hlen]
    exact ⟨hlt, by simpa using hb⟩

theorem pass_ends_from_selection {τ : Type}
    (check_OS : sync_info_t τ → nsync_state_t × sync_info_t τ)
    (sf : state_func_t (sync_info_t τ)) (hsf : reconciliation_table sf) (info : sync_info_t τ)
    (hlt : get_unsynced_loop info.synced info.num_if 0 < info.num_if) :
    pass_ends check_OS sf info.synced (get_unsynced_loop info.synced info.num_if 0) info.num_if
      6 NSYNC_GET_UNSYNCED info := by
  have hsel : sf.get_unsynced info
      = (NSYNC_CHECK_EXIST,
          { info with next_to_sync := get_unsynced_loop info.synced info.num_if 0 }) := by
    have hne : get_unsynced_loop info.synced info.num_if 0 ≠ info.num_if := by omega
    rcases hsf.1 with h | h <;> rw [h]
    · simp [centos_get_unsynced, hne]
    · simp [ubuntu_get_unsynced, hne]
  apply pass_ends_step check_OS sf info.synced _ info.num_if 5 NSYNC_GET_UNSYNCED
    NSYNC_CHECK_EXIST info
    { info with next_to_sync := get_unsynced_loop info.synced info.num_if 0 }
  · simp only [driver_step, hsel]
  · exact pass_ends_selected check_OS sf hsf info.synced _ info.num_if _ rfl rfl rfl

/-- C26. For a table of state functions as both dialects have it, whatever the steps on an
interface do and return within the states of their `return` statements, and for every
number of interfaces that the array of flags has room for: from `NSYNC_GET_UNSYNCED` the
driver returns (0 after `NSYNC_DONE`, or -1 after `NSYNC_ERROR`) within six turns for each
unsynced interface and two more, in particular when all flags are false at the start. And
unless every interface is synced, the pass over the selected interface ends within six
turns, either with the return value -1 or back in `NSYNC_GET_UNSYNCED` with the flag of the
selected interface set and no other flag changed, which leaves one unsynced interface
less. -/
theorem C26_reconciliation_terminates {τ : Type}
    (check_OS : sync_info_t τ → nsync_state_t × sync_info_t τ)
    (sf : state_func_t (sync_info_t τ)) (hsf : reconciliation_table sf) (info : sync_info_t τ)
    (hn : info.num_if ≤ info.synced.length) :
    (∃ value info2,
      driver check_OS sf (6 * unsynced_count info.synced info.num_if + 2) NSYNC_GET_UNSYNCED
          info = some (value, info2)
      ∧ (value = 0 ∨ value = -1))
    ∧ ((centos_get_unsynced info).1 = NSYNC_DONE
      ∨ (pass_ends check_OS sf info.synced (centos_get_unsynced info).2.next_to_sync
            info.num_if 6 NSYNC_GET_UNSYNCED info
        ∧ unsynced_count (info.synced.set (centos_get_unsynced info).2.next_to_sync true)
            info.num_if + 1
          = unsynced_count info.synced info.num_if)) := by
  have key : ∀ (u : Nat) (x : sync_info_t τ), x.num_if ≤ x.synced.length →
      unsynced_count x.synced x.num_if ≤ u →
      ∃ value info2,
        driver check_OS sf (6 * u + 2) NSYNC_GET_UNSYNCED x = some (value, info2)
        ∧ (value = 0 ∨ value = -1) := by
    intro u
    induction u with
    | zero =>
      intro x hx hc
      rcases get_unsynced_cases x.synced x.num_if hx with hdone | ⟨hlt, hfalse⟩
      · have hsel : sf.get_unsynced x = (NSYNC_DONE, x) := by
          rcases hsf.1 with h | h <;> rw [h]
          · simp [centos_get_unsynced, hdone]
          · simp [ubuntu_get_unsynced, hdone]
        exact ⟨0, (sf.done x).2, by simp [driver, driver_step, hsel], Or.inl rfl⟩
      · have := unsynced_count_set x.synced _ x.num_if hlt hfalse
        omega
    | succ u ih =>
      intro x hx hc
      rcases get_unsynced_cases x.synced x.num_if hx with hdone | ⟨hlt, hfalse⟩
      · have hsel : sf.get_unsynced x = (NSYNC_DONE, x) := by
          rcases hsf.1 with h | h <;> rw [h]
          · simp [centos_get_unsynced, hdone]
          · simp [ubuntu_get_unsynced, hdone]
        have h2 : driver check_OS sf 2 NSYNC_GET_UNSYNCED x = some (0, (sf.done x).2) := by
          simp [driver, driver_step, hsel]
        have := driver_mono check_OS sf 2 (6 * (u + 1)) _ _ _ h2
        exact ⟨0, (sf.done x).2, by rw [show 6 * (u + 1) + 2 = 2 + 6 * (u + 1) by omega]; exact this,
          Or.inl rfl⟩
      · have hcount := unsynced_count_set x.synced _ x.num_if hlt hfalse
        obtain ⟨k, hk, info2, hpass⟩ := pass_ends_from_selection check_OS sf hsf x hlt
        rcases hpass with herr | ⟨g1, g2, g3⟩
        · refine ⟨-1, info2, ?_, Or.inr rfl⟩
          have := herr (6 * (u + 1) + 2 - k)
          rw [show 6 * (u + 1) + 2 - k + k = 6 * (u + 1) + 2 by omega] at this
          exact this
        · obtain ⟨value, info3, hrun, hval⟩ := ih info2
            (by rw [g1, g2, List.length_set]; exact hx)
            (by rw [g1, g2]; omega)
          refine ⟨value, info3, ?_, hval⟩
          have h1 := g3 (6 * (u + 1) + 2 - k)
          rw [show 6 * (u + 1) + 2 - k + k = 6 * (u + 1) + 2 by omega] at h1
          rw [h1]
          have h2 := driver_mono check_OS sf (6 * u + 2) (6 - k) _ _ _ hrun
          rw [show 6 * u + 2 + (6 - k) = 6 * (u + 1) + 2 - k by omega] at h2
          exact h2
  refine ⟨key _ info hn (Nat.le_refl _), ?_⟩
  rcases get_unsynced_cases info.synced info.num_if hn with hdone | ⟨hlt, hfalse⟩
  · left
    simp [centos_get_unsynced, hdone]
  · right
    have hne : get_unsynced_loop info.synced info.num_if 0 ≠ info.num_if := by omega
    have hnext : (centos_get_unsynced info).2.next_to_sync
        = get_unsynced_loop info.synced info.num_if 0 := by
      simp [centos_get_unsynced, hne]
    rw [hnext]
    exact ⟨pass_ends_from_selection check_OS sf hsf info hlt,
      unsynced_count_set info.synced _ info.num_if hlt hfalse⟩

/-- C26, at an instance: three interfaces of which the first is synced, every step
succeeding. -/
theorem C26_reconciliation_terminates_witness :
    reconciliation_table ex_table
    ∧ (∃ value info2,
      driver (fun info => (NSYNC_GET_CONFIG, info)) ex_table
          (6 * unsynced_count ex_sync_info.synced ex_sync_info.num_if + 2) NSYNC_GET_UNSYNCED
          ex_sync_info = some (value, info2)
      ∧ (value = 0 ∨ value = -1))
    ∧ ((centos_get_unsynced ex_sync_info).1 = NSYNC_DONE
      ∨ (pass_ends (fun info => (NSYNC_GET_CONFIG, info)) ex_table ex_sync_info.synced
            (centos_get_unsynced ex_sync_info).2.next_to_sync ex_sync_info.num_if 6
            NSYNC_GET_UNSYNCED ex_sync_info
        ∧ unsynced_count
            (ex_sync_info.synced.set (centos_get_unsynced ex_sync_info).2.next_to_sync true)
            ex_sync_info.num_if + 1
          = unsynced_count ex_sync_info.synced ex_sync_info.num_if)) :=
  have htable : reconciliation_table ex_table :=
    ⟨Or.inl rfl, Or.inl rfl,
      fun _ => ⟨by simp [ex_table], rfl, rfl, rfl⟩, fun _ => ⟨by simp [ex_table], rfl, rfl, rfl⟩,
      fun _ => ⟨by simp [ex_table], rfl, rfl, rfl⟩, fun _ => ⟨by simp [ex_table], rfl, rfl, rfl⟩,
      fun _ => ⟨by simp [ex_table], rfl, rfl, rfl⟩, fun _ => ⟨by simp [ex_table], rfl, rfl, rfl⟩⟩
  ⟨htable,
    C26_reconciliation_terminates (fun info => (NSYNC_GET_CONFIG, info)) ex_table htable
      ex_sync_info (by decide)⟩

/-! ## Lemmas on trimming and on the parsers of the active state -/

theorem dropWhile_spec (p : Char → Bool) (l : CStr) :
    (∃ pre, l = pre ++ l.dropWhile p ∧ ∀ c ∈ pre, p c = true)
    ∧ (∀ c, (l.dropWhile p).head? = some c → p c = false) := by
  induction l with
  | nil => exact ⟨⟨[], rfl, by simp⟩, by simp⟩
  | cons x xs ih =>
    by_cases hx : p x = true
    · obtain ⟨⟨pre, h1, h2⟩, h3⟩ := ih
      refine ⟨⟨x :: pre, ?_, ?_⟩, ?_⟩
      · simp only [List.dropWhile_cons, hx, if_true, List.cons_append]
        rw [← h1]
      · intro c hc
        rcases List.mem_cons.mp hc with h | h
        · rw [h]; exact hx
        · exact h2 c h
      · simpa only [List.dropWhile_cons, hx, if_true] using h3
    · refine ⟨⟨[], by simp [List.dropWhile_cons, hx], by simp⟩, ?_⟩
      intro c hc
      simp only [List.dropWhile_cons, hx, Bool.false_eq_true, if_false, List.head?_cons,
        Option.some.injEq] at hc
      rw [← hc]
      simpa using hx

theorem trim_spec (l seps : CStr) :
    ∃ pre post, l = pre ++ trim l seps ++ post
      ∧ (∀ c ∈ pre, c ∈ seps) ∧ (∀ c ∈ post, c ∈ seps)
      ∧ (∀ c, (trim l seps).head? = some c → c ∉ seps)
      ∧ (∀ c, (trim l seps).getLast? = some c → c ∉ seps) := by
  obtain ⟨⟨post_r, h1, h2⟩, h3⟩ := dropWhile_spec (fun c => decide (c ∈ seps)) l.reverse
  obtain ⟨⟨pre, h4, h5⟩, h6⟩ := dropWhile_spec (fun c => decide (c ∈ seps)) (rtrim l seps)
  have hl : l = rtrim l seps ++ post_r.reverse := by
    have := congrArg List.reverse h1
    rw [List.reverse_reverse, List.reverse_append] at this
    exact this
  have htrim : trim l seps = (rtrim l seps).dropWhile (fun c => decide (c ∈ seps)) := rfl
  refine ⟨pre, post_r.reverse, ?_, ?_, ?_, ?_, ?_⟩
  · rw [htrim, ← h4]
    exact hl
  · intro c hc
    simpa using h5 c hc
  · intro c hc
    simpa using h2 c (List.mem_reverse.mp hc)
  · intro c hc
    rw [htrim] at hc
    simpa using h6 c hc
  · intro c hc
    rw [htrim] at hc
    have hne : (rtrim l seps).dropWhile (fun c => decide (c ∈ seps)) ≠ [] := by
      intro h
      rw [h] at hc
      simp at hc
    have hlast : (rtrim l seps).getLast? = some c := by
      rw [h4, List.getLast?_append_of_ne_nil _ hne]
      exact hc
    have hhead : (l.reverse.dropWhile (fun c => decide (c ∈ seps))).head? = some c := by
      have : rtrim l seps = (l.reverse.dropWhile (fun c => decide (c ∈ seps))).reverse := rfl
      rw [this, List.getLast?_reverse] at hlast
      exact hlast
    simpa using h3 c hhead

theorem strstr_append_other (l name : CStr) (c : Char) (hc : c ∉ name) (hne : name ≠ []) :
    (strstr (l ++ [c]) name).isSome = (strstr l name).isSome := by
  rw [Bool.eq_iff_iff, strstr_isSome_iff, strstr_isSome_iff]
  constructor
  · rintro ⟨pre, post, h⟩
    rcases List.eq_nil_or_concat post with hp | ⟨post2, d, hp⟩
    · subst hp
      rcases List.eq_nil_or_concat name with hn | ⟨name2, d, hn⟩
      · exact absurd hn hne
      · rw [List.concat_eq_append] at hn
        rw [hn, List.append_nil, ← List.append_assoc] at h
        have := (List.append_inj' h rfl).2
        have hcd : c = d := by simpa using this
        exact absurd (by rw [hn, hcd]; simp) hc
    · rw [List.concat_eq_append] at hp
      rw [hp, ← List.append_assoc] at h
      exact ⟨pre, post2, (List.append_inj' h rfl).1⟩
  · rintro ⟨pre, post, h⟩
    exact ⟨pre, post ++ [c], by rw [h]; simp⟩

theorem foldl_append_filter_map {α β : Type} (p : α → Prop) [DecidablePred p] (f : α → β)
    (l : List α) (acc : List β) :
    l.foldl (fun out x => if p x then out else out ++ [f x]) acc
      = acc ++ (l.filter (fun x => decide (¬ p x))).map f := by
  induction l generalizing acc with
  | nil => simp
  | cons x xs ih =>
    by_cases hx : p x
    · simp [List.foldl_cons, hx, ih]
    · simp [List.foldl_cons, hx, ih]

/-- C29. For every route listing of at most `MAX_ROUTES` lines (newline-terminated, free of
NUL, fitting the line buffer), the entries of `centos_parse_routes` are, in order, the lines
in which `strstr` does not find `proto kernel`, each trimmed: the entry is what is left of
its line when a stretch of white space is taken from its start and from its end, and it has
no white space at either end. -/
theorem C29_centos_parse_routes_skips_kernel_routes (lines : List CStr)
    (hlines : output_lines_plain lines) (_hnum : lines.length ≤ MAX_ROUTES) :
    centos_parse_routes (some (unlines lines))
        = some ⟨(lines.filter (fun l => (strstr l "proto kernel".toList).isNone)).map
            (fun l => trim l default_seps)⟩
    ∧ ∀ l : CStr, ∃ pre post, l = pre ++ trim l default_seps ++ post
        ∧ (∀ c ∈ pre, c ∈ default_seps) ∧ (∀ c ∈ post, c ∈ default_seps)
        ∧ (∀ c, (trim l default_seps).head? = some c → c ∉ default_seps)
        ∧ (∀ c, (trim l default_seps).getLast? = some c → c ∉ default_seps) := by
  refine ⟨?_, fun l => trim_spec l default_seps⟩
  have hread := read_lines_unlines MAX_OUTPUT_LEN lines hlines
  have hfilter : (lines.map (fun l => l ++ ['\n'])).filter
        (fun route => decide (¬ strstr route "proto kernel".toList ≠ none))
      = (lines.filter (fun l => (strstr l "proto kernel".toList).isNone)).map
          (fun l => l ++ ['\n']) := by
    rw [List.filter_map]
    congr 1
    apply List.filter_congr
    intro l _
    have h : (strstr (l ++ ['\n']) "proto kernel".toList).isSome
        = (strstr l "proto kernel".toList).isSome :=
      strstr_append_other l "proto kernel".toList '\n' (by decide) (by decide)
    simp only [Function.comp]
    cases h1 : strstr (l ++ ['\n']) "proto kernel".toList <;>
      cases h2 : strstr l "proto kernel".toList <;> rw [h1, h2] at h <;> simp at h ⊢
  have hmap : ∀ ls : List CStr,
      (ls.map (fun l => l ++ ['\n'])).map (fun route => trim route default_seps)
        = ls.map (fun l => trim l default_seps) := by
    intro ls
    rw [List.map_map]
    apply List.map_congr_left
    intro l _
    have h1 := rtrim_append_sep l default_seps '\n' (by decide)
    simp only [Function.comp, trim, h1]
  simp only [centos_parse_routes, hread]
  rw [foldl_append_filter_map (fun route => strstr route "proto kernel".toList ≠ none)
    (fun route => trim route default_seps), hfilter, hmap, List.nil_append]

set_option maxRecDepth 10000 in
/-- C29, at an instance: a listing of three routes of which the second is made by the
kernel. -/
theorem C29_centos_parse_routes_skips_kernel_routes_witness :
    centos_parse_routes (some (unlines ex_route_listing))
        = some ⟨["default via 10.0.1.1 dev eth1".toList,
            "10.2.0.0/16 via 10.0.1.1 dev eth1".toList]⟩
    ∧ (centos_parse_routes (some (unlines ex_route_listing))
        = some ⟨(ex_route_listing.filter
            (fun l => (strstr l "proto kernel".toList).isNone)).map
            (fun l => trim l default_seps)⟩
      ∧ ∀ l : CStr, ∃ pre post, l = pre ++ trim l default_seps ++ post
        ∧ (∀ c ∈ pre, c ∈ default_seps) ∧ (∀ c ∈ post, c ∈ default_seps)
        ∧ (∀ c, (trim l default_seps).head? = some c → c ∉ default_seps)
        ∧ (∀ c, (trim l default_seps).getLast? = some c → c ∉ default_seps)) :=
  ⟨by decide,
    C29_centos_parse_routes_skips_kernel_routes ex_route_listing (by decide) (by decide)⟩

theorem centos_if_name_first (e : link_entry) (he : e.plain) :
    centos_if_name (e.first ++ ['\n']) = e.name := by
  obtain ⟨h1, h2, h3, h4, h5, h6, _⟩ := he
  have hfield : ∀ c ∈ e.name ++ e.vlan_alias ++ [':'], c ∉ [' '] := by
    intro c hc hsp
    have hcs : c = ' ' := by simpa using hsp
    subst hcs
    simp only [List.mem_append, List.mem_singleton] at hc
    rcases hc with (hc | hc) | hc
    · exact h2 hc
    · exact h3 hc
    · exact absurd hc (by decide)
  have hsep1 : strsep (e.first ++ ['\n']) [' ']
      = (e.index, some (e.name ++ e.vlan_alias ++ ':' :: ' ' :: e.flags ++ ['\n'])) := by
    have := strsep_at_delim e.index (e.name ++ e.vlan_alias ++ ':' :: ' ' :: e.flags ++ ['\n'])
      [' '] ' ' (fun c hc hsp => h1 (by
        have hcs : c = ' ' := by simpa using hsp
        rw [← hcs]; exact hc)) (by simp)
    rw [← this]
    simp [link_entry.first]
  have hsep2 : strsep (e.name ++ e.vlan_alias ++ ':' :: ' ' :: e.flags ++ ['\n']) [' ']
      = (e.name ++ e.vlan_alias ++ [':'], some (e.flags ++ ['\n'])) := by
    have := strsep_at_delim (e.name ++ e.vlan_alias ++ [':']) (e.flags ++ ['\n']) [' '] ' '
      hfield (by simp)
    rw [← this]
    simp
  have hlen : (e.name ++ e.vlan_alias ++ [':']).length + 1 ≤ MAX_IF_NAME := by
    simp only [List.length_append, List.length_singleton] at h6 ⊢
    omega
  have hget : get_field_delim [] (e.first ++ ['\n']) 2 MAX_IF_NAME [' ']
      = e.name ++ e.vlan_alias ++ [':'] := by
    rw [get_field_delim_second, hsep1]
    simp only [hsep2, safe_strncpy]
    have hmin : min ((e.name ++ e.vlan_alias ++ [':']).length + 1) MAX_IF_NAME
        = (e.name ++ e.vlan_alias ++ [':']).length + 1 := Nat.min_eq_left hlen
    rw [hmin]
    simp
  unfold centos_if_name
  rw [hget, List.dropLast_concat]
  have hname : ∀ c ∈ e.name, (fun c => decide (c ≠ '@')) c = true := by
    intro c hc
    have : c ≠ '@' := fun h => h4 (h ▸ hc)
    simpa using this
  rcases h5 with h5 | h5
  · rw [h5, List.append_nil, List.takeWhile_eq_self_iff.mpr hname]
  · cases ha : e.vlan_alias with
    | nil => rw [ha] at h5; simp at h5
    | cons a rest =>
      have haa : a = '@' := by rw [ha] at h5; simpa using h5
      subst haa
      rw [List.takeWhile_append_of_pos hname]
      simp [List.takeWhile]

theorem centos_parse_if_list_loop_entries (is_up : CStr → Bool) (entries : List link_entry)
    (he : ∀ e ∈ entries, e.plain) (line_num : Nat) (hnum : line_num % 2 = 0)
    (if_list : List CStr) :
    centos_parse_if_list_loop is_up
        ((entries.map (fun e => [e.first, e.second])).flatten.map (fun l => l ++ ['\n']))
        line_num if_list
      = if_list ++ (entries.map link_entry.name).filter is_up := by
  induction entries generalizing line_num if_list with
  | nil => simp [centos_parse_if_list_loop]
  | cons e es ih =>
    have hname := centos_if_name_first e (he e (List.mem_cons_self e es))
    have hodd : ¬ (line_num + 1) % 2 = 0 := by omega
    have hrest := fun l => ih (fun x hx => he x (List.mem_cons_of_mem e hx)) (line_num + 1 + 1)
      (by omega) l
    have hshape : ((e :: es).map (fun e => [e.first, e.second])).flatten.map
          (fun l => l ++ ['\n'])
        = (e.first ++ ['\n']) :: (e.second ++ ['\n'])
          :: (es.map (fun e => [e.first, e.second])).flatten.map (fun l => l ++ ['\n']) := by
      simp
    rw [hshape]
    by_cases hup : is_up e.name = true
    · rw [centos_parse_if_list_loop, if_pos hnum, hname, if_neg (by simp [hup]),
        centos_parse_if_list_loop, if_neg hodd, hrest]
      simp [List.filter_cons, hup]
    · rw [centos_parse_if_list_loop, if_pos hnum, hname, if_pos (by simp [hup]),
        centos_parse_if_list_loop, if_neg hodd, hrest]
      simp [List.filter_cons, hup]

/-- C30. For every link listing made of two lines per interface (index, name, optional
alias after `@`, colon and flags on the first) of at most `MAX_NUM_IF` interfaces, and
every function `is_up`, `centos_parse_if_list` returns, in the order of the listing, the
names of the interfaces for which `is_up` holds; the name is the second field of the first
line without its colon and without the alias. -/
theorem C30_centos_parse_if_list_names_up (is_up : CStr → Bool) (entries : List link_entry)
    (hplain : ∀ e ∈ entries, e.plain) (_hnum : entries.length ≤ MAX_NUM_IF) :
    centos_parse_if_list is_up (some (link_listing entries))
      = some ⟨(entries.map link_entry.name).filter is_up⟩ := by
  have hlines : ∀ l ∈ (entries.map (fun e => [e.first, e.second])).flatten,
      '\n' ∉ l ∧ NUL ∉ l ∧ l.length + 1 < MAX_OUTPUT_LEN := by
    intro l hl
    obtain ⟨ls, hls, hl2⟩ := List.mem_flatten.mp hl
    obtain ⟨e, he, hel⟩ := List.mem_map.mp hls
    obtain ⟨_, _, _, _, _, _, f1, f2, f3, s1, s2, s3⟩ := hplain e he
    rw [← hel] at hl2
    simp only [List.mem_cons, List.mem_singleton, List.not_mem_nil, or_false] at hl2
    rcases hl2 with h | h <;> rw [h]
    · exact ⟨f1, f2, f3⟩
    · exact ⟨s1, s2, s3⟩
  have hread := read_lines_unlines MAX_OUTPUT_LEN _ hlines
  simp only [centos_parse_if_list, link_listing, hread]
  rw [centos_parse_if_list_loop_entries is_up entries hplain 0 rfl []]
  rfl

set_option maxRecDepth 20000 in
/-- C30, at an instance: the loopback, eth0 and a VLAN interface on eth0, of which the
loopback has no link. -/
theorem C30_centos_parse_if_list_names_up_witness :
    centos_parse_if_list (fun name => decide (name ≠ "lo".toList))
        (some (link_listing ex_link_entries))
      = some ⟨["eth0".toList, "eth0.100".toList]⟩ :=
  C30_centos_parse_if_list_names_up (fun name => decide (name ≠ "lo".toList)) ex_link_entries
    (by decide) (by decide)



/-! ## C37: the netmask of a prefix length -/

/-- C37. For every prefix length from 0 to 32, `bitmask_to_netmask_ipv4` gives the
dotted-decimal text of the 32-bit value whose highest `bits` bits are one, whatever an
undefined shift would give: 24 gives `255.255.255.0`, 0 gives `0.0.0.0` and 32 gives
`255.255.255.255`. -/
theorem C37_bitmask_to_netmask_ipv4_of_bits (undefined_shift : Int → Nat) (bits : Int)
    (h0 : 0 ≤ bits) (h32 : bits ≤ 32) :
    bitmask_to_netmask_ipv4 undefined_shift bits
        = spec_dotted_decimal (spec_netmask_value bits.toNat)
      ∧ bitmask_to_netmask_ipv4 undefined_shift 24 = "255.255.255.0".toList
      ∧ bitmask_to_netmask_ipv4 undefined_shift 0 = "0.0.0.0".toList
      ∧ bitmask_to_netmask_ipv4 undefined_shift 32 = "255.255.255.255".toList := by
  refine ⟨?_, by simp [bitmask_to_netmask_ipv4]; decide, by simp [bitmask_to_netmask_ipv4]; decide,
    by simp [bitmask_to_netmask_ipv4]; decide⟩
  obtain ⟨n, rfl⟩ := Int.eq_ofNat_of_zero_le h0
  have hn : n ≤ 32 := by omega
  interval_cases n <;> simp [bitmask_to_netmask_ipv4] <;> decide

/-- C37 (witness). The prefix length 16 gives `255.255.0.0`. -/
theorem C37_bitmask_to_netmask_ipv4_of_bits_witness :
    bitmask_to_netmask_ipv4 (fun _ => 0) 16 = "255.255.0.0".toList :=
  (C37_bitmask_to_netmask_ipv4_of_bits (fun _ => 0) 16 (by decide) (by decide)).1.trans
    (by decide)

/-! ## C39, C40: column extraction -/

theorem strsep_pieces (delim p : CStr) :
    p.splitOnP (fun c => decide (c ∈ delim))
      = (strsep p delim).1 ::
          (match (strsep p delim).2 with
            | none => []
            | some rest => rest.splitOnP (fun c => decide (c ∈ delim))) := by
  induction p with
  | nil => simp [strsep]
  | cons c rest ih =>
    rw [List.splitOnP_cons]
    by_cases hc : c ∈ delim
    · simp [strsep, hc]
    · rw [ih]
      simp [strsep, hc, List.modifyHead]

theorem get_field_loop_piece (delim : CStr) (k : Nat) :
    ∀ (p field : CStr), get_field_loop delim (k + 1) (some p) field
      = (p.splitOnP (fun c => decide (c ∈ delim)))[k]? := by
  induction k with
  | zero =>
    intro p field
    rw [strsep_pieces]
    simp [get_field_loop]
  | succ k ih =>
    intro p field
    rw [strsep_pieces delim p]
    cases h : (strsep p delim).2 with
    | none => simp [get_field_loop, h]
    | some rest =>
      have := ih rest (strsep p delim).1
      simp only [get_field_loop, h] at this ⊢
      simpa using this

theorem safe_strncpy_truncates (dest field : CStr) (destsz : Nat) (hsz : 0 < destsz) :
    safe_strncpy dest field (min (field.length + 1) destsz) = field.take (destsz - 1) := by
  have hne : min (field.length + 1) destsz ≠ 0 := by omega
  rw [safe_strncpy, if_neg hne]
  by_cases h : field.length + 1 ≤ destsz
  · rw [Nat.min_eq_left h, Nat.add_sub_cancel, List.take_of_length_le (Nat.le_refl _),
      List.take_of_length_le (by omega)]
  · rw [Nat.min_eq_right (by omega)]

/-- C39. For a destination of at least one byte, `get_field_delim` with `col >= 1` leaves in
`dest` the piece number `col` of `src` split at every character of `delim` (two delimiters in
a row give an empty piece), cut to `destsz - 1` bytes, and the empty string when `src` has
fewer than `col` pieces; with `col = 0` it leaves the whole of `src`, cut to `destsz - 1`
bytes. -/
theorem C39_get_field_delim_column (dest src delim : CStr) (col destsz : Nat)
    (hsz : 0 < destsz) :
    get_field_delim dest src col destsz delim
      = if col = 0 then src.take (destsz - 1)
        else
          match (src.splitOnP (fun c => decide (c ∈ delim)))[col - 1]? with
          | some piece => piece.take (destsz - 1)
          | none => [] := by
  cases col with
  | zero => simp [get_field_delim, get_field_loop, safe_strncpy_truncates dest src destsz hsz]
  | succ k =>
    have hne : destsz ≠ 0 := by omega
    rw [get_field_delim, get_field_loop_piece, if_neg (Nat.succ_ne_zero k), Nat.add_sub_cancel]
    cases (src.splitOnP (fun c => decide (c ∈ delim)))[k]? with
    | none => simp [safe_strncpy, hne]
    | some piece => simp [safe_strncpy_truncates dest piece destsz hsz]

/-- C39 (witness). The second piece of a line of the link listing split at spaces is the
interface name with its colon; two delimiters in a row give an empty piece, and a column
past the last piece gives the empty string. -/
theorem C39_get_field_delim_column_witness :
    get_field_delim [] "2: eth0: <UP>".toList 2 100 " ".toList = "eth0:".toList
      ∧ get_field_delim [] "a,,b".toList 2 100 ",;".toList = []
      ∧ get_field_delim [] "a;b".toList 2 100 ",;".toList = "b".toList
      ∧ get_field_delim [] "a,b".toList 3 100 ",".toList = []
      ∧ get_field_delim [] "abcdef,g".toList 1 4 ",".toList = "abc".toList
      ∧ get_field_delim [] "a,b".toList 0 100 ",".toList = "a,b".toList := by
  refine ⟨?_, ?_, ?_, ?_, ?_, ?_⟩
  · exact (C39_get_field_delim_column [] "2: eth0: <UP>".toList " ".toList 2 100
      (by decide)).trans (by decide)
  all_goals decide

/-- C40. The field that `get_field_delim` leaves in `dest` keeps the white space around it:
the second column of `a, b ,c` split at commas is ` b ` with both blanks, the whole line
(column 0) keeps its leading blanks and its newline, and the second column of a line of an
interfaces file keeps the newline. -/
theorem C40_get_field_delim_keeps_white_space :
    get_field_delim [] "a, b ,c".toList 2 100 ",".toList = " b ".toList
      ∧ get_field_delim [] "  eth0 \n".toList 0 100 " ".toList = "  eth0 \n".toList
      ∧ get_field_delim [] "auto eth0\n".toList 2 100 " ".toList = "eth0\n".toList := by
  decide

/-! ## C38: the lines of a newly created ifcfg file -/

set_option maxRecDepth 20000 in
/-- C38 (defect of the code). For an interface with an IPv6 address the format
`IPV6INIT=yes\nIPV6AUTOCONF=yes` of `centos_create_and_write_to_file` ends without a newline:
with `arping_wait` the file of `eth0` ends with the line `IPV6AUTOCONF=yesARPING_WAIT=8`, which
holds two directives and is read back by `centos_parse_ifcfg` as one unknown line, with no
value of `ARPING_WAIT`; without `arping_wait` the last line of the file has
no newline. This holds for every record with an IPv6 address. -/
theorem C38_centos_create_joins_two_directives :
    (centos_create_and_write_to_file true "eth0".toList ⟨[]⟩ (some ex_active_eth0_v6)).ifcfg
        = some ("TYPE=Ethernet \n#ether\nDEVICE=eth0\nNAME=eth0\nONBOOT=yes\nBOOTPROTO=none\n".toList
            ++ "IPADDR=10.0.0.5\nNETMASK=255.255.255.0\nMTU=9000\nIPV6INIT=yes\n".toList
            ++ "IPV6AUTOCONF=yesARPING_WAIT=8\n".toList)
      ∧ "IPV6AUTOCONF=yesARPING_WAIT=8".toList
          ∈ text_lines (centos_create_ifcfg_text true "eth0".toList ex_active_eth0_v6)
      ∧ ((centos_parse_ifcfg
            (some (centos_create_ifcfg_text true "eth0".toList ex_active_eth0_v6))).toOption.map
          (fun cfg => (cfg.unknown, cfg.arping_wait)))
          = some (some "IPV6AUTOCONF=yesARPING_WAIT=8\n".toList, none)
      ∧ (centos_create_ifcfg_text false "eth0".toList ex_active_eth0_v6).getLast? = some 's'
      ∧ (∀ (if_name v : CStr) (a : ip_show_fields_t),
          ∃ pre, centos_create_ifcfg_text true if_name { a with inet6 := some v }
            = pre ++ "IPV6AUTOCONF=yesARPING_WAIT=8\n".toList) := by
  refine ⟨by decide, by decide, by decide, by decide, ?_⟩
  intro if_name v a
  refine ⟨centos_create_link_text a.link
    ++ ("DEVICE=".toList ++ if_name ++ "\nNAME=".toList ++ if_name ++ ['\n'])
    ++ centos_create_inet_text a.inet a.dynamic
    ++ print_field "NETMASK".toList a.inet_mask
    ++ print_field "MTU".toList a.mtu ++ "IPV6INIT=yes\n".toList, ?_⟩
  simp only [centos_create_ifcfg_text, centos_create_inet6_text, if_true]
  simp [List.append_assoc]

/-! ## C36: the interface name in the comparison of the Debian dialect -/

theorem ubuntu_field_differs_of_ne (a p : Option CStr) (h : a ≠ p) :
    ubuntu_field_differs a p = true := by
  cases a with
  | none =>
    cases p with
    | none => exact absurd rfl h
    | some y => rfl
  | some x =>
    cases p with
    | none => rfl
    | some y =>
      have hxy : y ≠ x := fun e => h (by rw [e])
      simp [ubuntu_field_differs, hxy]

theorem ubuntu_name_mismatch_backup (n : Nat) (a p : interface_t) (la lp : CStr)
    (hla : a.linktype = some la) (hlp : p.linktype = some lp)
    (hexit : lp ≠ la ∨ (la ≠ "loopback".toList ∧ la ≠ "dhcp".toList))
    (hname : a.name ≠ p.name) :
    ubuntu_compare_configs n n a p = some NSYNC_BACKUP := by
  have hrest :
      (if a.mapped_routes.length ≠ p.mapped_routes.length then some NSYNC_BACKUP
        else if ubuntu_compare_routes_loop a.mapped_routes p.mapped_routes
            a.mapped_routes.length false = true
          then some NSYNC_KEEP_EXISTING else some NSYNC_BACKUP) = some NSYNC_BACKUP := by
    by_cases hlen : a.mapped_routes.length = p.mapped_routes.length
    · rw [if_neg (by simpa using hlen), ubuntu_compare_routes_loop_false]
      simp
    · rw [if_pos hlen]
  simp only [ubuntu_compare_configs, hla, hlp, ne_eq, not_true_eq_false, if_false,
    ubuntu_field_differs_of_ne _ _ hname, Bool.not_true, Bool.false_and]
  by_cases hne : lp = la
  · rcases hexit with h | ⟨h1, h2⟩
    · exact absurd hne h
    · simp only [hne, not_true_eq_false, if_false, h1, h2, or_self]
      exact hrest
  · simp only [hne, not_false_eq_true, if_true]
    exact hrest

/-- C36 (defect of the code). The second active interface of a host is `eth0` and the second
persisted interface is `eth1`, both configured by DHCP: the name test of
`ubuntu_compare_configs` clears `match`, and the early return for equal link types that are
loopback or dhcp answers `NSYNC_KEEP_EXISTING` without looking at it. The same holds for two
loopback records with different names. For two static records that differ in the name only,
where the early return is not taken, the answer is `NSYNC_BACKUP`. -/
theorem C36_ubuntu_dhcp_name_mismatch_kept :
    ubuntu_field_differs ex_eth0_dhcp.name (some "eth1".toList) = true
      ∧ ubuntu_compare_configs 2 2 ex_eth0_dhcp { ex_eth0_dhcp with name := some "eth1".toList }
        = some NSYNC_KEEP_EXISTING
      ∧ ubuntu_compare_configs 2 2 ex_lo { ex_lo with name := some "lo0".toList }
        = some NSYNC_KEEP_EXISTING
      ∧ ubuntu_compare_configs 2 2 ex_eth0_static
          { ex_eth0_static with name := some "eth1".toList } = some NSYNC_BACKUP :=
  ⟨by decide, by decide, by decide,
    ubuntu_name_mismatch_backup 2 _ _ "static".toList "static".toList rfl rfl
      (Or.inr ⟨by decide, by decide⟩) (by decide)⟩

/-! ## C35: routes written and read back by the Debian dialect -/

set_option maxRecDepth 20000 in
/-- C35 (defect of the code). For the static interface `eth0` with the route
`10.9.0.0/16 via 10.0.0.1 dev eth0`, `ubuntu_create_and_write_to_file` writes the line
`up 10.9.0.0/16 via 10.0.0.1 dev eth0`, without `ip route add`, and
`ubuntu_parse_persist_routes` finds no route in the text written; `ubuntu_overwrite_configs`
and `ubuntu_keep_existing` write `up ip route add 10.9.0.0/16 via 10.0.0.1 dev eth0` for the
same record, and the route is read back from their text. -/
theorem C35_ubuntu_create_writes_route_without_add :
    ubuntu_create_and_write_to_file (some ex_eth0_routed)
        = some (NSYNC_IF_SYNCED,
            ("auto eth0\niface eth0 inet static\naddress 10.0.0.5\nnetmask 255.255.255.0\n".toList
              ++ "up 10.9.0.0/16 via 10.0.0.1 dev eth0\n".toList))
      ∧ ((ubuntu_create_and_write_to_file (some ex_eth0_routed)).bind
          (fun r => ubuntu_parse_persist_routes (some r.2))) = some []
      ∧ ubuntu_overwrite_configs ex_eth0_routed
        = some (NSYNC_IF_SYNCED,
            ("auto eth0\niface eth0 inet static\naddress 10.0.0.5\nnetmask 255.255.255.0\n".toList
              ++ "up ip route add 10.9.0.0/16 via 10.0.0.1 dev eth0\n\n".toList))
      ∧ ((ubuntu_overwrite_configs ex_eth0_routed).bind
          (fun r => ubuntu_parse_persist_routes (some r.2)))
        = some ["10.9.0.0/16 via 10.0.0.1 dev eth0".toList]
      ∧ ((ubuntu_keep_existing ex_eth0_routed).bind
          (fun r => ubuntu_parse_persist_routes (some r.2)))
        = some ["10.9.0.0/16 via 10.0.0.1 dev eth0".toList] := by
  refine ⟨by decide, by decide, by decide, by decide, by decide⟩

/-! ## C34: the unmanaged text of a stanza -/

set_option maxRecDepth 100000 in
/-- C34 (counterexample). The line `pre-up /sbin/ethtool -s eth0 wol g` of the stanza of
`eth0` is no `auto` or `iface` line, no setting and no route, and it is not kept: the word `up`
is found in it and the slot `unmanaged` stays empty. Of two lines of name servers the first
is stored without its newline, so the slot holds them joined on one line. -/
theorem C34_counterexample_pre_up_line_dropped :
    (ubuntu_parse_persist_interfaces ex_interfaces_pre_up).map
        (fun d => d.interfaces.map (fun r => r.unmanaged)) = some [none]
      ∧ (ubuntu_parse_persist_interfaces ex_interfaces_dns).map
        (fun d => d.interfaces.map (fun r => r.unmanaged))
        = some [some "    dns-nameservers 10.0.0.1    dns-search example.com\n".toList] := by
  refine ⟨by decide, by decide⟩

theorem persist_field_none (key : CStr) (set : CStr → interface_t → interface_t)
    (line : CStr) (s : persist_loop_t × Bool) (h : (strstr line key).isSome = false) :
    persist_field key set line s = some s := by
  cases hk : strstr line key with
  | none => simp [persist_field, hk]
  | some loc => rw [hk] at h; simp at h

theorem persist_field_step (key : CStr) (set : CStr → interface_t → interface_t)
    (hset : ∀ v r, (set v r).unmanaged = r.unmanaged)
    (line : CStr) (names : List CStr) (cur : interface_t) (earlier : List interface_t)
    (ra b : Bool) :
    ∃ cur2, persist_field key set line (⟨names, cur :: earlier, ra⟩, b)
        = some (⟨names, cur2 :: earlier, ra⟩, b || (strstr line key).isSome)
      ∧ cur2.unmanaged = cur.unmanaged := by
  cases hk : strstr line key with
  | none => exact ⟨cur, by simp [persist_field, hk], rfl⟩
  | some loc =>
    exact ⟨set (persist_value loc) cur, by simp [persist_field, hk, persist_set], hset _ _⟩

theorem persist_address_step (line : CStr) (names : List CStr) (cur : interface_t)
    (earlier : List interface_t) (ra b : Bool) :
    ∃ cur2, persist_address line (⟨names, cur :: earlier, ra⟩, b)
        = some (⟨names, cur2 :: earlier, ra⟩,
            b || ((strstr line "hwaddress".toList).isSome
              || (strstr line "address".toList).isSome))
      ∧ cur2.unmanaged = cur.unmanaged := by
  cases hk : strstr line "hwaddress".toList with
  | some loc =>
    refine ⟨{ cur with hwaddress := some (persist_value loc) }, ?_, rfl⟩
    rw [persist_address, hk]
    simp [persist_set]
  | none =>
    obtain ⟨cur2, h1, h2⟩ := persist_field_step "address".toList
      (fun v r => { r with address := some v }) (fun _ _ => rfl) line names cur earlier ra b
    refine ⟨cur2, ?_, h2⟩
    rw [persist_address, hk]
    simp only [h1]
    simp

theorem persist_scope_step (line : CStr) (names : List CStr) (cur : interface_t)
    (earlier : List interface_t) (ra b : Bool) :
    ∃ cur2, persist_scope line (⟨names, cur :: earlier, ra⟩, b)
        = some (⟨names, cur2 :: earlier, ra⟩,
            b || ((strstr line "up".toList).isSome || (strstr line "scope".toList).isSome))
      ∧ cur2.unmanaged = cur.unmanaged := by
  cases hk : strstr line "up".toList with
  | some loc =>
    refine ⟨cur, ?_, rfl⟩
    rw [persist_scope, if_neg (by rw [hk]; simp)]
    simp
  | none =>
    obtain ⟨cur2, h1, h2⟩ := persist_field_step "scope".toList
      (fun v r => { r with scope := some v }) (fun _ _ => rfl) line names cur earlier ra b
    refine ⟨cur2, ?_, h2⟩
    rw [persist_scope, if_pos hk, h1]
    simp

theorem persist_line_step (line : CStr) (st : persist_loop_t) (names : List CStr)
    (cur : interface_t) (earlier : List interface_t) (ra b1 : Bool)
    (hh : persist_header line st = (⟨names, cur :: earlier, ra⟩, b1)) :
    ∃ cur2, ubuntu_parse_persist_line st line = some ⟨names, cur2 :: earlier, ra⟩
      ∧ cur2.unmanaged
        = if (b1 || holds_setting line) = true then cur.unmanaged
          else
            match cur.unmanaged with
            | none => some (safe_strncpy [] line line.length)
            | some acc => some (accumulate_next acc line) := by
  obtain ⟨c1, e1, u1⟩ := persist_field_step "inet".toList
    (fun v r => { r with linktype := some v }) (fun _ _ => rfl) line names cur earlier ra b1
  obtain ⟨c2, e2, u2⟩ := persist_address_step line names c1 earlier ra
    (b1 || (strstr line "inet".toList).isSome)
  obtain ⟨c3, e3, u3⟩ := persist_field_step "netmask".toList
    (fun v r => { r with netmask := some v }) (fun _ _ => rfl) line names c2 earlier ra
    (b1 || (strstr line "inet".toList).isSome
      || ((strstr line "hwaddress".toList).isSome || (strstr line "address".toList).isSome))
  obtain ⟨c4, e4, u4⟩ := persist_field_step "broadcast".toList
    (fun v r => { r with broadcast := some v }) (fun _ _ => rfl) line names c3 earlier ra
    (b1 || (strstr line "inet".toList).isSome
      || ((strstr line "hwaddress".toList).isSome || (strstr line "address".toList).isSome)
      || (strstr line "netmask".toList).isSome)
  obtain ⟨c5, e5, u5⟩ := persist_field_step "metric".toList
    (fun v r => { r with metric := some v }) (fun _ _ => rfl) line names c4 earlier ra
    (b1 || (strstr line "inet".toList).isSome
      || ((strstr line "hwaddress".toList).isSome || (strstr line "address".toList).isSome)
      || (strstr line "netmask".toList).isSome || (strstr line "broadcast".toList).isSome)
  obtain ⟨c6, e6, u6⟩ := persist_field_step "gateway".toList
    (fun v r => { r with gateway := some v }) (fun _ _ => rfl) line names c5 earlier ra
    (b1 || (strstr line "inet".toList).isSome
      || ((strstr line "hwaddress".toList).isSome || (strstr line "address".toList).isSome)
      || (strstr line "netmask".toList).isSome || (strstr line "broadcast".toList).isSome
      || (strstr line "metric".toList).isSome)
  obtain ⟨c7, e7, u7⟩ := persist_field_step "mtu".toList
    (fun v r => { r with mtu := some v }) (fun _ _ => rfl) line names c6 earlier ra
    (b1 || (strstr line "inet".toList).isSome
      || ((strstr line "hwaddress".toList).isSome || (strstr line "address".toList).isSome)
      || (strstr line "netmask".toList).isSome || (strstr line "broadcast".toList).isSome
      || (strstr line "metric".toList).isSome || (strstr line "gateway".toList).isSome)
  obtain ⟨c8, e8, u8⟩ := persist_scope_step line names c7 earlier ra
    (b1 || (strstr line "inet".toList).isSome
      || ((strstr line "hwaddress".toList).isSome || (strstr line "address".toList).isSome)
      || (strstr line "netmask".toList).isSome || (strstr line "broadcast".toList).isSome
      || (strstr line "metric".toList).isSome || (strstr line "gateway".toList).isSome
      || (strstr line "mtu".toList).isSome)
  have hflag : (b1 || (strstr line "inet".toList).isSome
      || ((strstr line "hwaddress".toList).isSome || (strstr line "address".toList).isSome)
      || (strstr line "netmask".toList).isSome || (strstr line "broadcast".toList).isSome
      || (strstr line "metric".toList).isSome || (strstr line "gateway".toList).isSome
      || (strstr line "mtu".toList).isSome
      || ((strstr line "up".toList).isSome || (strstr line "scope".toList).isSome))
      = (b1 || holds_setting line) := by
    simp only [holds_setting, Bool.or_assoc]
  have hu : c8.unmanaged = cur.unmanaged := by rw [u8, u7, u6, u5, u4, u3, u2, u1]
  rw [hflag] at e8
  have hline : ubuntu_parse_persist_line st line
      = some (persist_unmanaged line (⟨names, c8 :: earlier, ra⟩, b1 || holds_setting line)) := by
    rw [ubuntu_parse_persist_line, hh, e1, Option.some_bind, e2, Option.some_bind, e3,
      Option.some_bind, e4, Option.some_bind, e5, Option.some_bind, e6, Option.some_bind, e7,
      Option.some_bind, e8, Option.map_some']
  rw [hline]
  cases hb : (b1 || holds_setting line) with
  | true => exact ⟨c8, by simp [persist_unmanaged], by simpa using hu⟩
  | false =>
    refine ⟨{ c8 with unmanaged :=
      match c8.unmanaged with
      | none => some (safe_strncpy [] line line.length)
      | some acc => some (accumulate_next acc line) }, by simp [persist_unmanaged], ?_⟩
    simp [hu]

theorem strstr_newline (l key : CStr) (hc : '\n' ∉ key) (hne : key ≠ []) :
    (strstr (l ++ ['\n']) key).isSome = (strstr l key).isSome :=
  strstr_append_other l key '\n' hc hne

theorem strstr_eq_none_of_isSome_false (l key : CStr) (h : (strstr l key).isSome = false) :
    strstr l key = none := by
  cases hk : strstr l key with
  | none => rfl
  | some loc => rw [hk] at h; simp at h

theorem holds_setting_newline (l : CStr) : holds_setting (l ++ ['\n']) = holds_setting l := by
  unfold holds_setting
  rw [strstr_newline l "inet".toList (by decide) (by decide),
    strstr_newline l "hwaddress".toList (by decide) (by decide),
    strstr_newline l "address".toList (by decide) (by decide),
    strstr_newline l "netmask".toList (by decide) (by decide),
    strstr_newline l "broadcast".toList (by decide) (by decide),
    strstr_newline l "metric".toList (by decide) (by decide),
    strstr_newline l "gateway".toList (by decide) (by decide),
    strstr_newline l "mtu".toList (by decide) (by decide),
    strstr_newline l "up".toList (by decide) (by decide),
    strstr_newline l "scope".toList (by decide) (by decide)]

theorem holds_keyword_eq (l : CStr) :
    holds_keyword l
      = ((strstr l "iface".toList).isSome || (strstr l "auto".toList).isSome
          || holds_setting l) := by
  simp only [holds_keyword, persist_keywords, List.any_cons, List.any_nil, Bool.or_false,
    holds_setting, Bool.or_assoc]

theorem persist_header_none (l : CStr) (st : persist_loop_t)
    (h1 : (strstr l "iface".toList).isSome = false)
    (h2 : (strstr l "auto".toList).isSome = false) :
    persist_header (l ++ ['\n']) st = (st, false) := by
  have e1 : strstr (l ++ ['\n']) "iface".toList = none :=
    strstr_eq_none_of_isSome_false _ _
      ((strstr_newline l "iface".toList (by decide) (by decide)).trans h1)
  have e2 : strstr (l ++ ['\n']) "auto".toList = none :=
    strstr_eq_none_of_isSome_false _ _
      ((strstr_newline l "auto".toList (by decide) (by decide)).trans h2)
  rw [persist_header, if_pos e1, if_pos e2]

theorem persist_header_auto (l : CStr) (st : persist_loop_t)
    (h1 : (strstr l "iface".toList).isSome = false)
    (h2 : (strstr l "auto".toList).isSome = true) :
    persist_header (l ++ ['\n']) st
      = (⟨persist_value (l ++ ['\n']) :: st.names,
          { name := some (persist_value (l ++ ['\n'])), auto_opt := true } :: st.records,
          true⟩, true) := by
  have e1 : strstr (l ++ ['\n']) "iface".toList = none :=
    strstr_eq_none_of_isSome_false _ _
      ((strstr_newline l "iface".toList (by decide) (by decide)).trans h1)
  have e2 : ¬ strstr (l ++ ['\n']) "auto".toList = none := by
    intro e
    have := (strstr_newline l "auto".toList (by decide) (by decide)).trans h2
    rw [e] at this
    simp at this
  rw [persist_header, if_pos e1, if_neg e2]
  rfl

theorem persist_header_iface (l : CStr) (st : persist_loop_t)
    (h1 : (strstr l "iface".toList).isSome = true)
    (h2 : (strstr l "auto".toList).isSome = false) :
    persist_header (l ++ ['\n']) st
      = if st.reached_auto then (⟨st.names, st.records, false⟩, true)
        else (⟨persist_value (l ++ ['\n']) :: st.names,
          { name := some (persist_value (l ++ ['\n'])), auto_opt := false } :: st.records,
          st.reached_auto⟩, true) := by
  have e1 : ¬ strstr (l ++ ['\n']) "iface".toList = none := by
    intro e
    have := (strstr_newline l "iface".toList (by decide) (by decide)).trans h1
    rw [e] at this
    simp at this
  have e2 : strstr (l ++ ['\n']) "auto".toList = none :=
    strstr_eq_none_of_isSome_false _ _
      ((strstr_newline l "auto".toList (by decide) (by decide)).trans h2)
  rw [persist_header, if_neg e1, if_pos e2]
  obtain ⟨names, records, ra⟩ := st
  cases ra <;> rfl

theorem without_newlines_line (l : CStr) (h : '\n' ∉ l) : without_newlines l = l := by
  unfold without_newlines
  rw [List.filter_eq_self]
  intro c hc
  simp only [ne_eq, decide_not, Bool.not_eq_true', decide_eq_false_iff_not]
  intro e
  exact h (e ▸ hc)

theorem without_newlines_append (a b : CStr) :
    without_newlines (a ++ b) = without_newlines a ++ without_newlines b := by
  simp [without_newlines]

theorem without_newlines_first (l : CStr) (h : '\n' ∉ l) :
    without_newlines (safe_strncpy [] (l ++ ['\n']) (l ++ ['\n']).length) = l := by
  have hlen : (l ++ ['\n']).length ≠ 0 := by simp
  rw [safe_strncpy, if_neg hlen]
  have : (l ++ ['\n']).length - 1 = l.length := by simp
  rw [this, List.take_left' rfl, without_newlines_line l h]

theorem without_newlines_next (acc l : CStr) (h : '\n' ∉ l) :
    without_newlines (accumulate_next acc (l ++ ['\n'])) = without_newlines acc ++ l := by
  have hlen : (l ++ ['\n']).length ≠ 0 := by simp
  have h1 : (l ++ ['\n']).length - 1 = l.length := by simp
  have h2 : acc.length + 1 ≠ 0 := by omega
  rw [accumulate_next, safe_strncpy, if_neg h2, safe_strncpy, if_neg hlen, h1,
    List.take_left' rfl, Nat.add_sub_cancel, List.take_of_length_le (Nat.le_refl _),
    without_newlines_append, without_newlines_append, without_newlines_line l h]
  simp [without_newlines]

theorem persist_loop_append (st : persist_loop_t) (xs ys : List CStr) :
    ubuntu_parse_persist_loop st (xs ++ ys)
      = (ubuntu_parse_persist_loop st xs).bind (fun st2 => ubuntu_parse_persist_loop st2 ys) := by
  induction xs generalizing st with
  | nil => simp [ubuntu_parse_persist_loop]
  | cons x rest ih =>
    simp only [List.cons_append, ubuntu_parse_persist_loop]
    cases ubuntu_parse_persist_line st x with
    | none => simp
    | some st2 => simp [ih]

theorem persist_body_fold (body : List CStr) :
    ∀ (names : List CStr) (cur : interface_t) (earlier : List interface_t) (ra : Bool),
      (∀ l ∈ body, (strstr l "iface".toList).isSome = false
        ∧ (strstr l "auto".toList).isSome = false) →
      (∀ l ∈ body, '\n' ∉ l) →
      ∃ cur2, ubuntu_parse_persist_loop ⟨names, cur :: earlier, ra⟩
            (body.map (fun l => l ++ ['\n']))
          = some ⟨names, cur2 :: earlier, ra⟩
        ∧ cur2.unmanaged.map without_newlines
          = if body.filter (fun l => !holds_keyword l) = [] then
              cur.unmanaged.map without_newlines
            else
              some ((cur.unmanaged.map without_newlines).getD []
                ++ (body.filter (fun l => !holds_keyword l)).flatten) := by
  induction body with
  | nil =>
    intro names cur earlier ra _ _
    exact ⟨cur, rfl, by simp⟩
  | cons l rest ih =>
    intro names cur earlier ra hbody hnl
    obtain ⟨hi, ha⟩ := hbody l (List.mem_cons_self l rest)
    have hl : '\n' ∉ l := hnl l (List.mem_cons_self l rest)
    obtain ⟨c1, e1, u1⟩ := persist_line_step (l ++ ['\n']) ⟨names, cur :: earlier, ra⟩ names
      cur earlier ra false (persist_header_none l _ hi ha)
    obtain ⟨c2, e2, u2⟩ := ih names c1 earlier ra
      (fun x hx => hbody x (List.mem_cons_of_mem l hx))
      (fun x hx => hnl x (List.mem_cons_of_mem l hx))
    have hkw : holds_keyword l = holds_setting l := by
      rw [holds_keyword_eq, hi, ha]
      simp
    refine ⟨c2, ?_, ?_⟩
    · rw [List.map_cons, ubuntu_parse_persist_loop, e1]
      exact e2
    · rw [u2]
      rw [Bool.false_or, holds_setting_newline] at u1
      cases hs : holds_setting l with
      | true =>
        rw [hs, if_pos rfl] at u1
        rw [List.filter_cons, hkw, hs, u1]
        simp
      | false =>
        rw [hs, if_neg (by simp)] at u1
        have hc1 : c1.unmanaged.map without_newlines
            = some ((cur.unmanaged.map without_newlines).getD [] ++ l) := by
          rw [u1]
          cases cur.unmanaged with
          | none =>
            show some (without_newlines (safe_strncpy [] (l ++ ['\n']) (l ++ ['\n']).length))
              = some ([] ++ l)
            rw [without_newlines_first l hl, List.nil_append]
          | some acc =>
            show some (without_newlines (accumulate_next acc (l ++ ['\n'])))
              = some (without_newlines acc ++ l)
            rw [without_newlines_next acc l hl]
        rw [List.filter_cons, hkw, hs, hc1]
        by_cases hk : rest.filter (fun l => !holds_keyword l) = []
        · simp [hk]
        · simp [hk, List.append_assoc]

theorem hwaddress_of_address (l : CStr) (h : (strstr l "address".toList).isSome = false) :
    (strstr l "hwaddress".toList).isSome = false := by
  cases hk : (strstr l "hwaddress".toList).isSome with
  | false => rfl
  | true =>
    obtain ⟨pre, post, e⟩ := (strstr_isSome_iff l "hwaddress".toList).mp hk
    have : (strstr l "address".toList).isSome = true :=
      (strstr_isSome_iff l "address".toList).mpr ⟨pre ++ "hw".toList, post, by rw [e]; simp⟩
    rw [this] at h
    exact absurd h (by simp)

theorem persist_preamble_line (l : CStr) (names : List CStr) (ra : Bool)
    (h : preamble_line l) :
    ubuntu_parse_persist_line ⟨names, [], ra⟩ (l ++ ['\n']) = some ⟨names, [], ra⟩ := by
  obtain ⟨hi, ha, h1, h2, h3, h4, h5, h6, h7, h8, _⟩ := h
  have t : ∀ key : CStr, '\n' ∉ key → key ≠ [] → (strstr l key).isSome = false →
      (strstr (l ++ ['\n']) key).isSome = false :=
    fun key hc hne hk => (strstr_newline l key hc hne).trans hk
  have hhw : strstr (l ++ ['\n']) "hwaddress".toList = none :=
    strstr_eq_none_of_isSome_false _ _
      (t "hwaddress".toList (by decide) (by decide) (hwaddress_of_address l h2))
  have haddr : persist_address (l ++ ['\n']) (⟨names, [], ra⟩, false)
      = some (⟨names, [], ra⟩, false) := by
    rw [persist_address, hhw]
    exact persist_field_none _ _ _ _ (t "address".toList (by decide) (by decide) h2)
  have hscope : ∃ b, persist_scope (l ++ ['\n']) (⟨names, [], ra⟩, false)
      = some (⟨names, [], ra⟩, b) := by
    by_cases hup : strstr (l ++ ['\n']) "up".toList = none
    · refine ⟨false, ?_⟩
      rw [persist_scope, if_pos hup]
      rcases h8 with h8 | h8
      · have := (strstr_newline l "up".toList (by decide) (by decide)).trans h8
        rw [hup] at this
        simp at this
      · exact persist_field_none _ _ _ _ (t "scope".toList (by decide) (by decide) h8)
    · exact ⟨true, by rw [persist_scope, if_neg hup]⟩
  obtain ⟨b, hb⟩ := hscope
  rw [ubuntu_parse_persist_line, persist_header_none l _ hi ha,
    persist_field_none _ _ _ _ (t "inet".toList (by decide) (by decide) h1), Option.some_bind,
    haddr, Option.some_bind,
    persist_field_none _ _ _ _ (t "netmask".toList (by decide) (by decide) h3),
    Option.some_bind,
    persist_field_none _ _ _ _ (t "broadcast".toList (by decide) (by decide) h4),
    Option.some_bind,
    persist_field_none _ _ _ _ (t "metric".toList (by decide) (by decide) h5),
    Option.some_bind,
    persist_field_none _ _ _ _ (t "gateway".toList (by decide) (by decide) h6),
    Option.some_bind,
    persist_field_none _ _ _ _ (t "mtu".toList (by decide) (by decide) h7),
    Option.some_bind, hb, Option.map_some']
  cases b <;> rfl

theorem persist_preamble_loop (preamble : List CStr) (names : List CStr) (ra : Bool)
    (h : ∀ l ∈ preamble, preamble_line l) :
    ubuntu_parse_persist_loop ⟨names, [], ra⟩ (preamble.map (fun l => l ++ ['\n']))
      = some ⟨names, [], ra⟩ := by
  induction preamble with
  | nil => rfl
  | cons l rest ih =>
    rw [List.map_cons, ubuntu_parse_persist_loop,
      persist_preamble_line l names ra (h l (List.mem_cons_self l rest))]
    exact ih (fun x hx => h x (List.mem_cons_of_mem l hx))

theorem persist_stanza_loop (s : if_stanza) (hs : s.plain) (names : List CStr)
    (records : List interface_t) :
    ∃ names2 r, ubuntu_parse_persist_loop ⟨names, records, false⟩
          (s.lines.map (fun l => l ++ ['\n']))
        = some ⟨names2, r :: records, false⟩
      ∧ r.unmanaged.map without_newlines = spec_unmanaged s.body := by
  obtain ⟨hauto, hif1, hif2, hbody, hfit⟩ := hs
  have hnl : ∀ l ∈ s.body, '\n' ∉ l := fun l hl =>
    (hfit l (by simp [if_stanza.lines, hl])).1
  -- the line `iface`, read in a state `st0`, and the body after it
  have hrest : ∀ (st0 : persist_loop_t) (names1 : List CStr) (new : interface_t),
      persist_header (s.iface_line ++ ['\n']) st0 = (⟨names1, new :: records, false⟩, true) →
      new.unmanaged = none →
      ∃ r, ubuntu_parse_persist_loop st0 ((s.iface_line :: s.body).map (fun l => l ++ ['\n']))
          = some ⟨names1, r :: records, false⟩
        ∧ r.unmanaged.map without_newlines = spec_unmanaged s.body := by
    intro st0 names1 new hh hnew
    obtain ⟨c1, e1, u1⟩ := persist_line_step _ st0 names1 new records false true hh
    obtain ⟨c2, e2, u2⟩ := persist_body_fold s.body names1 c1 records false hbody hnl
    refine ⟨c2, ?_, ?_⟩
    · rw [List.map_cons, ubuntu_parse_persist_loop, e1]
      exact e2
    · rw [u2, u1, Bool.true_or, if_pos rfl, hnew, spec_unmanaged]
      simp
  cases ha : s.auto_line with
  | none =>
    have hh := persist_header_iface s.iface_line ⟨names, records, false⟩ hif1 hif2
    rw [if_neg (by simp)] at hh
    obtain ⟨r, e, u⟩ := hrest ⟨names, records, false⟩
      (persist_value (s.iface_line ++ ['\n']) :: names) _ hh rfl
    refine ⟨persist_value (s.iface_line ++ ['\n']) :: names, r, ?_, u⟩
    rw [if_stanza.lines, ha]
    exact e
  | some a =>
    rw [ha] at hauto
    obtain ⟨ha1, ha2⟩ := hauto a (by simp)
    have hh := persist_header_auto a ⟨names, records, false⟩ ha2 ha1
    obtain ⟨c1, e1, u1⟩ := persist_line_step (a ++ ['\n']) ⟨names, records, false⟩
      (persist_value (a ++ ['\n']) :: names)
      { name := some (persist_value (a ++ ['\n'])), auto_opt := true } records true true hh
    have hh2 := persist_header_iface s.iface_line
      ⟨persist_value (a ++ ['\n']) :: names, c1 :: records, true⟩ hif1 hif2
    rw [if_pos rfl] at hh2
    obtain ⟨r, e, u⟩ := hrest ⟨persist_value (a ++ ['\n']) :: names, c1 :: records, true⟩
      (persist_value (a ++ ['\n']) :: names) c1 hh2 (by rw [u1]; simp)
    refine ⟨persist_value (a ++ ['\n']) :: names, r, ?_, u⟩
    rw [if_stanza.lines, ha]
    simp only [Option.toList, List.singleton_append, List.map_cons]
    rw [ubuntu_parse_persist_loop, e1]
    simpa using e

theorem persist_stanzas_loop (stanzas : List if_stanza) :
    ∀ (names : List CStr) (records : List interface_t), (∀ s ∈ stanzas, s.plain) →
      ∃ names2 recs, ubuntu_parse_persist_loop ⟨names, records, false⟩
            ((stanzas.map if_stanza.lines).flatten.map (fun l => l ++ ['\n']))
          = some ⟨names2, recs ++ records, false⟩
        ∧ recs.map (fun r => r.unmanaged.map without_newlines)
          = (stanzas.map (fun s => spec_unmanaged s.body)).reverse := by
  induction stanzas with
  | nil =>
    intro names records _
    exact ⟨names, [], rfl, rfl⟩
  | cons s rest ih =>
    intro names records h
    obtain ⟨names1, r, e1, u1⟩ := persist_stanza_loop s (h s (List.mem_cons_self s rest))
      names records
    obtain ⟨names2, recs, e2, u2⟩ := ih names1 (r :: records)
      (fun x hx => h x (List.mem_cons_of_mem s hx))
    refine ⟨names2, recs ++ [r], ?_, ?_⟩
    · rw [List.map_cons, List.flatten_cons, List.map_append, persist_loop_append, e1,
        Option.some_bind, e2]
      simp
    · rw [List.map_append, u2]
      simp [u1]

/-- C34 (amended). For every interfaces file made of lines that the parser passes over and
then of stanzas (an optional `auto` line, an `iface` line and the lines up to the next
stanza), `ubuntu_parse_persist_interfaces` returns one record per stanza, and the slot
`unmanaged` of a stanza's record holds, in file order and newlines aside, the text of
exactly those lines of the stanza in which none of the words `iface`, `auto`, `inet`,
`hwaddress`, `address`, `netmask`, `broadcast`, `metric`, `gateway`, `mtu`, `up` and `scope`
is found; the slot is absent when the stanza has no such line. -/
theorem C34_ubuntu_unmanaged_text (preamble : List CStr) (stanzas : List if_stanza)
    (hpre : ∀ l ∈ preamble, preamble_line l) (hst : ∀ s ∈ stanzas, s.plain)
    (_hnum : stanzas.length ≤ MAX_NUM_IF) :
    (ubuntu_parse_persist_interfaces
        (unlines (preamble ++ (stanzas.map if_stanza.lines).flatten))).map
        (fun d => d.interfaces.map (fun r => r.unmanaged.map without_newlines))
      = some (stanzas.map (fun s => spec_unmanaged s.body)) := by
  have hfit : ∀ l ∈ preamble ++ (stanzas.map if_stanza.lines).flatten,
      '\n' ∉ l ∧ NUL ∉ l ∧ l.length + 1 < MAX_OUTPUT_LEN := by
    intro l hl
    rcases List.mem_append.mp hl with hl | hl
    · exact (hpre l hl).2.2.2.2.2.2.2.2.2.2
    · obtain ⟨ls, hls, hmem⟩ := List.mem_flatten.mp hl
      obtain ⟨s, hs, rfl⟩ := List.mem_map.mp hls
      exact (hst s hs).2.2.2.2 l hmem
  obtain ⟨names2, recs, e, u⟩ := persist_stanzas_loop stanzas [] [] hst
  rw [ubuntu_parse_persist_interfaces, read_lines_unlines MAX_OUTPUT_LEN _ hfit,
    List.map_append, persist_loop_append]
  have hp := persist_preamble_loop preamble [] false hpre
  have hinit : ({} : persist_loop_t) = ⟨[], [], false⟩ := rfl
  rw [hinit, hp, Option.some_bind, e]
  simp only [Option.map_some', List.append_nil, List.map_reverse, Option.some.injEq]
  rw [u, List.reverse_reverse]

set_option maxRecDepth 100000 in
/-- C34 (amended), at an instance: a file with a comment, the stanza of the loopback and a
stanza of `eth0` in which a `pre-up` command stands between two lines that hold no keyword.
The slot of `eth0` holds the text of these two lines. -/
theorem C34_ubuntu_unmanaged_text_witness :
    (∀ l ∈ ["# The loopback network interface".toList], preamble_line l)
      ∧ (∀ s ∈ ex_stanzas, s.plain)
      ∧ (ubuntu_parse_persist_interfaces
          (unlines (["# The loopback network interface".toList]
            ++ (ex_stanzas.map if_stanza.lines).flatten))).map
          (fun d => d.interfaces.map (fun r => r.unmanaged.map without_newlines))
        = some [none,
            some "    dns-nameservers 10.0.0.1    dns-search example.com".toList] :=
  ⟨by decide, by decide,
    (C34_ubuntu_unmanaged_text ["# The loopback network interface".toList] ex_stanzas
      (by decide) (by decide) (by decide)).trans (by decide)⟩

/-! ## C33: the unknown lines of an ifcfg file -/

theorem opt_str_to_enum_table : ∀ k ∈ ifcfg_opt_indices, opt_str_to_enum (ifcfg_opt k) = k := by
  decide

theorem head_append_newline (l : CStr) (h : l.head? ≠ some '#') :
    (l ++ ['\n']).head? ≠ some '#' := by
  cases l with
  | nil => decide
  | cons c cs => simpa using h

theorem ifcfg_line_opt_directive (l : CStr) (hhead : l.head? ≠ some '#') (k : ifcfg_opt_t)
    (hk : k ∈ ifcfg_opt_indices) (hp : (ifcfg_opt k ++ ['=']).isPrefixOf l = true) :
    ifcfg_line_opt l = k := by
  obtain ⟨rest, hl⟩ := (starts_with_iff _ _).mp hp
  obtain ⟨hlen, -, heq, -⟩ := ifcfg_opt_shape k hk
  have hsep : strsep (l ++ ['\n']) ['='] = (ifcfg_opt k, some (rest ++ ['\n'])) := by
    have : l ++ ['\n'] = ifcfg_opt k ++ '=' :: (rest ++ ['\n']) := by rw [hl]; simp
    rw [this]
    apply strsep_at_delim
    · intro c hc hd
      have hce : c = '=' := by simpa using hd
      exact heq (hce ▸ hc)
    · simp
  have hfield : get_field_delim [] (l ++ ['\n']) 1 MAX_OPT_LEN ['='] = ifcfg_opt k := by
    rw [get_field_delim_first, hsep, safe_strncpy_truncates _ _ _ (by decide)]
    exact List.take_of_length_le (by simp only [MAX_OPT_LEN]; omega)
  have hsplit : (ifcfg_split_line (l ++ ['\n'])).1 = ifcfg_opt k := by
    simp only [ifcfg_split_line, head_append_newline l hhead, if_false]
    exact hfield
  rw [ifcfg_line_opt, hsplit]
  exact opt_str_to_enum_table k hk

theorem ifcfg_line_opt_unknown_iff (l : CStr) (hnl : '\n' ∉ l) (hhead : l.head? ≠ some '#') :
    ifcfg_line_opt l = UNKNOWN_OPT ↔ is_directive_line l = false := by
  constructor
  · intro hu
    cases hd : is_directive_line l with
    | false => rfl
    | true =>
      obtain ⟨k, hk, hp⟩ := List.any_eq_true.mp hd
      have := ifcfg_line_opt_directive l hhead k hk hp
      rw [hu] at this
      rw [← this] at hk
      exact absurd hk (by decide)
  · intro hd
    by_contra hk
    have heq : '=' ∈ l := by
      by_contra hne
      exact hk (ifcfg_split_no_eq l hnl hhead hne)
    obtain ⟨hsplit, hkeyeq⟩ := line_split_at_eq l heq
    generalize hkey : l.takeWhile (fun c => c ≠ '=') = key at hsplit hkeyeq
    have hsep : strsep (l ++ ['\n']) ['=']
        = (key, some (ifcfg_line_value l ++ ['\n'])) := by
      have : l ++ ['\n'] = key ++ '=' :: (ifcfg_line_value l ++ ['\n']) := by
        conv_lhs => rw [hsplit]
        simp
      rw [this]
      apply strsep_at_delim
      · intro c hc hd2
        have hce : c = '=' := by simpa using hd2
        exact hkeyeq (hce ▸ hc)
      · simp
    have hfield : (ifcfg_split_line (l ++ ['\n'])).1 = key.take (MAX_OPT_LEN - 1) := by
      simp only [ifcfg_split_line, head_append_newline l hhead, if_false]
      rw [get_field_delim_first, hsep, safe_strncpy_truncates _ _ _ (by decide)]
    obtain ⟨h1, h2⟩ := opt_str_to_enum_spec (ifcfg_split_line (l ++ ['\n'])).1
      (ifcfg_line_opt l) rfl hk
    obtain ⟨hlen, -, -, -⟩ := ifcfg_opt_shape _ h2
    rw [← h1, hfield, List.length_take] at hlen
    have hkl : key.length ≤ 18 := by
      simp only [MAX_OPT_LEN] at hlen
      omega
    have hkeyopt : key = ifcfg_opt (ifcfg_line_opt l) := by
      rw [← h1, hfield]
      exact (List.take_of_length_le (by simp only [MAX_OPT_LEN]; omega)).symm
    have hp : (ifcfg_opt (ifcfg_line_opt l) ++ ['=']).isPrefixOf l = true := by
      apply (starts_with_iff _ _).mpr
      refine ⟨ifcfg_line_value l, ?_⟩
      conv_lhs => rw [hsplit, hkeyopt]
      simp
    have : is_directive_line l = true := List.any_eq_true.mpr ⟨_, h2, hp⟩
    rw [this] at hd
    exact absurd hd (by simp)

theorem parse_ifcfg_switch_unknown_kept (cfg cfg2 : ifcfg_fields_t) (opt : ifcfg_opt_t)
    (v line : CStr) (h : parse_ifcfg_switch cfg opt v line = some cfg2)
    (hne : opt ≠ UNKNOWN_OPT) : cfg2.unknown = cfg.unknown := by
  cases opt <;>
    first
    | exact absurd rfl hne
    | (simp only [parse_ifcfg_switch] at h; cases h; rfl)
    | (simp only [parse_ifcfg_switch] at h; cases h)

theorem parse_ifcfg_switch_unknown_added (cfg : ifcfg_fields_t) (v line : CStr) :
    ∃ cfg2, parse_ifcfg_switch cfg UNKNOWN_OPT v line = some cfg2
      ∧ cfg2.unknown
        = some (match cfg.unknown with
            | none => accumulate_first line
            | some acc => accumulate_next acc line) := by
  cases hu : cfg.unknown with
  | none =>
    exact ⟨{ cfg with unknown := some (accumulate_first line) },
      by simp only [parse_ifcfg_switch, hu], rfl⟩
  | some acc =>
    exact ⟨{ cfg with unknown := some (accumulate_next acc line) },
      by simp only [parse_ifcfg_switch, hu], rfl⟩

theorem accumulate_first_line (l : CStr) : accumulate_first (l ++ ['\n']) = l ++ ['\n'] := by
  have hlen : (l ++ ['\n']).length ≠ 0 := by simp
  have h1 : (l ++ ['\n']).length - 1 = l.length := by simp
  rw [accumulate_first, safe_strncpy, if_neg hlen, h1, List.take_left' rfl]

theorem accumulate_next_line (acc l : CStr) :
    accumulate_next acc (l ++ ['\n']) = acc ++ (l ++ ['\n']) := by
  have hlen : (l ++ ['\n']).length ≠ 0 := by simp
  have h1 : (l ++ ['\n']).length - 1 = l.length := by simp
  have h2 : acc.length + 1 ≠ 0 := by omega
  rw [accumulate_next, safe_strncpy, if_neg h2, safe_strncpy, if_neg hlen, h1,
    List.take_left' rfl, Nat.add_sub_cancel, List.take_of_length_le (Nat.le_refl _)]
  simp

theorem ifcfg_line_opt_comment (l : CStr) (h : l.head? = some '#') :
    ifcfg_line_opt l = COMMENT := by
  cases l with
  | nil => simp at h
  | cons c cs =>
    have hc : c = '#' := by simpa using h
    subst hc
    simp only [ifcfg_line_opt, ifcfg_split_line, List.cons_append, List.head?_cons, if_true]
    decide

theorem parse_ifcfg_unknown_fold (lines : List CStr) (hnl : ∀ l ∈ lines, '\n' ∉ l) :
    ∀ cfg : ifcfg_fields_t,
      ∃ cfg2, parse_ifcfg_loop cfg (lines.map (fun l => l ++ ['\n'])) = some cfg2
        ∧ cfg2.unknown
          = if lines.filter is_unknown_line = [] then cfg.unknown
            else some (cfg.unknown.getD [] ++ unlines (lines.filter is_unknown_line)) := by
  induction lines with
  | nil =>
    intro cfg
    exact ⟨cfg, rfl, by simp⟩
  | cons l rest ih =>
    intro cfg
    have hl : '\n' ∉ l := hnl l (List.mem_cons_self l rest)
    have hstep : ∃ c1, parse_ifcfg_fields cfg (l ++ ['\n']) = some c1
        ∧ c1.unknown
          = if is_unknown_line l = true then some (cfg.unknown.getD [] ++ (l ++ ['\n']))
            else cfg.unknown := by
      by_cases hhead : l.head? = some '#'
      · have hopt := ifcfg_line_opt_comment l hhead
        obtain ⟨c1, h1⟩ := parse_ifcfg_switch_some cfg (ifcfg_line_opt l)
          (ifcfg_split_line (l ++ ['\n'])).2 (l ++ ['\n']) (by rw [hopt]; decide)
        refine ⟨c1, h1, ?_⟩
        rw [parse_ifcfg_switch_unknown_kept cfg c1 _ _ _ h1 (by rw [hopt]; decide)]
        simp [is_unknown_line, is_comment_line, hhead]
      · by_cases hd : is_directive_line l = true
        · have hopt : ifcfg_line_opt l ≠ UNKNOWN_OPT := by
            intro hu
            rw [(ifcfg_line_opt_unknown_iff l hl hhead).mp hu] at hd
            exact absurd hd (by simp)
          obtain ⟨c1, h1⟩ := parse_ifcfg_switch_some cfg (ifcfg_line_opt l)
            (ifcfg_split_line (l ++ ['\n'])).2 (l ++ ['\n']) (opt_str_to_enum_ne_num _)
          refine ⟨c1, h1, ?_⟩
          rw [parse_ifcfg_switch_unknown_kept cfg c1 _ _ _ h1 hopt]
          simp [is_unknown_line, hd]
        · have hd2 : is_directive_line l = false := by simpa using hd
          have hopt := (ifcfg_line_opt_unknown_iff l hl hhead).mpr hd2
          obtain ⟨c1, h1, u1⟩ := parse_ifcfg_switch_unknown_added cfg
            (ifcfg_split_line (l ++ ['\n'])).2 (l ++ ['\n'])
          refine ⟨c1, ?_, ?_⟩
          · rw [parse_ifcfg_fields]
            have : opt_str_to_enum (ifcfg_split_line (l ++ ['\n'])).1 = UNKNOWN_OPT := hopt
            rw [this]
            exact h1
          · rw [u1]
            have hk : is_unknown_line l = true := by
              simp [is_unknown_line, is_comment_line, hhead, hd2]
            rw [if_pos hk]
            cases cfg.unknown with
            | none => simp [accumulate_first_line]
            | some acc => simp [accumulate_next_line]
    obtain ⟨c1, e1, u1⟩ := hstep
    obtain ⟨c2, e2, u2⟩ := ih (fun x hx => hnl x (List.mem_cons_of_mem l hx)) c1
    refine ⟨c2, ?_, ?_⟩
    · rw [List.map_cons, parse_ifcfg_loop, e1]
      exact e2
    · rw [u2, u1, List.filter_cons]
      cases hk : is_unknown_line l with
      | false => simp
      | true =>
        by_cases hr : rest.filter is_unknown_line = []
        · simp [hr, unlines]
        · simp [hr, unlines, List.append_assoc]

/-- C33. For every ifcfg file made of newline-terminated lines that fit the line buffer,
the slot `unknown` of the record returned by `centos_parse_ifcfg` is the text, in file order
and with their newlines, of exactly the lines that neither start with `#` nor start with a
string of the table `ifcfg_opt` followed by `=`; the slot is absent when the file has no
such line. -/
theorem C33_centos_unknown_accumulator (lines : List CStr)
    (hlines : ∀ l ∈ lines, '\n' ∉ l ∧ NUL ∉ l ∧ l.length + 1 < CFG_LINE_LEN) :
    (centos_parse_ifcfg (some (unlines lines))).toOption.map (fun cfg => cfg.unknown)
      = some (if lines.filter is_unknown_line = [] then none
          else some (unlines (lines.filter is_unknown_line))) := by
  obtain ⟨cfg2, e, u⟩ := parse_ifcfg_unknown_fold lines (fun l hl => (hlines l hl).1) {}
  have hread := read_lines_unlines CFG_LINE_LEN lines hlines
  simp only [centos_parse_ifcfg, hread, e, parse_ptr.toOption, Option.map_some', u,
    Option.some.injEq]
  by_cases hk : lines.filter is_unknown_line = []
  · rw [if_pos hk, if_pos hk]
  · rw [if_neg hk, if_neg hk]
    simp

set_option maxRecDepth 100000 in
/-- C33, at an instance: of the seven lines of the file, `ZONE=public`, the empty line,
`PEERDNS=no` and `ONBOOT` (without `=`) are kept, in this order. -/
theorem C33_centos_unknown_accumulator_witness :
    (centos_parse_ifcfg (some (unlines ex_ifcfg_unknown_lines))).toOption.map
        (fun cfg => cfg.unknown)
      = some (some "ZONE=public\n\nPEERDNS=no\nONBOOT\n".toList) :=
  (C33_centos_unknown_accumulator ex_ifcfg_unknown_lines (by decide)).trans (by decide)

/-! ## C32: the IPv4 address of the active configuration -/

set_option maxRecDepth 1000000 in
/-- C32 (defect of the code). For an interface that has an IPv6 address only,
`centos_parse_ip_show` looks for `inet` without a space behind it, finds `inet6` and stores
the IPv6 address `fe80::5054:ff:fe12:3456` in the field `inet`; the field `inet_mask` is set
too, from the prefix length 64. The Debian parser looks for `inet` and a space and finds no
address in the same output. With an IPv4 entry in front, the field `inet` is `10.0.0.5` and
the mask `255.255.255.0`. -/
theorem C32_centos_parse_ip_show_takes_inet6 (undefined_shift : Int → Nat) :
    ((centos_parse_ip_show undefined_shift (some ex_ip_show_v6_only) (some [])).toOption.map
        (fun a => a.inet)) = some (some "fe80::5054:ff:fe12:3456".toList)
      ∧ ((centos_parse_ip_show undefined_shift (some ex_ip_show_v6_only)
          (some [])).toOption.map (fun a => a.inet_mask.isSome)) = some true
      ∧ ubuntu_active_address (clean_output ex_ip_show_v6_only) = none
      ∧ ((centos_parse_ip_show undefined_shift (some ex_ip_show_v4_v6) (some [])).toOption.map
        (fun a => (a.inet, a.inet_mask)))
        = some (some "10.0.0.5".toList, some "255.255.255.0".toList) := by
  have h1 : strstr (clean_output ex_ip_show_v6_only) "inet".toList
      = some ("inet6 fe80::5054:ff:fe12:3456/64 scope link valid_lft forever ".toList
          ++ "preferred_lft forever ".toList) := by decide
  have h2 : strstr (clean_output ex_ip_show_v4_v6) "inet".toList
      = some (("inet 10.0.0.5/24 brd 10.0.0.255 scope global eth0 valid_lft forever ".toList
          ++ "preferred_lft forever inet6 fe80::5054:ff:fe12:3456/64 scope link ".toList)
          ++ "valid_lft forever preferred_lft forever ".toList) := by decide
  refine ⟨?_, ?_, by decide, ?_⟩
  · simp only [centos_parse_ip_show, parse_ptr.toOption, Option.map_some', h1]
    decide
  · simp only [centos_parse_ip_show, parse_ptr.toOption, Option.map_some', h1]
    rfl
  · simp only [centos_parse_ip_show, parse_ptr.toOption, Option.map_some', h2,
      Option.some.injEq, Prod.mk.injEq]
    refine ⟨by decide, ?_⟩
    have h24 : atoi (ip_show_slash_field
        (("inet 10.0.0.5/24 brd 10.0.0.255 scope global eth0 valid_lft forever ".toList
          ++ "preferred_lft forever inet6 fe80::5054:ff:fe12:3456/64 scope link ".toList)
          ++ "valid_lft forever preferred_lft forever ".toList) 2 MAX_VAL_LEN) = 24 := by
      decide
    rw [h24]
    simp [bitmask_to_netmask_ipv4]
    decide

/-! ## C31: the interface lists of the two dialects -/

theorem centos_if_name_indented (e : link_entry) (he : e.indented) :
    centos_if_name (e.second ++ ['\n']) = [] := by
  obtain ⟨rest, hrest⟩ : ∃ rest, e.second = ' ' :: ' ' :: rest := by
    unfold link_entry.indented at he
    cases hs : e.second with
    | nil => rw [hs] at he; simp at he
    | cons c cs =>
      cases cs with
      | nil => rw [hs] at he; simp at he
      | cons d ds =>
        rw [hs] at he
        simp only [List.take_succ_cons, List.take_zero, List.cons.injEq, and_true] at he
        exact ⟨ds, by rw [he.1, he.2]⟩
  have hsep1 : strsep (e.second ++ ['\n']) [' '] = ([], some (' ' :: rest ++ ['\n'])) := by
    rw [hrest]
    simp [strsep]
  have hsep2 : strsep (' ' :: rest ++ ['\n']) [' '] = ([], some (rest ++ ['\n'])) := by
    simp [strsep]
  have hget : get_field_delim [] (e.second ++ ['\n']) 2 MAX_IF_NAME [' '] = [] := by
    rw [get_field_delim_second, hsep1]
    simp only [hsep2, safe_strncpy]
    simp
  unfold centos_if_name
  rw [hget]
  rfl

theorem ubuntu_parse_if_names_loop_entries (is_up : CStr → Bool) (hempty : is_up [] = false)
    (entries : List link_entry) (he : ∀ e ∈ entries, e.plain ∧ e.indented) (line_num : Nat)
    (hnum : line_num % 2 = 0) (if_list : List CStr) :
    ubuntu_parse_if_names_loop is_up
        ((entries.map (fun e => [e.first, e.second])).flatten.map (fun l => l ++ ['\n']))
        line_num if_list
      = if_list ++ (entries.map link_entry.name).filter is_up := by
  induction entries generalizing line_num if_list with
  | nil => simp [ubuntu_parse_if_names_loop]
  | cons e es ih =>
    have hname := centos_if_name_first e (he e (List.mem_cons_self e es)).1
    have hsecond := centos_if_name_indented e (he e (List.mem_cons_self e es)).2
    have hodd : ¬ (line_num + 1) % 2 = 0 := by omega
    have hrest := fun n hn l =>
      ih (fun x hx => he x (List.mem_cons_of_mem e hx)) n hn l
    have hshape : ((e :: es).map (fun e => [e.first, e.second])).flatten.map
          (fun l => l ++ ['\n'])
        = (e.first ++ ['\n']) :: (e.second ++ ['\n'])
          :: (es.map (fun e => [e.first, e.second])).flatten.map (fun l => l ++ ['\n']) := by
      simp
    rw [hshape]
    by_cases hup : is_up e.name = true
    · rw [ubuntu_parse_if_names_loop, if_pos hnum, hname, if_neg (by simp [hup]),
        ubuntu_parse_if_names_loop, if_neg hodd, hrest (line_num + 1 + 1) (by omega)]
      simp [List.filter_cons, hup]
    · rw [ubuntu_parse_if_names_loop, if_pos hnum, hname, if_pos (by simp [hup]),
        ubuntu_parse_if_names_loop, if_pos hnum, hsecond, if_pos (by simp [hempty]),
        hrest line_num hnum]
      simp [List.filter_cons, hup]

end Nsync
